import Mathlib

/-!
Longhorn manager: the Kubernetes node controller.

A shallow embedding of `controller/kubernetes_node_controller.go`.

Go values are translated as follows.

* A Go `error` is an `Option GoError` (`none` is `nil`).
* A Go pointer result `(*T, error)` is a pair `Option T × Option GoError`; a
  dereference of `nil` makes the function end with `Outcome.panicked`.
* A Go `map[string]string` is an association list read with `List.lookup`; a
  `map[string]struct{}` is the list of its keys.
* Calls that leave the function (datastore writes, goroutines, work-queue
  operations, the error sink) are recorded, in program order, in a list of
  `Effect`s.  The answers of the datastore are the fields of `DataStore`.
-/

namespace Longhorn

/-! ## Errors (`github.com/pkg/errors`, `k8s.io/apimachinery/pkg/api/errors`) -/

/-- Reason carried by an API status error. -/
inductive StatusReason where
  | NotFound
  | Conflict
  | AlreadyExists
  | Unknown
  deriving DecidableEq, Repr

/-- Go error values: an API status error, a plain error, or an error wrapped
with a message by `errors.Wrapf`. -/
inductive GoError where
  | status (reason : StatusReason) (msg : String)
  | plain (msg : String)
  | wrap (msg : String) (cause : GoError)
  deriving DecidableEq, Repr

/-- Go `errors.Wrapf(err, msg)`: `nil` stays `nil`, any other error is wrapped. -/
def errors_Wrapf (err : Option GoError) (msg : String) : Option GoError :=
  match err with
  | none => none
  | some e => some (GoError.wrap msg e)

/-- Root of a chain of wrapped errors. -/
def GoError.cause : GoError → GoError
  | GoError.wrap _ c => c.cause
  | e => e

/-- Go `err.Error()`: a wrapped error prints its message before its cause. -/
def GoError.Error : GoError → String
  | GoError.status _ msg => msg
  | GoError.plain msg => msg
  | GoError.wrap msg c => msg ++ ": " ++ c.Error

/-- Go `errors.Cause(err)`. -/
def errors_Cause (err : Option GoError) : Option GoError :=
  err.map GoError.cause

/-- Go `apierrors.IsConflict(err)`: a status error whose reason is Conflict. -/
def apierrors_IsConflict (err : Option GoError) : Bool :=
  match err with
  | some (GoError.status StatusReason.Conflict _) => true
  | _ => false

/-- Go `apierrors.IsNotFound(err)`. -/
def apierrors_IsNotFound (err : Option GoError) : Bool :=
  match err with
  | some (GoError.status StatusReason.NotFound _) => true
  | _ => false

/-- Go `datastore.ErrorIsNotFound(err)`: the cause of the error is NotFound. -/
def ErrorIsNotFound (err : Option GoError) : Bool :=
  apierrors_IsNotFound (errors_Cause err)

/-! ## Data model -/

/-- Modelled from the spec: the spec of the Longhorn `Node` entity (section 3:
`allowScheduling`, `tags`, `diskPathMap`); the type declaration is not part of
the sources at hand.  `DiskPathMap` lists the keys of the Go map. -/
structure NodeSpec where
  AllowScheduling : Bool
  Tags : List String
  DiskPathMap : List String
  deriving DecidableEq, Repr

/-- Modelled from the spec: the Longhorn `Node` entity, its name and its spec. -/
structure Node where
  Name : String
  Spec : NodeSpec
  deriving DecidableEq, Repr

/-- The part of a Kubernetes `v1.Node` read by the controller. -/
structure KubeNode where
  Namespace : String
  Name : String
  Labels : List (String × String)
  Annotations : List (String × String)
  deriving DecidableEq, Repr

/-- Modelled from the spec: setting `create-default-disk-labeled-nodes`
(`types.SettingNameCreateDefaultDiskLabeledNodes`). -/
def SettingNameCreateDefaultDiskLabeledNodes : String := "create-default-disk-labeled-nodes"

/-- Modelled from the spec: setting `default-data-path`
(`types.SettingNameDefaultDataPath`). -/
def SettingNameDefaultDataPath : String := "default-data-path"

/-- Modelled from the spec: node label `create-default-disk`
(`types.NodeCreateDefaultDiskLabelKey`). -/
def NodeCreateDefaultDiskLabelKey : String := "create-default-disk"

/-- Modelled from the spec: label value `true`. -/
def NodeCreateDefaultDiskLabelValueTrue : String := "true"

/-- Modelled from the spec: label value `config`. -/
def NodeCreateDefaultDiskLabelValueConfig : String := "config"

/-- Modelled from the spec: node annotation `default-disk-config`
(`types.KubeNodeDefaultDiskConfigAnnotationKey`). -/
def KubeNodeDefaultDiskConfigAnnotationKey : String := "default-disk-config"

/-- Modelled from the spec: node annotation `default-node-tag-config`
(`types.KubeNodeDefaultNodeTagConfigAnnotationKey`). -/
def KubeNodeDefaultNodeTagConfigAnnotationKey : String := "default-node-tag-config"

/-- Lower-casing of one character, ASCII letters only. -/
def toLowerRune (c : Char) : Char :=
  if 'A' ≤ c ∧ c ≤ 'Z' then Char.ofNat (c.toNat + 32) else c

/-- Go `strings.ToLower` on the ASCII range; Kubernetes label values are
ASCII (alphanumerics, `-`, `_`, `.`). -/
def strings_ToLower (s : String) : String :=
  String.mk (s.data.map toLowerRune)

/-! ## The datastore and the effects of a pass -/

/-- Answers of the datastore (`knc.ds`) and of `types.GetNodeTagsFromAnnotation`
during one pass.  These functions are not part of the sources at hand and are
parameters of the embedding.  `PrepareForDefaultDiskCreation` receives the node
by pointer: its first component is the node as it leaves the call. -/
structure DataStore where
  GetSettingAsBool : String → Bool × Option GoError
  GetSettingValueExisted : String → String × Option GoError
  GetKubernetesNode : String → Option KubeNode × Option GoError
  GetNode : String → Option Node × Option GoError
  UpdateNode : Node → Option Node × Option GoError
  DeleteNode : String → Option GoError
  PrepareForDefaultDiskCreation : String → Node → Node × Option GoError
  GetNodeTagsFromAnnotation : String → List String × Option GoError

/-- Calls that leave the controller, in program order. -/
inductive Effect where
  /-- Call `ds.PrepareForDefaultDiskCreation(dataPath, node)`. -/
  | PrepareForDefaultDiskCreation (dataPath : String) (node : Node)
  /-- Call `ds.UpdateNode(node)`. -/
  | UpdateNode (node : Node)
  /-- Call `ds.DeleteNode(name)`. -/
  | DeleteNode (name : String)
  /-- Goroutine that will call `ds.WaitForDiskCreation(node.Name, dataPath)`;
  `node` is the pointer captured by the closure. -/
  | GoWaitForDiskCreation (node : Option Node) (dataPath : String)
  /-- Goroutine that will call `ds.CreateDisksFromAnnotation(nodeName, annotation)`. -/
  | GoCreateDisksFromAnnotation (nodeName : String) ( annotation : String)
  /-- Call `queue.AddRateLimited(key)`. -/
  | AddRateLimited (key : String)
  /-- Call `queue.Forget(key)`. -/
  | Forget (key : String)
  /-- Call `utilruntime.HandleError(err)`. -/
  | HandleError (err : GoError)
  deriving DecidableEq, Repr

/-- How a Go function ends: it returns its `error`, or it panics. -/
inductive Outcome where
  | returned (err : Option GoError)
  | panicked
  deriving DecidableEq, Repr

/-- Result of a function that receives a `*longhorn.Node`: the node behind the
pointer when the function ends, the effects, and the outcome. -/
structure NodeSync where
  node : Node
  effects : List Effect
  outcome : Outcome
  deriving DecidableEq, Repr

/-- Result of a function that only returns an `error`. -/
structure Pass where
  effects : List Effect
  outcome : Outcome
  deriving DecidableEq, Repr

/-! ## Keys (`k8s.io/client-go/tools/cache`) -/

/-- Go `strings.Split(s, "/")` on the characters of `s`. -/
def splitOnSlash : List Char → List (List Char)
  | [] => [[]]
  | c :: cs =>
    match splitOnSlash cs with
    | [] => [[]]
    | p :: ps => if c = '/' then [] :: p :: ps else (c :: p) :: ps

/-- Go `cache.SplitMetaNamespaceKey(key)`: one part is a name, two parts are
a namespace and a name, anything else is an error. -/
def SplitMetaNamespaceKey (key : String) : String × String × Option GoError :=
  match splitOnSlash key.data with
  | [name] => ("", String.mk name, none)
  | [ns, name] => (String.mk ns, String.mk name, none)
  | _ => ("", "", some (GoError.plain ("unexpected key format: " ++ key)))

/-- Objects handed to the informer handlers as `interface` values. -/
inductive Object where
  | kubeNode (n : KubeNode)
  | deletedFinalStateUnknown (key : String)
  | unexpected
  deriving DecidableEq, Repr

/-- Go `controller.KeyFunc(obj)` (`cache.DeletionHandlingMetaNamespaceKeyFunc`):
a tombstone gives its key, an object gives `namespace/name`, or `name` when
the namespace is empty; an object without metadata is an error. -/
def KeyFunc (obj : Object) : String × Option GoError :=
  match obj with
  | Object.deletedFinalStateUnknown key => (key, none)
  | Object.kubeNode n =>
    if n.Namespace.length > 0 then (n.Namespace ++ "/" ++ n.Name, none) else (n.Name, none)
  | Object.unexpected => ("", some (GoError.plain "object has no meta"))

/-! ## The work queue (`k8s.io/client-go/util/workqueue`) -/

/-- The rate limiter of the queue: the number of requeues recorded per key. -/
structure WorkQueue where
  failures : String → Nat

/-- Go `queue.NumRequeues(key)`. -/
def WorkQueue.NumRequeues (q : WorkQueue) (key : String) : Nat :=
  q.failures key

/-- Go `queue.AddRateLimited(key)`: the rate limiter counts one more requeue of
the key. -/
def WorkQueue.AddRateLimited (q : WorkQueue) (key : String) : WorkQueue :=
  { failures := fun k => if k = key then q.failures k + 1 else q.failures k }

/-- Go `queue.Forget(key)`: the rate limiter drops the count of the key. -/
def WorkQueue.Forget (q : WorkQueue) (key : String) : WorkQueue :=
  { failures := fun k => if k = key then 0 else q.failures k }

/-- The queue after one effect. -/
def WorkQueue.step (q : WorkQueue) (e : Effect) : WorkQueue :=
  match e with
  | Effect.AddRateLimited key => q.AddRateLimited key
  | Effect.Forget key => q.Forget key
  | _ => q

/-- The queue after a list of effects. -/
def WorkQueue.run (q : WorkQueue) (es : List Effect) : WorkQueue :=
  es.foldl WorkQueue.step q

/-! ## The controller -/

/-- The controller: its identity, its datastore and the retry bound
`maxRetries` of the package. -/
structure KubernetesNodeController where
  controllerID : String
  ds : DataStore
  maxRetries : Nat

/-- Go `handleErr(err, key)`. -/
def handleErr (knc : KubernetesNodeController) (q : WorkQueue) (err : Option GoError)
    (key : String) : List Effect :=
  match err with
  | none => [Effect.Forget key]
  | some e =>
    if q.NumRequeues key < knc.maxRetries then
      [Effect.AddRateLimited key]
    else
      [Effect.HandleError e, Effect.Forget key]

/-- Go `enqueueKubernetesNode(node)`. -/
def enqueueKubernetesNode (obj : Object) : List Effect :=
  match KeyFunc obj with
  | (_, some err) =>
    [Effect.HandleError (GoError.plain ("Couldn't get key for object: " ++ err.Error))]
  | (key, none) => [Effect.AddRateLimited key]

/-- Go `syncDefaultDisks(node)`. -/
def syncDefaultDisks (ds : DataStore) (node : Node) : NodeSync :=
  match ds.GetSettingAsBool SettingNameCreateDefaultDiskLabeledNodes with
  | (_, some err) => ⟨node, [], Outcome.returned (some err)⟩
  | (requireLabel, none) =>
    if !requireLabel then ⟨node, [], Outcome.returned none⟩
    -- only apply default disk config if the node disk map is empty
    else if node.Spec.DiskPathMap.length != 0 then ⟨node, [], Outcome.returned none⟩
    else
      match ds.GetKubernetesNode node.Name with
      | (_, some err) => ⟨node, [], Outcome.returned (some err)⟩
      | (none, none) => ⟨node, [], Outcome.panicked⟩
      | (some kubeNode, none) =>
        match kubeNode.Labels.lookup NodeCreateDefaultDiskLabelKey with
        | none => ⟨node, [], Outcome.returned none⟩
        | some val =>
          let val := strings_ToLower val
          if val = NodeCreateDefaultDiskLabelValueTrue then
            match ds.GetSettingValueExisted SettingNameDefaultDataPath with
            | (_, some err) => ⟨node, [], Outcome.returned (some err)⟩
            | (dataPath, none) =>
              let prepare := Effect.PrepareForDefaultDiskCreation dataPath node
              match ds.PrepareForDefaultDiskCreation dataPath node with
              | (prepared, some err) => ⟨prepared, [prepare], Outcome.returned (some err)⟩
              | (prepared, none) =>
                let update := Effect.UpdateNode prepared
                match ds.UpdateNode prepared with
                | (none, some _) =>
                  -- the message of the wrapped error reads `node.Name` of the returned node
                  ⟨prepared, [prepare, update], Outcome.panicked⟩
                | (some updated, some err) =>
                  ⟨prepared, [prepare, update], Outcome.returned (errors_Wrapf (some err)
                    ("Kubernetes node: Failed to update node " ++ updated.Name ++
                      " during the default disk auto creation"))⟩
                | (updated, none) =>
                  ⟨prepared, [prepare, update, Effect.GoWaitForDiskCreation updated dataPath],
                    Outcome.returned none⟩
          else if val = NodeCreateDefaultDiskLabelValueConfig then
            match kubeNode.Annotations.lookup KubeNodeDefaultDiskConfigAnnotationKey with
            | none => ⟨node, [], Outcome.returned none⟩
            | some annotation =>
              ⟨node, [Effect.GoCreateDisksFromAnnotation node.Name annotation],
                Outcome.returned none⟩
          else ⟨node, [], Outcome.returned none⟩

/-- Go `syncDefaultNodeTags(node)`. -/
def syncDefaultNodeTags (ds : DataStore) (node : Node) : NodeSync :=
  if node.Spec.Tags.length != 0 then ⟨node, [], Outcome.returned none⟩
  else
    match ds.GetKubernetesNode node.Name with
    | (_, some err) => ⟨node, [], Outcome.returned (some err)⟩
    | (none, none) => ⟨node, [], Outcome.panicked⟩
    | (some kubeNode, none) =>
      match kubeNode.Annotations.lookup KubeNodeDefaultNodeTagConfigAnnotationKey with
      | none => ⟨node, [], Outcome.returned none⟩
      | some val =>
        match ds.GetNodeTagsFromAnnotation val with
        | (_, some _) => ⟨node, [], Outcome.returned none⟩
        | (tags, none) =>
          let tagged : Node := { node with Spec := { node.Spec with Tags := tags } }
          match ds.UpdateNode tagged with
          | (_, some err) => ⟨tagged, [Effect.UpdateNode tagged], Outcome.returned (some err)⟩
          | (_, none) => ⟨tagged, [Effect.UpdateNode tagged], Outcome.returned none⟩

/-- The two syncs of `syncKubernetesNode` on the node returned by `ds.GetNode`,
a pointer that may be `nil`: default disks first, node tags only when the
first sync returns `nil`. -/
def syncNode (ds : DataStore) (node : Option Node) : Pass :=
  match node with
  | none =>
    -- `syncDefaultDisks(nil)` reads the setting before it reads `node.Spec`;
    -- `syncDefaultNodeTags(nil)` reads `node.Spec` at once
    match ds.GetSettingAsBool SettingNameCreateDefaultDiskLabeledNodes with
    | (_, some err) => ⟨[], Outcome.returned (some err)⟩
    | (_, none) => ⟨[], Outcome.panicked⟩
  | some node =>
    let disks := syncDefaultDisks ds node
    match disks.outcome with
    | Outcome.panicked => ⟨disks.effects, Outcome.panicked⟩
    | Outcome.returned (some err) => ⟨disks.effects, Outcome.returned (some err)⟩
    | Outcome.returned none =>
      let tags := syncDefaultNodeTags ds disks.node
      ⟨disks.effects ++ tags.effects, tags.outcome⟩

/-- Go `syncKubernetesNode(key)`.  The two deferred functions run in reverse
order of registration: the requeue on conflict, then the wrapping of the error.
When a sync panics the result variable `err` holds the `nil` of `ds.GetNode`, so
the deferred functions change nothing and the panic goes on. -/
def syncKubernetesNode (knc : KubernetesNodeController) (key : String) : Pass :=
  let wrap := fun (err : Option GoError) => errors_Wrapf err ("fail to sync node for " ++ key)
  match SplitMetaNamespaceKey key with
  | (_, _, some err) => ⟨[], Outcome.returned (wrap (some err))⟩
  | (_, name, none) =>
    let found := knc.ds.GetKubernetesNode name
    if found.2.isSome && !ErrorIsNotFound found.2 then ⟨[], Outcome.returned (wrap found.2)⟩
    else
      match found.1 with
      | none =>
        ⟨[Effect.DeleteNode name], Outcome.returned (wrap (knc.ds.DeleteNode name))⟩
      | some kubeNode =>
        let body : Pass :=
          if knc.controllerID != kubeNode.Name then ⟨[], Outcome.returned none⟩
          else
            match knc.ds.GetNode kubeNode.Name with
            | (_, some _) => ⟨[], Outcome.returned none⟩
            | (node, none) => syncNode knc.ds node
        match body.outcome with
        | Outcome.panicked => ⟨body.effects, Outcome.panicked⟩
        | Outcome.returned err =>
          -- requeue if it is a conflict
          if apierrors_IsConflict (errors_Cause err) then
            ⟨body.effects ++ enqueueKubernetesNode (Object.kubeNode kubeNode),
              Outcome.returned (wrap none)⟩
          else ⟨body.effects, Outcome.returned (wrap err)⟩

/-- Whether an effect is a call of `queue.AddRateLimited`. -/
def Effect.isAddRateLimited : Effect → Bool
  | Effect.AddRateLimited _ => true
  | _ => false

/-- Whether an effect is a call of `queue.Forget`. -/
def Effect.isForget : Effect → Bool
  | Effect.Forget _ => true
  | _ => false

/-- One failing attempt on a key: the objects the informers hand to
`enqueueKubernetesNode` since the previous attempt, and the datastore as it
answers during the attempt. -/
structure Attempt where
  events : List Object
  ds : DataStore

/-- Successive runs of `processNextWorkItem` on `key`, one per attempt, from
the queue `q`.  The result counts the attempts in which `handleErr` re-added
the key before the first attempt in which it did not, and tells whether that
attempt forgot the key and reported the error (the key is dropped).  The
count stops as well when the sync returns nil or panics. -/
def readdsBeforeDrop (knc : KubernetesNodeController) (key : String) :
    WorkQueue → List Attempt → Nat × Bool
  | _, [] => (0, false)
  | q, a :: rest =>
    let q1 := q.run (a.events.map enqueueKubernetesNode).flatten
    let sync := syncKubernetesNode { knc with ds := a.ds } key
    let q2 := q1.run sync.effects
    match sync.outcome with
    | Outcome.panicked => (0, false)
    | Outcome.returned none => (0, false)
    | Outcome.returned (some err) =>
      let handled := handleErr knc q2 (some err) key
      if handled = [Effect.AddRateLimited key] then
        ((readdsBeforeDrop knc key (q2.run handled) rest).1 + 1,
          (readdsBeforeDrop knc key (q2.run handled) rest).2)
      else (0, decide (handled = [Effect.HandleError err, Effect.Forget key]))

/-! ## Sample data -/

/-- A Longhorn node without tags and without disks. -/
def sampleNode : Node :=
  { Name := "node-1", Spec := { AllowScheduling := true, Tags := [], DiskPathMap := [] } }

/-- The Kubernetes node of `sampleNode` with the given labels and annotations. -/
def sampleKubeNode (labels annotations : List (String × String)) : KubeNode :=
  { Namespace := "", Name := "node-1", Labels := labels, Annotations := annotations }

/-- A conflict reported by the API server. -/
def sampleConflict : GoError :=
  GoError.status StatusReason.Conflict "the object has been modified"

/-- A datastore that holds `sampleNode` and one Kubernetes node, answers the
boolean setting with `requireLabel` and the data path with `/var/lib/longhorn`,
adds the prepared path to the disks of the node, reads one tag annotation, and
answers writes with `update`. -/
def sampleStore (requireLabel : Bool) (kubeNode : KubeNode)
    (update : Node → Option Node × Option GoError) : DataStore :=
  { GetSettingAsBool := fun _ => (requireLabel, none),
    GetSettingValueExisted := fun _ => ("/var/lib/longhorn", none),
    GetKubernetesNode := fun name =>
      if name = kubeNode.Name then (some kubeNode, none)
      else (none, some (GoError.status StatusReason.NotFound "node not found")),
    GetNode := fun name =>
      if name = sampleNode.Name then (some sampleNode, none)
      else (none, some (GoError.status StatusReason.NotFound "node not found")),
    UpdateNode := update,
    DeleteNode := fun _ => none,
    PrepareForDefaultDiskCreation := fun dataPath node =>
      ({ node with Spec := { node.Spec with DiskPathMap := dataPath :: node.Spec.DiskPathMap } },
        none),
    GetNodeTagsFromAnnotation := fun val =>
      if val = "[\"fast\",\"ssd\"]" then (["fast", "ssd"], none)
      else ([], some (GoError.plain "fail to unmarshal the node tag annotation")) }

/-- A write that succeeds and returns the node written. -/
def updateOk (node : Node) : Option Node × Option GoError := (some node, none)

/-- A write that loses the optimistic-concurrency race. -/
def updateConflict (_ : Node) : Option Node × Option GoError := (none, some sampleConflict)

/-- A queue in which no key has been requeued. -/
def emptyQueue : WorkQueue := { failures := fun _ => 0 }



/-- A datastore whose cache of Kubernetes nodes cannot be read. -/
def brokenStore : DataStore :=
  { sampleStore false (sampleKubeNode [] []) updateOk with
    GetKubernetesNode := fun _ => (none, some (GoError.plain "cache is not synced")) }

/-- Five attempts against `brokenStore`; before the second one an update of the
Kubernetes node `node-1` is handed to `enqueueKubernetesNode`. -/
def sampleAttempts : List Attempt :=
  [⟨[], brokenStore⟩, ⟨[Object.kubeNode (sampleKubeNode [] [])], brokenStore⟩,
    ⟨[], brokenStore⟩, ⟨[], brokenStore⟩, ⟨[], brokenStore⟩]

/-! ## The setting CRD (`crd/clients/setting_client.go`) -/

/-- Modelled from the spec: the constants of package `crdtype`, which is not
part of the sources at hand; they only name the resource that is created. -/
structure CrdType where
  SettingFullName : String
  CRDGroup : String
  CRDVersion : String
  SettingPlural : String
  SettingShortname : String
  deriving DecidableEq, Repr

/-- The `CustomResourceDefinition` handed to the API server. -/
structure CustomResourceDefinition where
  Name : String
  Group : String
  Version : String
  Scope : String
  Plural : String
  Kind : String
  ShortNames : List String
  deriving DecidableEq, Repr

/-- Go `apierrors.IsAlreadyExists(err)`: a status error whose reason is
AlreadyExists. -/
def apierrors_IsAlreadyExists (err : Option GoError) : Bool :=
  match err with
  | some (GoError.status StatusReason.AlreadyExists _) => true
  | _ => false

/-- The object built by `CreateSettingCRD`. -/
def settingCRD (t : CrdType) : CustomResourceDefinition :=
  { Name := t.SettingFullName,
    Group := t.CRDGroup,
    Version := t.CRDVersion,
    Scope := "Namespaced",
    Plural := t.SettingPlural,
    Kind := "Crdsetting",
    ShortNames := [t.SettingShortname] }

/-- Go `CreateSettingCRD(clientset)`; `create` is the error answered by the
call `CustomResourceDefinitions().Create(crd)`. -/
def CreateSettingCRD (t : CrdType) (create : CustomResourceDefinition → Option GoError) :
    Option GoError :=
  let err := create (settingCRD t)
  if err.isSome && apierrors_IsAlreadyExists err then none else err

/-- The names of the setting CRD in a sample deployment. -/
def sampleCrdType : CrdType :=
  { SettingFullName := "settings.longhorn.rancher.io",
    CRDGroup := "longhorn.rancher.io",
    CRDVersion := "v1alpha1",
    SettingPlural := "settings",
    SettingShortname := "lhs" }

/-! ## Paths and strings (`path/filepath`, `strings`) -/

/-- Go `strings.Join(parts, "/")` on characters. -/
def joinSlash : List (List Char) → List Char
  | [] => []
  | [c] => c
  | c :: d :: cs => c ++ '/' :: joinSlash (d :: cs)

/-- One path element met by `filepath.Clean`; `stack` holds the elements kept
so far, the last one first.  Empty elements and `.` are dropped, `..` removes
the element before it, is dropped at the root, and is kept at the front of a
path that is not rooted. -/
def cleanStep (rooted : Bool) (stack : List (List Char)) (c : List Char) : List (List Char) :=
  if c = [] ∨ c = ['.'] then stack
  else if c = ['.', '.'] then
    match stack with
    | top :: rest => if top = ['.', '.'] then c :: stack else rest
    | [] => if rooted then [] else [c]
  else c :: stack

/-- The elements that `filepath.Clean` keeps, in path order. -/
def cleanElements (p : List Char) : List (List Char) :=
  ((splitOnSlash p).foldl (cleanStep (p.head? = some '/')) []).reverse

/-- Go `filepath.Clean(path)` on characters (separator `/`). -/
def cleanChars (p : List Char) : List Char :=
  if p = [] then ['.']
  else
    let out := (if p.head? = some '/' then ['/'] else []) ++ joinSlash (cleanElements p)
    if out = [] then ['.'] else out

/-- Go `filepath.Clean(path)`. -/
def filepath_Clean (path : String) : String :=
  String.mk (cleanChars path.data)

/-- Go `filepath.Join(elem...)`: the elements from the first non-empty one on
are joined with `/` and cleaned; without such an element the result is empty. -/
def filepath_Join : List String → String
  | [] => ""
  | e :: rest =>
    if e = "" then filepath_Join rest
    else String.mk (cleanChars (joinSlash ((e :: rest).map String.data)))

/-- The loop of Go `strings.Split(s, sep)` for a non-empty `sep`: `skip` counts
the characters of a separator still to pass, `cur` holds the characters of the
current part, the last one first. -/
def splitAux (sep : List Char) : List Char → Nat → List Char → List (List Char)
  | [], _, cur => [cur.reverse]
  | _ :: cs, skip + 1, cur => splitAux sep cs skip cur
  | c :: cs, 0, cur =>
    if sep.isPrefixOf (c :: cs) then cur.reverse :: splitAux sep cs (sep.length - 1) []
    else splitAux sep cs 0 (c :: cur)

/-- Go `strings.Split(s, sep)` for a non-empty `sep`. -/
def strings_Split (s sep : String) : List String :=
  (splitAux sep.data s.data 0 []).map String.mk

/-- A path element that `filepath.Clean` keeps in a rooted path: not empty, not
`.`, not `..`, without `/`. -/
def regularElement (c : List Char) : Prop :=
  c ≠ [] ∧ c ≠ ['.'] ∧ c ≠ ['.', '.'] ∧ '/' ∉ c

/-- The rooted path made of the given elements, each one after a `/`. -/
def rootedPath : List (List Char) → List Char
  | [] => []
  | c :: cs => '/' :: c ++ rootedPath cs

/-- The path element `replicas`. -/
def replicasElement : List Char := ['r', 'e', 'p', 'l', 'i', 'c', 'a', 's']

/-- The characters of the separator `/replicas/`. -/
def replicasSeparator : List Char := '/' :: (replicasElement ++ ['/'])

/-! ## Replicas and the upgrade from v1.0.2 to v1.1.0 (`upgrade/v102to110/upgrade.go`) -/

/-- Modelled from the spec: the states of an instance (section 4.3); the type
declaration is not part of the sources at hand. -/
inductive InstanceState where
  | Stopped
  | Starting
  | Running
  | Error
  deriving DecidableEq, Repr

/-- Modelled from the spec: the spec of a `Replica` (section 3) with the legacy
field `DataPath` read by the upgrade and by the tests.  A timestamp is an
`Option Nat`: `none` is the empty string, `some t` a time in seconds. -/
structure ReplicaSpec where
  VolumeName : String
  NodeID : String
  DiskID : String
  DiskPath : String
  DataDirectoryName : String
  DataPath : String
  DesireState : InstanceState
  HealthyAt : Option Nat
  FailedAt : Option Nat
  Active : Bool
  LogRequested : Bool
  deriving DecidableEq, Repr

/-- Modelled from the spec: the observed status of a `Replica` (section 3). -/
structure ReplicaStatus where
  CurrentState : InstanceState
  IP : String
  Port : Nat
  deriving DecidableEq, Repr

/-- Modelled from the spec: a `Replica`; `Labels` is a Go map, `none` is the
`nil` map. -/
structure Replica where
  Name : String
  Labels : Option (List (String × String))
  Spec : ReplicaSpec
  Status : ReplicaStatus
  deriving DecidableEq, Repr

/-- Go `m[key] = value` on an association list. -/
def mapSet (m : List (String × String)) (key value : String) : List (String × String) :=
  (key, value) :: m.filter (fun kv => kv.1 != key)

/-- The value of `types.LonghornDiskUUIDKey`, a constant that is not part of
the sources at hand. -/
def LonghornDiskUUIDKey : String := "longhorndiskuuid"

/-- The part of a node read by the upgrade: `Status.DiskStatus` maps a disk id
to the UUID of the disk, `SpecDisks` lists the keys of `Spec.Disks`. -/
structure UpgradeNode where
  DiskStatus : List (String × String)
  SpecDisks : List String
  deriving DecidableEq, Repr

/-- Answers of the Longhorn client to the calls of `UpgradeReplicas`, and the
value of `util.Now()`. -/
structure ReplicaClient where
  ListReplicas : Option (List Replica) × Option GoError
  GetNode : String → Option UpgradeNode × Option GoError
  UpdateReplica : Replica → Option GoError
  Now : Nat

/-- One turn of the loop of `UpgradeReplicas`: `none` when the replica is
skipped, otherwise the replica handed to `Update`, or a panic. -/
inductive UpgradeStep where
  | skipped
  | update (r : Replica)
  | panicked
  deriving DecidableEq, Repr

/-- The end of the loop body of `UpgradeReplicas`: the failure mark, then the
legacy data path is cleared. -/
def finishUpgrade (now : Nat) (isFailedReplica : Bool) (r : Replica) : Replica :=
  let failedAt :=
    if isFailedReplica && r.Spec.FailedAt == none then some now else r.Spec.FailedAt
  { r with Spec := { r.Spec with FailedAt := failedAt, DataPath := "" } }

/-- The loop body of Go `UpgradeReplicas` on the replica `r`. -/
def upgradeReplica (client : ReplicaClient) (r : Replica) : UpgradeStep :=
  if r.Spec.DataPath = "" ∨ r.Spec.NodeID = "" then UpgradeStep.skipped
  else
    match client.GetNode r.Spec.NodeID with
    | (_, some _) => UpgradeStep.update (finishUpgrade client.Now true r)
    | (none, none) => UpgradeStep.panicked
    | (some node, none) =>
      match node.DiskStatus.lookup r.Spec.DiskID with
      | none => UpgradeStep.update (finishUpgrade client.Now true r)
      | some diskUUID =>
        if !node.SpecDisks.contains r.Spec.DiskID then
          UpgradeStep.update (finishUpgrade client.Now true r)
        else
          match strings_Split (filepath_Clean r.Spec.DataPath) "/replicas/" with
          | [diskPath, dataDirectoryName] =>
            match r.Labels with
            | none => UpgradeStep.panicked
            | some labels =>
              UpgradeStep.update (finishUpgrade client.Now false
                { r with
                  Labels := some (mapSet labels LonghornDiskUUIDKey diskUUID),
                  Spec := { r.Spec with
                    DiskID := diskUUID,
                    DiskPath := diskPath,
                    DataDirectoryName := dataDirectoryName } })
          | _ => UpgradeStep.update (finishUpgrade client.Now true r)

/-- Result of `UpgradeReplicas`: the replicas handed to `Update`, in order,
and the outcome. -/
structure UpgradeResult where
  written : List Replica
  outcome : Outcome
  deriving DecidableEq, Repr

/-- The loop of Go `UpgradeReplicas`: it stops at the first error of `Update`
and at a panic. -/
def upgradeLoop (client : ReplicaClient) : List Replica → UpgradeResult
  | [] => ⟨[], Outcome.returned none⟩
  | r :: rest =>
    match upgradeReplica client r with
    | UpgradeStep.skipped => upgradeLoop client rest
    | UpgradeStep.panicked => ⟨[], Outcome.panicked⟩
    | UpgradeStep.update r1 =>
      match client.UpdateReplica r1 with
      | some err => ⟨[r1], Outcome.returned (some err)⟩
      | none =>
        ⟨r1 :: (upgradeLoop client rest).written, (upgradeLoop client rest).outcome⟩

/-- The prefix of the messages of the upgrade. -/
def upgradeLogPrefix : String := "upgrade from v1.0.2 to v1.1.0: "

/-- Go `UpgradeReplicas(namespace, lhClient)`; the deferred function wraps the
error that is returned. -/
def UpgradeReplicas (client : ReplicaClient) : UpgradeResult :=
  let wrap := fun (err : Option GoError) =>
    errors_Wrapf err (upgradeLogPrefix ++ "upgrade replica failed")
  match client.ListReplicas with
  | (_, some err) =>
    if apierrors_IsNotFound (some err) then ⟨[], Outcome.returned (wrap none)⟩
    else ⟨[], Outcome.returned (wrap (errors_Wrapf (some err)
      "failed to list all existing Longhorn replicas during the replica upgrade"))⟩
  | (none, none) => ⟨[], Outcome.panicked⟩
  | (some replicaList, none) =>
    match (upgradeLoop client replicaList).outcome with
    | Outcome.panicked => upgradeLoop client replicaList
    | Outcome.returned err => ⟨(upgradeLoop client replicaList).written, Outcome.returned (wrap err)⟩

/-- A legacy replica of volume `vol` on node `node-1` and disk `disk-1` with
the given data path. -/
def legacyReplica (dataPath : String) : Replica :=
  { Name := "vol-r-1",
    Labels := some [("longhornvolume", "vol")],
    Spec := { VolumeName := "vol", NodeID := "node-1", DiskID := "disk-1", DiskPath := "",
              DataDirectoryName := "", DataPath := dataPath,
              DesireState := InstanceState.Stopped, HealthyAt := none, FailedAt := none,
              Active := true, LogRequested := false },
    Status := { CurrentState := InstanceState.Stopped, IP := "", Port := 0 } }

/-- A client that knows `node-1` with its disk `disk-1` of UUID `uuid-1`, at
time 100. -/
def legacyClient : ReplicaClient :=
  { ListReplicas := (some [], none),
    GetNode := fun name =>
      if name = "node-1" then
        (some { DiskStatus := [("disk-1", "uuid-1")], SpecDisks := ["disk-1"] }, none)
      else (none, some (GoError.status StatusReason.NotFound "node not found")),
    UpdateReplica := fun _ => none,
    Now := 100 }

/-! ## The volume reconciliation pass (spec section 4.5)

The volume controller (`controller/volume_controller.go`, function `syncVolume`)
is not part of the sources at hand; only its tests are
(`controller/volume_controller_test.go`).  The pass is modelled from section 4.5
of the spec and is checked against the expectations of these tests.  The
restore lifecycle (step F) and the live upgrade (step H) are left out.
-/

/-- Modelled from the spec: `status.state` of a volume (section 3).  The empty
state of a volume that was never reconciled is `Creating`. -/
inductive VolumeState where
  | Creating
  | Detached
  | Attaching
  | Attached
  | Detaching
  | Deleting
  deriving DecidableEq, Repr

/-- Modelled from the spec: `status.robustness` of a volume (section 3).  The
empty value of the tests is `Unknown`. -/
inductive Robustness where
  | Unknown
  | Healthy
  | Degraded
  | Faulted
  deriving DecidableEq, Repr

/-- Modelled from the spec: the mode of a replica reported by the engine. -/
inductive ReplicaMode where
  | RW
  | WO
  | ERR
  deriving DecidableEq, Repr

/-- Modelled from the spec: the condition `Scheduled` of a volume. -/
structure ScheduledCondition where
  Status : Bool
  Reason : String
  deriving DecidableEq, Repr

/-- Modelled from the spec: the spec of a volume read by the pass. -/
structure VolumeSpec where
  NumberOfReplicas : Nat
  NodeID : String
  deriving DecidableEq, Repr

/-- Modelled from the spec: the status of a volume written by the pass. -/
structure VolumeStatus where
  State : VolumeState
  Robustness : Robustness
  CurrentNodeID : String
  PendingNodeID : String
  RemountRequestedAt : Option Nat
  LastDegradedAt : Option Nat
  Scheduled : ScheduledCondition
  deriving DecidableEq, Repr

/-- Modelled from the spec: a volume. -/
structure Volume where
  Name : String
  DeletionTimestamp : Option Nat
  Finalizer : Bool
  Spec : VolumeSpec
  Status : VolumeStatus
  deriving DecidableEq, Repr

/-- Modelled from the spec: the spec of an engine (section 3). -/
structure EngineSpec where
  NodeID : String
  DesireState : InstanceState
  ReplicaAddressMap : List (String × String)
  SalvageRequested : Bool
  LogRequested : Bool
  deriving DecidableEq, Repr

/-- Modelled from the spec: the observed status of an engine (section 3). -/
structure EngineStatus where
  CurrentState : InstanceState
  ReplicaModeMap : List (String × ReplicaMode)
  deriving DecidableEq, Repr

/-- Modelled from the spec: an engine. -/
structure Engine where
  Name : String
  Spec : EngineSpec
  Status : EngineStatus
  deriving DecidableEq, Repr

/-- A volume with its children as the datastore holds them: the engine, if
any, and the replicas labelled with the volume. -/
structure Cluster where
  volume : Volume
  engine : Option Engine
  replicas : List Replica
  deriving DecidableEq, Repr

/-- Modelled from the spec: a disk offered to the scheduler (section 4.2). -/
structure SchedDisk where
  DiskID : String
  Path : String
  AllowScheduling : Bool
  deriving DecidableEq, Repr

/-- Modelled from the spec: a node offered to the scheduler (section 4.2). -/
structure SchedNode where
  Name : String
  AllowScheduling : Bool
  Ready : Bool
  Disks : List SchedDisk
  deriving DecidableEq, Repr

/-- What a pass reads besides the volume and its children: the time, the
setting `auto-salvage` and its tolerance window, the nodes, the choice of the
scheduler among the candidates that pass its filters (steps 3 and 4 of section
4.2), and the names given to new entities. -/
structure ReconcileEnv where
  Now : Nat
  AutoSalvage : Bool
  SalvageWindow : Nat
  Nodes : List SchedNode
  Choose : List (SchedNode × SchedDisk) → Option (SchedNode × SchedDisk)
  EngineName : String
  ReplicaName : Nat → String

/-- Modelled from the spec: reason `ReplicaSchedulingFailure`. -/
def VolumeConditionReasonReplicaSchedulingFailure : String := "ReplicaSchedulingFailure"

/-- Modelled from the spec: steps 1 and 2 of the scheduler (section 4.2): the
disks that allow scheduling on the nodes that allow scheduling and are ready. -/
def scheduleCandidates (nodes : List SchedNode) : List (SchedNode × SchedDisk) :=
  (nodes.filter (fun n => n.AllowScheduling && n.Ready)).flatMap
    (fun n => (n.Disks.filter (fun d => d.AllowScheduling)).map (fun d => (n, d)))

/-- Modelled from the spec: `Schedule` of section 4.2 on one replica.  It is
Unschedulable when the filters leave no candidate or the choice among them
fails; otherwise the replica gets the node, the disk and the data path
`diskPath + "/replicas/" + replicaName`. -/
def scheduleReplica (env : ReconcileEnv) (r : Replica) : Option Replica :=
  match scheduleCandidates env.Nodes with
  | [] => none
  | c :: cs =>
    match env.Choose (c :: cs) with
    | none => none
    | some (n, d) =>
      some { r with Spec := { r.Spec with
        NodeID := n.Name, DiskID := d.DiskID,
        DataPath := d.Path ++ "/replicas/" ++ r.Name } }

/-- Modelled from the spec: a new replica entity, created with
`desireState = Stopped` and not yet scheduled (section 4.5, step E). -/
def newReplica (volumeName replicaName : String) (desire : InstanceState) : Replica :=
  { Name := replicaName,
    Labels := some [("longhornvolume", volumeName)],
    Spec := { VolumeName := volumeName, NodeID := "", DiskID := "", DiskPath := "",
              DataDirectoryName := "", DataPath := "", DesireState := desire,
              HealthyAt := none, FailedAt := none, Active := true, LogRequested := false },
    Status := { CurrentState := InstanceState.Stopped, IP := "", Port := 0 } }

/-- Modelled from the spec: a new engine entity, stopped and without node. -/
def newEngine (engineName : String) : Engine :=
  { Name := engineName,
    Spec := { NodeID := "", DesireState := InstanceState.Stopped, ReplicaAddressMap := [],
              SalvageRequested := false, LogRequested := false },
    Status := { CurrentState := InstanceState.Stopped, ReplicaModeMap := [] } }

/-- Modelled from the spec: the replicas `ReplicaName first` up to
`ReplicaName (first + count - 1)`, one per missing slot. -/
def newReplicas (env : ReconcileEnv) (volumeName : String) (desire : InstanceState)
    (first count : Nat) : List Replica :=
  (List.range count).map (fun i => newReplica volumeName (env.ReplicaName (first + i)) desire)

/-- Modelled from the spec: the scheduling of the replicas without node; a
replica that is Unschedulable is left as it is. -/
def scheduleReplicas (env : ReconcileEnv) (rs : List Replica) : List Replica :=
  rs.map (fun r => if r.Spec.NodeID = "" then (scheduleReplica env r).getD r else r)

/-- Modelled from the spec: the condition `Scheduled`, True when every replica
has a node, otherwise False with reason `ReplicaSchedulingFailure`. -/
def scheduledCondition (rs : List Replica) : ScheduledCondition :=
  if rs.all (fun r => r.Spec.NodeID != "") then { Status := true, Reason := "" }
  else { Status := false, Reason := VolumeConditionReasonReplicaSchedulingFailure }

/-- Modelled from the spec: whether the replica is reported failed, by the
engine (mode ERR) or by its instance (state Error) (section 4.5 step E,
section 7). -/
def reportedFailed (e : Engine) (r : Replica) : Bool :=
  e.Status.ReplicaModeMap.lookup r.Name == some ReplicaMode.ERR ||
    r.Status.CurrentState == InstanceState.Error

/-- Modelled from the spec: replica failure handling; the replica is marked
`failedAt = now()` unless it carries a mark already, its desireState is set to
Stopped and `logRequested = true`. -/
def markFailed (now : Nat) (r : Replica) : Replica :=
  { r with Spec := { r.Spec with
    FailedAt := if r.Spec.FailedAt = none then some now else r.Spec.FailedAt,
    DesireState := InstanceState.Stopped,
    LogRequested := true } }

/-- Modelled from the spec: failure handling over the replicas of a volume. -/
def handleFailures (now : Nat) (e : Engine) (rs : List Replica) : List Replica :=
  rs.map (fun r => if reportedFailed e r then markFailed now r else r)

/-- Modelled from the spec: replica start; a scheduled replica without failure
mark gets `desireState = Running` (step E and invariant I5). -/
def startReplica (r : Replica) : Replica :=
  if r.Spec.NodeID ≠ "" ∧ r.Spec.FailedAt = none then
    { r with Spec := { r.Spec with DesireState := InstanceState.Running } }
  else r

/-- Modelled from the spec: a healthy replica that reports Running with an IP
and a port. -/
def runningWithAddress (r : Replica) : Bool :=
  r.Spec.FailedAt == none && r.Status.CurrentState == InstanceState.Running &&
    r.Status.IP != "" && r.Status.Port != 0

/-- The address `ip:port` of a replica. -/
def replicaAddress (r : Replica) : String :=
  r.Status.IP ++ ":" ++ toString r.Status.Port

/-- Modelled from the spec: the endpoints of the healthy running replicas. -/
def runningAddresses (rs : List Replica) : List (String × String) :=
  (rs.filter runningWithAddress).map (fun r => (r.Name, replicaAddress r))

/-- Modelled from the spec: engine start; only once at least one replica
reports Running with an IP:port is the desireState of the engine set to
Running, its replicaAddressMap populated with those endpoints and its nodeID
set to `currentNodeID`. -/
def startEngine (currentNodeID : String) (rs : List Replica) (e : Engine) : Engine :=
  match runningAddresses rs with
  | [] => e
  | a :: as =>
    { e with Spec := { e.Spec with
      NodeID := currentNodeID,
      DesireState := InstanceState.Running,
      ReplicaAddressMap := a :: as } }

/-- Modelled from the spec: engine stop; the desireState of the engine is
Stopped and its node is cleared. -/
def stopEngine (e : Engine) : Engine :=
  { e with Spec := { e.Spec with NodeID := "", DesireState := InstanceState.Stopped } }

/-- Modelled from the spec: replica stop. -/
def stopReplica (r : Replica) : Replica :=
  { r with Spec := { r.Spec with DesireState := InstanceState.Stopped } }

/-- Modelled from the spec: M, the count of RW replicas reported by the engine. -/
def countRW (e : Engine) : Nat :=
  (e.Status.ReplicaModeMap.filter (fun kv => kv.2 == ReplicaMode.RW)).length

/-- Modelled from the spec: robustness classification by M against
`numberOfReplicas` N: Healthy when M = N, Degraded when 1 ≤ M < N, Faulted when
M = 0; the spec gives no class for M > N and the old value stays. -/
def classify (old : Robustness) (m n : Nat) : Robustness :=
  if m = n then Robustness.Healthy
  else if 1 ≤ m ∧ m < n then Robustness.Degraded
  else if m = 0 then Robustness.Faulted
  else old

/-- Modelled from the spec: a replica reported RW is stamped `healthyAt`. -/
def stampHealthy (now : Nat) (e : Engine) (r : Replica) : Replica :=
  if e.Status.ReplicaModeMap.lookup r.Name = some ReplicaMode.RW then
    { r with Spec := { r.Spec with HealthyAt := some now } }
  else r

/-- Modelled from the spec: step A; a volume with a deletion timestamp goes to
state Deleting, its engines and replicas are stopped and deleted, its
finalizer is cleared. -/
def deleteVolume (c : Cluster) : Cluster :=
  { volume := { c.volume with
      Finalizer := false,
      Status := { c.volume.Status with State := VolumeState.Deleting } },
    engine := none,
    replicas := [] }

/-- Modelled from the spec: the most recent failure mark among the replicas. -/
def lastFailedAt (rs : List Replica) : Nat :=
  (rs.map (fun r => r.Spec.FailedAt.getD 0)).foldl max 0

/-- Modelled from the spec: the replicas with the most recent `failedAt`,
within the tolerance window. -/
def inSalvageCohort (window : Nat) (rs : List Replica) (r : Replica) : Bool :=
  match r.Spec.FailedAt with
  | none => false
  | some t => decide (lastFailedAt rs - t ≤ window)

/-- Modelled from the spec: step G, auto-salvage; the failure mark of the
cohort is cleared, the engine gets `salvageRequested = true`, the volume gets
`remountRequestedAt = now()`, robustness Unknown, and is reattached to the
node asked for by its spec. -/
def salvage (env : ReconcileEnv) (c : Cluster) : Cluster :=
  { volume := { c.volume with Status := { c.volume.Status with
      RemountRequestedAt := some env.Now,
      Robustness := Robustness.Unknown,
      CurrentNodeID := c.volume.Spec.NodeID } },
    engine := c.engine.map (fun e => { e with Spec := { e.Spec with SalvageRequested := true } }),
    replicas := c.replicas.map (fun r =>
      if inSalvageCohort env.SalvageWindow c.replicas r then
        { r with Spec := { r.Spec with FailedAt := none } }
      else r) }

/-- Modelled from the spec: the attach target (step D and invariant I4).  A
detached volume takes the node of its spec; an attached volume whose spec asks
for no node is detached; one whose spec asks for another node records it as
pending and is detached first; a pending node is taken once the volume is
Detached. -/
def resolveAttachTarget (v : Volume) : Volume :=
  if v.Status.CurrentNodeID = "" then
    if v.Status.PendingNodeID = "" then
      { v with Status := { v.Status with CurrentNodeID := v.Spec.NodeID } }
    else if v.Status.State = VolumeState.Detached then
      { v with Status := { v.Status with
        CurrentNodeID := v.Status.PendingNodeID, PendingNodeID := "" } }
    else v
  else if v.Spec.NodeID = "" then
    { v with Status := { v.Status with CurrentNodeID := "" } }
  else if v.Spec.NodeID ≠ v.Status.CurrentNodeID then
    { v with Status := { v.Status with CurrentNodeID := "", PendingNodeID := v.Spec.NodeID } }
  else v

/-- Modelled from the spec: the detach side of step E.  The engine is stopped
first; only after the engine is observed Stopped are the replicas stopped; the
volume is Detached when the engine and all replicas are observed Stopped,
Detaching before that, and Creating in the pass that created the engine.
Robustness is kept when Faulted and Unknown otherwise. -/
def detachFlow (isNew : Bool) (v : Volume) (e : Engine) (rs : List Replica) : Cluster :=
  let robustness :=
    if v.Status.Robustness = Robustness.Faulted then Robustness.Faulted else Robustness.Unknown
  if e.Status.CurrentState ≠ InstanceState.Stopped then
    { volume := { v with Status := { v.Status with
        State := if isNew then VolumeState.Creating else VolumeState.Detaching,
        Robustness := robustness } },
      engine := some (stopEngine e),
      replicas := rs }
  else
    { volume := { v with Status := { v.Status with
        State :=
          if isNew then VolumeState.Creating
          else if rs.all (fun r => r.Status.CurrentState == InstanceState.Stopped) then
            VolumeState.Detached
          else VolumeState.Detaching,
        Robustness := robustness } },
      engine := some (stopEngine e),
      replicas := rs.map stopReplica }

/-- Modelled from the spec: the state of a volume that stays attached: Attached
once the engine reports Running with at least one RW replica and all scheduled
healthy replicas report Running; an Attached volume stays Attached; otherwise
Attaching. -/
def attachedState (old : VolumeState) (e : Engine) (rs : List Replica) : VolumeState :=
  if e.Status.CurrentState = InstanceState.Running ∧ 1 ≤ countRW e ∧
      rs.all (fun r => r.Spec.NodeID == "" || r.Spec.FailedAt != none ||
        r.Status.CurrentState == InstanceState.Running) then
    VolumeState.Attached
  else if old = VolumeState.Attached then VolumeState.Attached
  else VolumeState.Attaching

/-- Modelled from the spec: degraded rebuild; in Degraded, one new replica per
missing slot is created in `desireState = Running` when the scheduler has room
for it. -/
def rebuildReplicas (env : ReconcileEnv) (v : Volume) (rs : List Replica) : List Replica :=
  let healthy := (rs.filter (fun r => r.Spec.Active && r.Spec.FailedAt == none)).length
  rs ++ (newReplicas env v.Name InstanceState.Running rs.length
    (v.Spec.NumberOfReplicas - healthy)).filterMap (scheduleReplica env)

/-- Modelled from the spec: the attach side of step E.  Replicas start before
the engine; the engine starts once a replica reports Running with an address;
while the engine reports Running the robustness is classified by M and the RW
replicas are stamped; a Degraded volume is rebuilt. -/
def attachFlow (env : ReconcileEnv) (v : Volume) (e : Engine) (rs : List Replica) : Cluster :=
  let started := rs.map startReplica
  let engine := startEngine v.Status.CurrentNodeID started e
  if e.Status.CurrentState = InstanceState.Running then
    let robustness := classify v.Status.Robustness (countRW e) v.Spec.NumberOfReplicas
    let stamped := started.map (stampHealthy env.Now e)
    { volume := { v with Status := { v.Status with
        State := attachedState v.Status.State e stamped,
        Robustness := robustness,
        LastDegradedAt :=
          if robustness = Robustness.Degraded ∧ v.Status.Robustness ≠ Robustness.Degraded then
            some env.Now
          else v.Status.LastDegradedAt } },
      engine := some engine,
      replicas :=
        if robustness = Robustness.Degraded then rebuildReplicas env v stamped else stamped }
  else
    { volume := { v with Status := { v.Status with
        State := attachedState v.Status.State e started } },
      engine := some engine,
      replicas := started }

/-- Modelled from the spec: all replicas in `engine.replicaModeMap` are ERR
while the engine reports Running (section 4.5, step D). -/
def allReplicasERR (e : Engine) : Bool :=
  e.Status.CurrentState == InstanceState.Running && !e.Status.ReplicaModeMap.isEmpty &&
    e.Status.ReplicaModeMap.all (fun kv => kv.2 == ReplicaMode.ERR)

/-- Modelled from the spec: the current engine of the volume; a missing engine
is created (step E). -/
def currentEngine (env : ReconcileEnv) (c : Cluster) : Engine :=
  c.engine.getD (newEngine env.EngineName)

/-- Modelled from the spec: replica provisioning for a volume without replicas:
`numberOfReplicas` new replicas with `desireState = Stopped`; then the
scheduler is called for every replica without node (step E). -/
def provisionedReplicas (env : ReconcileEnv) (c : Cluster) : List Replica :=
  scheduleReplicas env
    (if c.replicas = [] then
      newReplicas env c.volume.Name InstanceState.Stopped 0 c.volume.Spec.NumberOfReplicas
    else c.replicas)

/-- Modelled from the spec: the replicas after provisioning, scheduling and
failure handling (step E). -/
def preparedReplicas (env : ReconcileEnv) (c : Cluster) : List Replica :=
  handleFailures env.Now (currentEngine env c) (provisionedReplicas env c)

/-- Modelled from the spec: the volume with its condition Scheduled and its
attach target resolved (steps D and E). -/
def preparedVolume (env : ReconcileEnv) (c : Cluster) : Volume :=
  resolveAttachTarget { c.volume with Status := { c.volume.Status with
    Scheduled := scheduledCondition (provisionedReplicas env c) } }

/-- Modelled from the spec: a volume whose replicas are all ERR becomes Faulted
and loses its node (step D: Attached to Detaching with robustness Faulted). -/
def faultedVolume (v : Volume) : Volume :=
  { v with Status := { v.Status with Robustness := Robustness.Faulted, CurrentNodeID := "" } }

/-- Modelled from the spec: steps C, D and E of a pass on a volume that is
neither deleted nor salvaged: the children are provisioned and scheduled,
failures are handled, the attach target is resolved, and the volume follows the
detach side or the attach side. -/
def reconcile (env : ReconcileEnv) (c : Cluster) : Cluster :=
  if allReplicasERR (currentEngine env c) then
    detachFlow c.engine.isNone (faultedVolume (preparedVolume env c)) (currentEngine env c)
      (preparedReplicas env c)
  else if (preparedVolume env c).Status.CurrentNodeID = "" then
    detachFlow c.engine.isNone (preparedVolume env c) (currentEngine env c)
      (preparedReplicas env c)
  else
    attachFlow env (preparedVolume env c) (currentEngine env c) (preparedReplicas env c)

/-- Modelled from the spec: one reconciliation pass of a volume
(`syncVolume`, section 4.5), by a controller that owns the volume.

* Step A: a volume with a deletion timestamp is deleted with its children.
* Step G: a Detached, Faulted volume is salvaged when `auto-salvage` is true.
* Steps C, D, E: otherwise the volume is reconciled. -/
def syncVolume (env : ReconcileEnv) (c : Cluster) : Cluster :=
  if c.volume.DeletionTimestamp ≠ none then deleteVolume c
  else if c.volume.Status.State = VolumeState.Detached ∧
      c.volume.Status.Robustness = Robustness.Faulted ∧ env.AutoSalvage = true then
    salvage env c
  else reconcile env c

/-! ### The fixtures of `volume_controller_test.go`

The constants `TestNode1`, `TestDefaultDataPath`, ... are declared in a test
helper that is not part of the sources at hand; the values below stand for
them.  `getTestNow()` is the time 1000. -/

/-- The value of `getTestNow()`. -/
def testNow : Nat := 1000

/-- Go `newVolume(TestVolumeName, 2)` with `Spec.NodeID = nodeID`. -/
def testVolume (nodeID : String) : Volume :=
  { Name := "test-volume",
    DeletionTimestamp := none,
    Finalizer := true,
    Spec := { NumberOfReplicas := 2, NodeID := nodeID },
    Status := { State := VolumeState.Creating, Robustness := Robustness.Unknown,
                CurrentNodeID := "", PendingNodeID := "", RemountRequestedAt := none,
                LastDegradedAt := none, Scheduled := { Status := true, Reason := "" } } }

/-- Go `newEngineForVolume(v)`. -/
def testEngine : Engine := newEngine "test-volume-e-0"

/-- Go `newReplicaForVolume(v, e, nodeID, diskID)` for the replica `name`. -/
def testReplica (name nodeID diskID : String) : Replica :=
  { Name := name,
    Labels := some [("longhornvolume", "test-volume"), ("longhornnode", nodeID),
      ("longhorndisk", diskID)],
    Spec := { VolumeName := "test-volume", NodeID := nodeID, DiskID := diskID, DiskPath := "",
              DataDirectoryName := "",
              DataPath := filepath_Join ["/var/lib/longhorn", "/replicas", name],
              DesireState := InstanceState.Stopped, HealthyAt := none, FailedAt := none,
              Active := true, LogRequested := false },
    Status := { CurrentState := InstanceState.Stopped, IP := "", Port := 0 } }

/-- The two replicas of `generateVolumeTestCaseTemplate`. -/
def testReplicas : List Replica :=
  [testReplica "test-volume-r-1" "test-node-1" "disk-uuid-1",
    testReplica "test-volume-r-2" "test-node-2" "disk-uuid-2"]

/-- The nodes and disks of `generateVolumeTestCaseTemplate`: node 1 allows
scheduling, node 2 does not; `allow1` replaces the flag of node 1. -/
def testNodes (allow1 : Bool) : List SchedNode :=
  [{ Name := "test-node-1", AllowScheduling := allow1, Ready := true,
     Disks := [{ DiskID := "disk-uuid-1", Path := "/var/lib/longhorn", AllowScheduling := true }] },
   { Name := "test-node-2", AllowScheduling := false, Ready := true,
     Disks := [{ DiskID := "disk-uuid-2", Path := "/var/lib/longhorn", AllowScheduling := true }] }]

/-- The environment of a test case: the nodes, the setting `auto-salvage`, a
window of one minute, and a scheduler that takes the first candidate. -/
def testEnv (allow1 autoSalvage : Bool) : ReconcileEnv :=
  { Now := testNow,
    AutoSalvage := autoSalvage,
    SalvageWindow := 60,
    Nodes := testNodes allow1,
    Choose := fun cs => cs.head?,
    EngineName := "test-volume-e-0",
    ReplicaName := fun i => "test-volume-r-" ++ toString (i + 1) }

/-- The replica as it reports once it runs at the address `ip:port`. -/
def Replica.running (r : Replica) (ip : String) (port : Nat) : Replica :=
  { r with
    Spec := { r.Spec with DesireState := InstanceState.Running },
    Status := { CurrentState := InstanceState.Running, IP := ip, Port := port } }

/-- The two replicas of the template, running. -/
def testReplicasRunning : List Replica :=
  [(testReplica "test-volume-r-1" "test-node-1" "disk-uuid-1").running "10.0.0.1" 9502,
    (testReplica "test-volume-r-2" "test-node-2" "disk-uuid-2").running "10.0.0.2" 9502]

/-- The replica with the given `healthyAt`. -/
def Replica.healthyAt (r : Replica) (t : Option Nat) : Replica :=
  { r with Spec := { r.Spec with HealthyAt := t } }

/-- The engine of the template, running on node 1 with both replicas in mode RW. -/
def testEngineRunning : Engine :=
  { testEngine with
    Spec := { testEngine.Spec with
      NodeID := "test-node-1", DesireState := InstanceState.Running,
      ReplicaAddressMap := runningAddresses testReplicasRunning },
    Status :=
      { CurrentState := InstanceState.Running,
        ReplicaModeMap :=
          [("test-volume-r-1", ReplicaMode.RW), ("test-volume-r-2", ReplicaMode.RW)] } }

/-- The replica with the given failure mark. -/
def Replica.failedAt (r : Replica) (t : Option Nat) : Replica :=
  { r with Spec := { r.Spec with FailedAt := t } }

/-- The replica with the given desireState. -/
def Replica.desire (r : Replica) (s : InstanceState) : Replica :=
  { r with Spec := { r.Spec with DesireState := s } }

/-- The volume with the given state, robustness and current node. -/
def Volume.withStatus (v : Volume) (state : VolumeState) (robustness : Robustness)
    (currentNodeID : String) : Volume :=
  { v with Status := { v.Status with
    State := state, Robustness := robustness, CurrentNodeID := currentNodeID } }

/-- Property P2 on one replica: a replica with a failure mark does not have
`desireState = Running`. -/
def noFailedRunning (r : Replica) : Prop :=
  r.Spec.FailedAt ≠ none → r.Spec.DesireState ≠ InstanceState.Running

/-- A replica that carries a failure mark and has `desireState = Stopped`. -/
def failedStopped (r : Replica) : Prop :=
  r.Spec.FailedAt ≠ none ∧ r.Spec.DesireState = InstanceState.Stopped

/-- A change of a replica by the pass that keeps its name and its observed
status, keeps property P2 and keeps a failed replica stopped. -/
def keepsFailedStopped (g : Replica → Replica) : Prop :=
  ∀ r, (g r).Name = r.Name ∧ (g r).Status = r.Status ∧
    (noFailedRunning r → noFailedRunning (g r)) ∧ (failedStopped r → failedStopped (g r))

/-- The cluster of the test "newly restored volume becomes faulted after all
replica error", without its restore fields: the volume is Attached on node 1,
both replicas run, the engine runs and reports both replicas in mode ERR. -/
def testClusterAllERR : Cluster :=
  { volume := (testVolume "test-node-1").withStatus VolumeState.Attached
      Robustness.Healthy "test-node-1",
    engine := some { testEngineRunning with Status :=
      { CurrentState := InstanceState.Running,
        ReplicaModeMap := [("test-volume-r-1", ReplicaMode.ERR),
          ("test-volume-r-2", ReplicaMode.ERR)] } },
    replicas := testReplicasRunning }

/-- The cluster of the test "volume attaching - start replicas". -/
def testClusterStartReplicas : Cluster :=
  { volume := testVolume "test-node-1", engine := some testEngine, replicas := testReplicas }

/-- The cluster of the test "volume attaching - start controller". -/
def testClusterStartController : Cluster :=
  { volume := testVolume "test-node-1", engine := some testEngine,
    replicas := testReplicasRunning }

/-- The cluster of the test "volume attached". -/
def testClusterAttached : Cluster :=
  { volume := (testVolume "test-node-1").withStatus VolumeState.Attaching
      Robustness.Unknown "test-node-1",
    engine := some testEngineRunning,
    replicas := testReplicasRunning }

/-- The cluster of the test "volume detaching - stop engine". -/
def testClusterStopEngine : Cluster :=
  { volume := (testVolume "").withStatus VolumeState.Attached Robustness.Healthy "test-node-1",
    engine := some testEngineRunning,
    replicas := testReplicasRunning }

/-- The cluster of the test "volume deleting". -/
def testClusterDeleting : Cluster :=
  { volume := { testVolume "" with DeletionTimestamp := some testNow },
    engine := some testEngine,
    replicas := testReplicas }

/-- The cluster of the test "volume salvage requested - all replica failed". -/
def testClusterSalvage : Cluster :=
  { volume := (testVolume "test-node-1").withStatus VolumeState.Detached Robustness.Faulted "",
    engine := some testEngine,
    replicas := testReplicas.map
      (fun r => (r.healthyAt (some testNow)).failedAt (some testNow)) }

/-- The cluster of the test "volume create - replica scheduling failure". -/
def testClusterNew : Cluster :=
  { volume := testVolume "", engine := none, replicas := [] }

/-- The engine of the template after it is started on node 1 with the
addresses of both replicas, before it reports anything. -/
def testEngineStarted : Engine :=
  { testEngine with Spec := { testEngine.Spec with
    NodeID := "test-node-1", DesireState := InstanceState.Running,
    ReplicaAddressMap := [("test-volume-r-1", "10.0.0.1:9502"),
      ("test-volume-r-2", "10.0.0.2:9502")] } }

/-! ## Instance manager pods (`upgrade/v102to110/upgrade.go`) -/

/-- Go `metav1.OwnerReference`; the pointers `Controller` and
`BlockOwnerDeletion` are options. -/
structure OwnerReference where
  APIVersion : String
  Kind : String
  Name : String
  UID : String
  Controller : Option Bool
  BlockOwnerDeletion : Option Bool
  deriving DecidableEq, Repr

/-- Go `v1.Pod`: its name, its labels and its owner references, the parts of
the metadata the upgrade reads and writes. -/
structure Pod where
  Name : String
  Labels : List (String × String)
  OwnerReferences : List OwnerReference
  deriving DecidableEq, Repr

/-- The constant `types.LonghornKindInstanceManager`; the package `types` is
not part of the sources at hand. -/
def LonghornKindInstanceManager : String := "InstanceManager"

/-- The test of the loop of `upgradeInstanceMangerPodOwnerRef`: the reference
is of kind InstanceManager and its `Controller` is nil or not true. -/
def needsController (ownerRef : OwnerReference) : Bool :=
  ownerRef.Kind == LonghornKindInstanceManager &&
    (ownerRef.Controller == none || ownerRef.Controller != some true)

/-- The loop of `upgradeInstanceMangerPodOwnerRef` over the owner references:
the references as they are written back, and `needToUpdate`. -/
def upgradeOwnerRefs : List OwnerReference → List OwnerReference × Bool
  | [] => ([], false)
  | ownerRef :: rest =>
    if needsController ownerRef then
      ({ ownerRef with Controller := some true } :: (upgradeOwnerRefs rest).1, true)
    else (ownerRef :: (upgradeOwnerRefs rest).1, (upgradeOwnerRefs rest).2)

/-- Result of `upgradeInstanceMangerPodOwnerRef`: the pod behind the pointer
when the function ends, the pods handed to `Update`, and the error. -/
structure PodUpgrade where
  pod : Pod
  updates : List Pod
  err : Option GoError
  deriving DecidableEq, Repr

/-- Go `upgradeInstanceMangerPodOwnerRef(pod, kubeClient, namespace)`; `update`
is the answer of `kubeClient.CoreV1().Pods(namespace).Update`.  `meta.Accessor`
does not fail on a pod. -/
def upgradeInstanceMangerPodOwnerRef (update : Pod → Option GoError) (pod : Pod) : PodUpgrade :=
  let podOwnerRefs := upgradeOwnerRefs pod.OwnerReferences
  if !podOwnerRefs.2 then ⟨pod, [], none⟩
  else
    let upgraded : Pod := { pod with OwnerReferences := podOwnerRefs.1 }
    match update upgraded with
    | some err =>
      ⟨upgraded, [upgraded], errors_Wrapf (some err)
        (upgradeLogPrefix ++ "failed to update the owner reference for instance manager pod " ++
          pod.Name ++ " during the instance managers pods upgrade")⟩
    | none => ⟨upgraded, [upgraded], none⟩

/-- An instance manager pod as v1.0.2 created it: the owner reference to its
instance manager has no `controller` field; a second reference of another kind
has `controller = false`. -/
def legacyPod : Pod :=
  { Name := "instance-manager-e-1",
    Labels := [("longhorn.io/component", "instance-manager")],
    OwnerReferences :=
      [{ APIVersion := "longhorn.io/v1beta1", Kind := "InstanceManager",
         Name := "instance-manager-e-1", UID := "uid-1", Controller := none,
         BlockOwnerDeletion := some true },
       { APIVersion := "v1", Kind := "Node", Name := "node-1", UID := "uid-2",
         Controller := some false, BlockOwnerDeletion := none }] }

/-! ## The upgrade of the volumes (`upgrade/v102to110/upgrade.go`) -/

/-- Answers of the Longhorn client to the calls of `UpgradeVolumes`, and the
value of `util.Now()`. -/
structure VolumeClient where
  ListVolumes : Option (List Volume) × Option GoError
  UpdateStatus : Volume → Option GoError
  Now : Nat

/-- Result of `UpgradeVolumes`: the volumes handed to `UpdateStatus`, in
order, and the outcome. -/
structure VolumesUpgrade where
  written : List Volume
  outcome : Outcome
  deriving DecidableEq, Repr

/-- The volume with `status.lastDegradedAt = now`. -/
def stampDegraded (now : Nat) (v : Volume) : Volume :=
  { v with Status := { v.Status with LastDegradedAt := some now } }

/-- The loop of Go `UpgradeVolumes`: a volume that is not Degraded is passed
over; the loop stops at the first error of `UpdateStatus`. -/
def upgradeVolumesLoop (client : VolumeClient) : List Volume → VolumesUpgrade
  | [] => ⟨[], Outcome.returned none⟩
  | v :: rest =>
    if v.Status.Robustness ≠ Robustness.Degraded then upgradeVolumesLoop client rest
    else
      match client.UpdateStatus (stampDegraded client.Now v) with
      | some err => ⟨[stampDegraded client.Now v], Outcome.returned (some err)⟩
      | none =>
        ⟨stampDegraded client.Now v :: (upgradeVolumesLoop client rest).written,
          (upgradeVolumesLoop client rest).outcome⟩

/-- Go `UpgradeVolumes(namespace, lhClient)`; the deferred function wraps the
error that is returned. -/
def UpgradeVolumes (client : VolumeClient) : VolumesUpgrade :=
  let wrap := fun (err : Option GoError) =>
    errors_Wrapf err (upgradeLogPrefix ++ "upgrade volume failed")
  match client.ListVolumes with
  | (_, some err) =>
    if apierrors_IsNotFound (some err) then ⟨[], Outcome.returned (wrap none)⟩
    else ⟨[], Outcome.returned (wrap (errors_Wrapf (some err) (upgradeLogPrefix ++
      "failed to list all existing Longhorn volumes during the volume upgrade")))⟩
  | (none, none) => ⟨[], Outcome.panicked⟩
  | (some volumeList, none) =>
    match (upgradeVolumesLoop client volumeList).outcome with
    | Outcome.panicked => upgradeVolumesLoop client volumeList
    | Outcome.returned err =>
      ⟨(upgradeVolumesLoop client volumeList).written, Outcome.returned (wrap err)⟩

/-- Three volumes: Healthy, Degraded, Faulted. -/
def sampleVolumes : List Volume :=
  [(testVolume "node-1").withStatus VolumeState.Attached Robustness.Healthy "node-1",
    { (testVolume "node-2").withStatus VolumeState.Attached Robustness.Degraded "node-2" with
      Name := "vol-2" },
    { (testVolume "").withStatus VolumeState.Detached Robustness.Faulted "" with
      Name := "vol-3" }]

/-- A client that lists the sample volumes and accepts every update, at time
100. -/
def sampleVolumeClient : VolumeClient :=
  { ListVolumes := (some sampleVolumes, none), UpdateStatus := fun _ => none, Now := 100 }

/-- The replicas as the cluster holds them after a run of `UpgradeReplicas` in
which every `Update` was accepted: a replica handed to `Update` is replaced by
what was written, every other replica stays. -/
def upgradeOutput (client : ReplicaClient) (rs : List Replica) : List Replica :=
  rs.map (fun r =>
    match upgradeReplica client r with
    | UpgradeStep.update r1 => r1
    | _ => r)

/-- Three legacy replicas: one to upgrade, one without node, one that was
upgraded before. -/
def legacyReplicas : List Replica :=
  [legacyReplica "/var/lib/longhorn/replicas/vol-r-1",
    { legacyReplica "/var/lib/longhorn/replicas/vol-r-2" with
      Name := "vol-r-2",
      Spec := { (legacyReplica "/var/lib/longhorn/replicas/vol-r-2").Spec with NodeID := "" } },
    { legacyReplica "" with Name := "vol-r-3" }]

/-! ## Volume options of the CSI driver (`csi/util.go`) -/

/-- Go `errors.Wrap(err, msg)`: `nil` stays `nil`, any other error is wrapped. -/
def errors_Wrap (err : Option GoError) (msg : String) : Option GoError :=
  match err with
  | none => none
  | some e => some (GoError.wrap msg e)

/-- The value of a decimal digit, `none` for any other character. -/
def digitValue (c : Char) : Option Nat :=
  if '0' ≤ c ∧ c ≤ '9' then some (c.toNat - '0'.toNat) else none

/-- The two errors of `strconv`. -/
inductive NumError where
  | syntaxError
  | rangeError
  deriving DecidableEq, Repr

/-- The digit loop of Go `strconv.ParseUint(s, 10, 64)`: a character that is
not a decimal digit is a syntax error, a value above `2^64 - 1` a range error;
the loop stops at the first of them. -/
def parseUintLoop : Nat → List Char → Except NumError Nat
  | n, [] => Except.ok n
  | n, c :: cs =>
    match digitValue c with
    | none => Except.error NumError.syntaxError
    | some d =>
      if n * 10 + d > 2 ^ 64 - 1 then Except.error NumError.rangeError
      else parseUintLoop (n * 10 + d) cs

/-- The error value that `strconv.Atoi` returns for the string `s`. -/
def atoiError (s : String) : NumError → GoError
  | NumError.syntaxError => GoError.plain ("strconv.Atoi: parsing " ++ s ++ ": invalid syntax")
  | NumError.rangeError => GoError.plain ("strconv.Atoi: parsing " ++ s ++ ": value out of range")

/-- Go `strconv.Atoi(s)` for the 64 bit `int`: an optional sign and decimal
digits.  The fast path of `Atoi` for short strings gives the results of
`ParseInt(s, 10, 0)`, which is what is written here; the value returned with a
range error is the nearest bound. -/
def strconv_Atoi (s : String) : Int × Option GoError :=
  match s.data with
  | [] => (0, some (atoiError s NumError.syntaxError))
  | c :: cs =>
    let neg := c == '-'
    let digits := if c == '-' || c == '+' then cs else c :: cs
    if digits = [] then (0, some (atoiError s NumError.syntaxError))
    else
      match parseUintLoop 0 digits with
      | Except.error NumError.syntaxError => (0, some (atoiError s NumError.syntaxError))
      | Except.error NumError.rangeError =>
        (if neg then -(2 ^ 63 : Int) else 2 ^ 63 - 1, some (atoiError s NumError.rangeError))
      | Except.ok un =>
        if !neg && un ≥ 2 ^ 63 then (2 ^ 63 - 1, some (atoiError s NumError.rangeError))
        else if neg && un > 2 ^ 63 then (-(2 ^ 63 : Int), some (atoiError s NumError.rangeError))
        else (if neg then -(un : Int) else (un : Int), none)

/-- The fields of `longhornclient.Volume` that `getVolumeOptions` sets; the
package `client` is not part of the sources at hand. -/
structure ClientVolume where
  StaleReplicaTimeout : Int
  NumberOfReplicas : Int
  FromBackup : String
  BaseImage : String
  deriving DecidableEq, Repr

/-- The constant `defaultStaleReplicaTimeout`. -/
def defaultStaleReplicaTimeout : Int := 20

/-- Go `getVolumeOptions(volOptions)` from the test `vol.StaleReplicaTimeout <= 0`
on, with the value that `vol.StaleReplicaTimeout` has there.  An option that
is absent leaves the zero value of its field. -/
def getVolumeOptionsTail (volOptions : List (String × String)) (staleReplicaTimeout : Int) :
    Option ClientVolume × Option GoError :=
  let timeout :=
    if staleReplicaTimeout ≤ 0 then defaultStaleReplicaTimeout else staleReplicaTimeout
  match volOptions.lookup "numberOfReplicas" with
  | some numberOfReplicas =>
    match strconv_Atoi numberOfReplicas with
    | (nor, err) =>
      if err ≠ none ∨ nor < 0 then (none, errors_Wrap err "Invalid parameter numberOfReplicas")
      else
        (some { StaleReplicaTimeout := timeout,
                NumberOfReplicas := nor,
                FromBackup := (volOptions.lookup "fromBackup").getD "",
                BaseImage := (volOptions.lookup "baseImage").getD "" }, none)
  | none =>
    (some { StaleReplicaTimeout := timeout,
            NumberOfReplicas := 0,
            FromBackup := (volOptions.lookup "fromBackup").getD "",
            BaseImage := (volOptions.lookup "baseImage").getD "" }, none)

/-- Go `getVolumeOptions(volOptions)`: the volume, a pointer that may be nil,
and the error. -/
def getVolumeOptions (volOptions : List (String × String)) :
    Option ClientVolume × Option GoError :=
  match volOptions.lookup "staleReplicaTimeout" with
  | some staleReplicaTimeout =>
    match strconv_Atoi staleReplicaTimeout with
    | (_, some err) => (none, errors_Wrap (some err) "Invalid parameter staleReplicaTimeout")
    | (srt, none) => getVolumeOptionsTail volOptions srt
  | none => getVolumeOptionsTail volOptions 0

/-- Options with a negative timeout, a backup and a key that is not recognised. -/
def sampleOptions : List (String × String) :=
  [("staleReplicaTimeout", "-5"), ("fromBackup", "s3://backup"), ("recurringJobs", "[]")]

/-- The volume that `getVolumeOptions` returns for `sampleOptions`. -/
def sampleClientVolume : ClientVolume :=
  { StaleReplicaTimeout := 20, NumberOfReplicas := 0, FromBackup := "s3://backup",
    BaseImage := "" }

/-! ## Default disks -/

/-- C1: when setting create-default-disk-labeled-nodes is true, the node has no
disk, the Kubernetes node carries the label create-default-disk with value
"true", setting default-data-path has the value `dataPath` and the preparation
of the default disk reports no error, `syncDefaultDisks` prepares one default
disk at `dataPath` on the node, then writes the prepared node to the datastore
with `UpdateNode`; the only other effect is the goroutine that waits for the
disk, started when the write reports no error. -/
theorem syncDefaultDisks_label_true (ds : DataStore) (node prepared : Node) (kubeNode : KubeNode)
    (dataPath : String)
    (hset : ds.GetSettingAsBool SettingNameCreateDefaultDiskLabeledNodes = (true, none))
    (hdisks : node.Spec.DiskPathMap = [])
    (hkn : ds.GetKubernetesNode node.Name = (some kubeNode, none))
    (hlabel : kubeNode.Labels.lookup NodeCreateDefaultDiskLabelKey = some "true")
    (hpath : ds.GetSettingValueExisted SettingNameDefaultDataPath = (dataPath, none))
    (hprep : ds.PrepareForDefaultDiskCreation dataPath node = (prepared, none)) :
    (syncDefaultDisks ds node).node = prepared ∧
    (syncDefaultDisks ds node).effects.take 2 =
      [Effect.PrepareForDefaultDiskCreation dataPath node, Effect.UpdateNode prepared] ∧
    ((syncDefaultDisks ds node).effects.drop 2 = [] ∨
      ((ds.UpdateNode prepared).2 = none ∧
        (syncDefaultDisks ds node).effects.drop 2 =
          [Effect.GoWaitForDiskCreation (ds.UpdateNode prepared).1 dataPath])) ∧
    ((ds.UpdateNode prepared).2 = none →
      (syncDefaultDisks ds node).outcome = Outcome.returned none) := by
  have hlow : strings_ToLower "true" = NodeCreateDefaultDiskLabelValueTrue := by decide
  rcases hupd : ds.UpdateNode prepared with ⟨_ | updated, _ | err⟩ <;>
    simp [syncDefaultDisks, hset, hdisks, hkn, hlabel, hpath, hprep, hlow, hupd]

/-- C2: when setting create-default-disk-labeled-nodes is false, or the node
has a disk, `syncDefaultDisks` returns nil, leaves the node as it is and has no
effect at all (no update, no disk creation), whatever the labels and the
annotations of the Kubernetes node are. -/
theorem syncDefaultDisks_gate (ds : DataStore) (node : Node) (requireLabel : Bool)
    (hset : ds.GetSettingAsBool SettingNameCreateDefaultDiskLabeledNodes = (requireLabel, none))
    (hgate : requireLabel = false ∨ node.Spec.DiskPathMap ≠ []) :
    syncDefaultDisks ds node = ⟨node, [], Outcome.returned none⟩ := by
  rcases hgate with h | h
  · subst h
    simp [syncDefaultDisks, hset]
  · cases requireLabel <;> simp [syncDefaultDisks, hset, h]

/-- C3: when the Kubernetes node has no create-default-disk label, or has it
with value "false", `syncDefaultDisks` returns nil, leaves the node as it is
and has no effect at all, whatever the value of the setting and the
annotations are. -/
theorem syncDefaultDisks_label_false_or_absent (ds : DataStore) (node : Node)
    (kubeNode : KubeNode) (requireLabel : Bool)
    (hset : ds.GetSettingAsBool SettingNameCreateDefaultDiskLabeledNodes = (requireLabel, none))
    (hkn : ds.GetKubernetesNode node.Name = (some kubeNode, none))
    (hlabel : kubeNode.Labels.lookup NodeCreateDefaultDiskLabelKey = none ∨
      kubeNode.Labels.lookup NodeCreateDefaultDiskLabelKey = some "false") :
    syncDefaultDisks ds node = ⟨node, [], Outcome.returned none⟩ := by
  have hlow : strings_ToLower "false" = "false" := by decide
  have h1 : ("false" : String) ≠ NodeCreateDefaultDiskLabelValueTrue := by decide
  have h2 : ("false" : String) ≠ NodeCreateDefaultDiskLabelValueConfig := by decide
  cases requireLabel
  · simp [syncDefaultDisks, hset]
  · by_cases hd : node.Spec.DiskPathMap = []
    · rcases hlabel with h | h <;> simp [syncDefaultDisks, hset, hd, hkn, h, hlow, h1, h2]
    · simp [syncDefaultDisks, hset, hd]

/-- C4: when the setting is true, the node has no disk and the label
create-default-disk is "config", `syncDefaultDisks` returns nil and does not
update the node; with the default-disk-config annotation present its only
effect is one request to create the disks of this node from the text of the
annotation, and with the annotation absent it has no effect. -/
theorem syncDefaultDisks_label_config (ds : DataStore) (node : Node) (kubeNode : KubeNode)
    (hset : ds.GetSettingAsBool SettingNameCreateDefaultDiskLabeledNodes = (true, none))
    (hdisks : node.Spec.DiskPathMap = [])
    (hkn : ds.GetKubernetesNode node.Name = (some kubeNode, none))
    (hlabel : kubeNode.Labels.lookup NodeCreateDefaultDiskLabelKey = some "config") :
    (∀ annotation,
      kubeNode.Annotations.lookup KubeNodeDefaultDiskConfigAnnotationKey = some annotation →
      syncDefaultDisks ds node =
        ⟨node, [Effect.GoCreateDisksFromAnnotation node.Name annotation],
          Outcome.returned none⟩) ∧
    (kubeNode.Annotations.lookup KubeNodeDefaultDiskConfigAnnotationKey = none →
      syncDefaultDisks ds node = ⟨node, [], Outcome.returned none⟩) := by
  have hlow : strings_ToLower "config" = NodeCreateDefaultDiskLabelValueConfig := by decide
  have hne : NodeCreateDefaultDiskLabelValueConfig ≠ NodeCreateDefaultDiskLabelValueTrue := by
    decide
  constructor
  · intro annotation hann
    simp [syncDefaultDisks, hset, hdisks, hkn, hlabel, hlow, hne, hann]
  · intro hann
    simp [syncDefaultDisks, hset, hdisks, hkn, hlabel, hlow, hne, hann]

/-! ## Default node tags -/

/-- C5: when the tags of the Longhorn node are empty and the Kubernetes node
carries a default-node-tag-config annotation that parses to the tag list `T`,
the only effect of `syncDefaultNodeTags` is to write the node to the datastore
with `Spec.Tags = T`, its name and every other field of its spec unchanged. -/
theorem syncDefaultNodeTags_writes_tags (ds : DataStore) (node : Node) (kubeNode : KubeNode)
    (val : String) (T : List String)
    (htags : node.Spec.Tags = [])
    (hkn : ds.GetKubernetesNode node.Name = (some kubeNode, none))
    (hann : kubeNode.Annotations.lookup KubeNodeDefaultNodeTagConfigAnnotationKey = some val)
    (hparse : ds.GetNodeTagsFromAnnotation val = (T, none)) :
    (syncDefaultNodeTags ds node).effects =
      [Effect.UpdateNode
        { Name := node.Name,
          Spec := { AllowScheduling := node.Spec.AllowScheduling,
                    Tags := T,
                    DiskPathMap := node.Spec.DiskPathMap } }] := by
  rcases hupd : ds.UpdateNode { node with Spec := { node.Spec with Tags := T } } with
    ⟨updated, _ | err⟩ <;>
    simp [syncDefaultNodeTags, htags, hkn, hann, hparse, hupd]

/-- C7: `syncDefaultNodeTags` is idempotent.  For every datastore, every node
and every answer `update2` of the datastore to the writes of a second run, the
second run, made on the node left by the first run against the same Kubernetes
node, leaves that node as the first run left it, and a write of the second run
writes exactly that node. -/
theorem syncDefaultNodeTags_idempotent (ds : DataStore) (node : Node)
    (update2 : Node → Option Node × Option GoError) :
    (syncDefaultNodeTags { ds with UpdateNode := update2 }
        (syncDefaultNodeTags ds node).node).node = (syncDefaultNodeTags ds node).node ∧
    ∀ written, Effect.UpdateNode written ∈
        (syncDefaultNodeTags { ds with UpdateNode := update2 }
          (syncDefaultNodeTags ds node).node).effects →
      written = (syncDefaultNodeTags ds node).node := by
  by_cases htags : node.Spec.Tags = []
  · rcases hkn : ds.GetKubernetesNode node.Name with ⟨_ | kubeNode, _ | err⟩
    · simp [syncDefaultNodeTags, htags, hkn]
    · simp [syncDefaultNodeTags, htags, hkn]
    · rcases hann : kubeNode.Annotations.lookup KubeNodeDefaultNodeTagConfigAnnotationKey with
        _ | val
      · simp [syncDefaultNodeTags, htags, hkn, hann]
      · rcases hparse : ds.GetNodeTagsFromAnnotation val with ⟨T, _ | perr⟩
        · rcases T with _ | ⟨t, ts⟩
          · rcases hupd : ds.UpdateNode { node with Spec := { node.Spec with Tags := [] } } with
              ⟨u1, _ | e1⟩ <;>
            rcases hupd2 : update2 { node with Spec := { node.Spec with Tags := [] } } with
              ⟨u2, _ | e2⟩ <;>
            simp [syncDefaultNodeTags, htags, hkn, hann, hparse, hupd, hupd2]
          · rcases hupd : ds.UpdateNode
                { node with Spec := { node.Spec with Tags := t :: ts } } with ⟨u1, _ | e1⟩ <;>
            simp [syncDefaultNodeTags, htags, hkn, hann, hparse, hupd]
        · simp [syncDefaultNodeTags, htags, hkn, hann, hparse]
    · simp [syncDefaultNodeTags, htags, hkn]
  · simp [syncDefaultNodeTags, htags]

/-! ## The sync of a Kubernetes node -/

/-- C6: for every key whose Kubernetes node exists with a name different from
`controllerID`, `syncKubernetesNode` returns nil and has no effect: it updates
no Longhorn node, deletes none and requests no disk creation. -/
theorem syncKubernetesNode_not_owner (knc : KubernetesNodeController) (key ns name : String)
    (kubeNode : KubeNode)
    (hkey : SplitMetaNamespaceKey key = (ns, name, none))
    (hkn : knc.ds.GetKubernetesNode name = (some kubeNode, none))
    (hother : kubeNode.Name ≠ knc.controllerID) :
    syncKubernetesNode knc key = ⟨[], Outcome.returned none⟩ := by
  have hne : knc.controllerID ≠ kubeNode.Name := fun h => hother h.symm
  simp [syncKubernetesNode, hkey, hkn, hne, errors_Cause, apierrors_IsConflict, errors_Wrapf]

/-- The default-disk sync never touches the work queue. -/
theorem syncDefaultDisks_no_requeue (ds : DataStore) (node : Node) :
    (syncDefaultDisks ds node).effects.filter Effect.isAddRateLimited = [] := by
  simp only [syncDefaultDisks]
  repeat' split
  all_goals simp [Effect.isAddRateLimited]

/-- The default-tag sync never touches the work queue. -/
theorem syncDefaultNodeTags_no_requeue (ds : DataStore) (node : Node) :
    (syncDefaultNodeTags ds node).effects.filter Effect.isAddRateLimited = [] := by
  simp only [syncDefaultNodeTags]
  repeat' split
  all_goals simp [Effect.isAddRateLimited]

/-- The requeue on conflict, on the paths where a sync returns: for a key whose
Kubernetes node exists and is owned by this controller and whose Longhorn node
is found, when the default-disk sync, or after it the default-tag sync, returns
an error whose cause is a Conflict, `syncKubernetesNode` returns nil and calls
`AddRateLimited` exactly once, on the key of the Kubernetes node.  The write of
the default-disk sync does not return on a failure that comes without a node:
there the sync panics and nothing is requeued. -/
theorem syncKubernetesNode_conflict (knc : KubernetesNodeController) (key ns name : String)
    (kubeNode : KubeNode) (node : Node)
    (hkey : SplitMetaNamespaceKey key = (ns, name, none))
    (hkn : knc.ds.GetKubernetesNode name = (some kubeNode, none))
    (hown : kubeNode.Name = knc.controllerID)
    (hnode : knc.ds.GetNode kubeNode.Name = (some node, none))
    (hconflict :
      (∃ e, (syncDefaultDisks knc.ds node).outcome = Outcome.returned (some e) ∧
        apierrors_IsConflict (errors_Cause (some e)) = true) ∨
      ((syncDefaultDisks knc.ds node).outcome = Outcome.returned none ∧
        ∃ e, (syncDefaultNodeTags knc.ds (syncDefaultDisks knc.ds node).node).outcome =
            Outcome.returned (some e) ∧
          apierrors_IsConflict (errors_Cause (some e)) = true)) :
    (syncKubernetesNode knc key).outcome = Outcome.returned none ∧
    (syncKubernetesNode knc key).effects.filter Effect.isAddRateLimited =
      [Effect.AddRateLimited (KeyFunc (Object.kubeNode kubeNode)).1] := by
  have hd := syncDefaultDisks_no_requeue knc.ds node
  have ht := syncDefaultNodeTags_no_requeue knc.ds (syncDefaultDisks knc.ds node).node
  have henq : enqueueKubernetesNode (Object.kubeNode kubeNode) =
      [Effect.AddRateLimited (KeyFunc (Object.kubeNode kubeNode)).1] := by
    by_cases hns : kubeNode.Namespace.length > 0 <;> simp [enqueueKubernetesNode, KeyFunc, hns]
  rw [hown] at hnode
  rcases hconflict with ⟨e, hout, hc⟩ | ⟨hout, e, hout2, hc⟩
  · simp [syncKubernetesNode, hkey, hkn, hown, hnode, syncNode, hout, hc, henq, hd,
      errors_Wrapf, Effect.isAddRateLimited]
  · simp [syncKubernetesNode, hkey, hkn, hown, hnode, syncNode, hout, hout2, hc, henq, hd, ht,
      errors_Wrapf, Effect.isAddRateLimited]

/-! ## The work queue -/

/-- C9: for a non-nil error `handleErr` only re-adds the key rate-limited when
the requeue count of the key is below `maxRetries`, and otherwise reports the
error to the error sink and forgets the key, without re-adding it; for a nil
error it forgets the key and does nothing else. -/
theorem handleErr_cases (knc : KubernetesNodeController) (q : WorkQueue) (key : String) :
    (∀ e, q.NumRequeues key < knc.maxRetries →
      handleErr knc q (some e) key = [Effect.AddRateLimited key]) ∧
    (∀ e, ¬ q.NumRequeues key < knc.maxRetries →
      handleErr knc q (some e) key = [Effect.HandleError e, Effect.Forget key]) ∧
    handleErr knc q none key = [Effect.Forget key] := by
  refine ⟨?_, ?_, ?_⟩
  · intro e h
    simp [handleErr, h]
  · intro e h
    simp [handleErr, h]
  · simp [handleErr]

/-- Effects other than `Forget` never lower the requeue count of a key. -/
theorem WorkQueue.NumRequeues_le_run (es : List Effect) (key : String)
    (hes : ∀ e ∈ es, e.isForget = false) (q : WorkQueue) :
    q.NumRequeues key ≤ (q.run es).NumRequeues key := by
  induction es generalizing q with
  | nil => simp [WorkQueue.run]
  | cons e rest ih =>
    have hrest : ∀ x ∈ rest, x.isForget = false := fun x hx => hes x (List.mem_cons_of_mem _ hx)
    have he : e.isForget = false := hes e (List.mem_cons_self _ _)
    have hstep : q.NumRequeues key ≤ (q.step e).NumRequeues key := by
      cases e <;> simp [WorkQueue.step, Effect.isForget] at he ⊢
      simp only [WorkQueue.NumRequeues, WorkQueue.AddRateLimited]
      split_ifs <;> omega
    have := ih hrest (q.step e)
    simp only [WorkQueue.run, List.foldl_cons] at this ⊢
    omega

/-- The function `enqueueKubernetesNode` never forgets a key. -/
theorem enqueueKubernetesNode_no_forget (obj : Object) :
    ∀ e ∈ enqueueKubernetesNode obj, e.isForget = false := by
  simp only [enqueueKubernetesNode]
  split <;> simp [Effect.isForget]

/-- The default-disk sync never forgets a key. -/
theorem syncDefaultDisks_no_forget (ds : DataStore) (node : Node) :
    ∀ e ∈ (syncDefaultDisks ds node).effects, e.isForget = false := by
  simp only [syncDefaultDisks]
  repeat' split
  all_goals simp [Effect.isForget]

/-- The default-tag sync never forgets a key. -/
theorem syncDefaultNodeTags_no_forget (ds : DataStore) (node : Node) :
    ∀ e ∈ (syncDefaultNodeTags ds node).effects, e.isForget = false := by
  simp only [syncDefaultNodeTags]
  repeat' split
  all_goals simp [Effect.isForget]

/-- The two syncs never forget a key. -/
theorem syncNode_no_forget (ds : DataStore) (node : Option Node) :
    ∀ e ∈ (syncNode ds node).effects, e.isForget = false := by
  cases node with
  | none =>
    simp only [syncNode]
    split <;> simp
  | some n =>
    have hd := syncDefaultDisks_no_forget ds n
    have ht := syncDefaultNodeTags_no_forget ds (syncDefaultDisks ds n).node
    simp only [syncNode]
    split
    · exact hd
    · exact hd
    · intro e he
      rcases List.mem_append.mp he with h | h
      · exact hd e h
      · exact ht e h

/-- The sync of a Kubernetes node never forgets a key. -/
theorem syncKubernetesNode_no_forget (knc : KubernetesNodeController) (key : String) :
    ∀ e ∈ (syncKubernetesNode knc key).effects, e.isForget = false := by
  simp only [syncKubernetesNode]
  split
  · simp
  · split
    · simp
    · split
      · simp [Effect.isForget]
      · rename_i kubeNode _
        have hbody : ∀ e ∈ (if knc.controllerID != kubeNode.Name then
              (⟨[], Outcome.returned none⟩ : Pass)
            else
              match knc.ds.GetNode kubeNode.Name with
              | (_, some _) => ⟨[], Outcome.returned none⟩
              | (node, none) => syncNode knc.ds node).effects, e.isForget = false := by
          split
          · simp
          · split
            · simp
            · exact syncNode_no_forget _ _
        split
        · exact hbody
        · split
          · intro e he
            rcases List.mem_append.mp he with h | h
            · exact hbody e h
            · exact enqueueKubernetesNode_no_forget _ e h
          · exact hbody

/-- Invariant of `readdsBeforeDrop`: from a queue in which the key has count
`c`, a key whose sync fails in every attempt is re-added at most
`maxRetries - c` times, and is dropped once there are more attempts than that. -/
theorem readdsBeforeDrop_le_sub (knc : KubernetesNodeController) (key : String)
    (attempts : List Attempt)
    (hfail : ∀ a ∈ attempts, ∃ e,
      (syncKubernetesNode { knc with ds := a.ds } key).outcome = Outcome.returned (some e))
    (q : WorkQueue) :
    (readdsBeforeDrop knc key q attempts).1 ≤ knc.maxRetries - q.NumRequeues key ∧
    (knc.maxRetries - q.NumRequeues key < attempts.length →
      (readdsBeforeDrop knc key q attempts).2 = true) := by
  induction attempts generalizing q with
  | nil => simp [readdsBeforeDrop]
  | cons a rest ih =>
    obtain ⟨e, he⟩ := hfail a (List.mem_cons_self _ _)
    have hrest : ∀ b ∈ rest, ∃ e,
        (syncKubernetesNode { knc with ds := b.ds } key).outcome = Outcome.returned (some e) :=
      fun b hb => hfail b (List.mem_cons_of_mem _ hb)
    have hev : ∀ x ∈ (a.events.map enqueueKubernetesNode).flatten, x.isForget = false := by
      intro x hx
      obtain ⟨l, hl, hxl⟩ := List.mem_flatten.mp hx
      obtain ⟨obj, _, rfl⟩ := List.mem_map.mp hl
      exact enqueueKubernetesNode_no_forget obj x hxl
    have h1 := WorkQueue.NumRequeues_le_run _ key hev q
    have h2 := WorkQueue.NumRequeues_le_run _ key
      (syncKubernetesNode_no_forget { knc with ds := a.ds } key)
      (q.run (a.events.map enqueueKubernetesNode).flatten)
    by_cases hlt : ((q.run (a.events.map enqueueKubernetesNode).flatten).run
        (syncKubernetesNode { knc with ds := a.ds } key).effects).NumRequeues key < knc.maxRetries
    · have hih := ih hrest
        (((q.run (a.events.map enqueueKubernetesNode).flatten).run
          (syncKubernetesNode { knc with ds := a.ds } key).effects).run
            [Effect.AddRateLimited key])
      have hc3 : ((((q.run (a.events.map enqueueKubernetesNode).flatten).run
          (syncKubernetesNode { knc with ds := a.ds } key).effects).run
            [Effect.AddRateLimited key])).NumRequeues key =
          ((q.run (a.events.map enqueueKubernetesNode).flatten).run
            (syncKubernetesNode { knc with ds := a.ds } key).effects).NumRequeues key + 1 := by
        simp [WorkQueue.run, WorkQueue.step, WorkQueue.AddRateLimited, WorkQueue.NumRequeues]
      simp only [readdsBeforeDrop, he, handleErr, hlt, if_true, List.length_cons]
      constructor
      · omega
      · intro hlen
        exact hih.2 (by omega)
    · simp [readdsBeforeDrop, he, handleErr, hlt]

/-- C10: from any queue state, a key whose sync returns an error in every
attempt is re-added by `handleErr` at most `maxRetries` times before it is
forgotten and dropped, and it is dropped as soon as there are more than
`maxRetries` attempts.  Every `AddRateLimited` raises the requeue count of its
key, those of `enqueueKubernetesNode` between the attempts included, and only
`Forget` resets it. -/
theorem readdsBeforeDrop_le_maxRetries (knc : KubernetesNodeController) (key : String)
    (q : WorkQueue) (attempts : List Attempt)
    (hfail : ∀ a ∈ attempts, ∃ e,
      (syncKubernetesNode { knc with ds := a.ds } key).outcome = Outcome.returned (some e)) :
    (readdsBeforeDrop knc key q attempts).1 ≤ knc.maxRetries ∧
    (knc.maxRetries < attempts.length → (readdsBeforeDrop knc key q attempts).2 = true) := by
  have h := readdsBeforeDrop_le_sub knc key attempts hfail q
  exact ⟨le_trans h.1 (Nat.sub_le _ _), fun hlen => h.2 (by omega)⟩

/-! ## The theorems at sample data -/

/-- With the label "true" the sample node gets the disk `/var/lib/longhorn`
and is written with it. -/
theorem syncDefaultDisks_label_true_witness :
    (syncDefaultDisks
        (sampleStore true (sampleKubeNode [("create-default-disk", "true")] []) updateOk)
        sampleNode).effects.take 2 =
      [Effect.PrepareForDefaultDiskCreation "/var/lib/longhorn" sampleNode,
        Effect.UpdateNode
          { Name := "node-1",
            Spec := { AllowScheduling := true, Tags := [],
                      DiskPathMap := ["/var/lib/longhorn"] } }] :=
  (syncDefaultDisks_label_true
    (sampleStore true (sampleKubeNode [("create-default-disk", "true")] []) updateOk)
    sampleNode _ (sampleKubeNode [("create-default-disk", "true")] []) "/var/lib/longhorn"
    rfl rfl rfl (by decide) rfl rfl).2.1

/-- With the setting off, a labelled sample node is left alone. -/
theorem syncDefaultDisks_gate_witness :
    syncDefaultDisks
        (sampleStore false (sampleKubeNode [("create-default-disk", "true")] []) updateOk)
        sampleNode = ⟨sampleNode, [], Outcome.returned none⟩ :=
  syncDefaultDisks_gate _ sampleNode false rfl (Or.inl rfl)

/-- With the label "false" the sample node is left alone. -/
theorem syncDefaultDisks_label_false_or_absent_witness :
    syncDefaultDisks
        (sampleStore true (sampleKubeNode [("create-default-disk", "false")] []) updateOk)
        sampleNode = ⟨sampleNode, [], Outcome.returned none⟩ :=
  syncDefaultDisks_label_false_or_absent _ sampleNode
    (sampleKubeNode [("create-default-disk", "false")] []) true rfl rfl (Or.inr (by decide))

/-- With the label "config" and an annotation, the disks of the sample node
are requested from the annotation. -/
theorem syncDefaultDisks_label_config_witness :
    syncDefaultDisks
        (sampleStore true
          (sampleKubeNode [("create-default-disk", "config")]
            [("default-disk-config", "[]")]) updateOk)
        sampleNode =
      ⟨sampleNode, [Effect.GoCreateDisksFromAnnotation "node-1" "[]"], Outcome.returned none⟩ :=
  (syncDefaultDisks_label_config
    (sampleStore true
      (sampleKubeNode [("create-default-disk", "config")] [("default-disk-config", "[]")])
      updateOk)
    sampleNode
    (sampleKubeNode [("create-default-disk", "config")] [("default-disk-config", "[]")])
    rfl rfl rfl (by decide)).1 "[]" (by decide)

/-- The tags of the annotation are written on the sample node. -/
theorem syncDefaultNodeTags_writes_tags_witness :
    (syncDefaultNodeTags
        (sampleStore false
          (sampleKubeNode [] [("default-node-tag-config", "[\"fast\",\"ssd\"]")]) updateOk)
        sampleNode).effects =
      [Effect.UpdateNode
        { Name := "node-1",
          Spec := { AllowScheduling := true, Tags := ["fast", "ssd"], DiskPathMap := [] } }] :=
  syncDefaultNodeTags_writes_tags
    (sampleStore false
      (sampleKubeNode [] [("default-node-tag-config", "[\"fast\",\"ssd\"]")]) updateOk)
    sampleNode (sampleKubeNode [] [("default-node-tag-config", "[\"fast\",\"ssd\"]")])
    "[\"fast\",\"ssd\"]" ["fast", "ssd"] rfl rfl (by decide) (by decide)

/-- A controller named `node-2` leaves the key `node-1` alone. -/
theorem syncKubernetesNode_not_owner_witness :
    syncKubernetesNode
        { controllerID := "node-2",
          ds := sampleStore true (sampleKubeNode [("create-default-disk", "true")] []) updateOk,
          maxRetries := 3 }
        "node-1" = ⟨[], Outcome.returned none⟩ :=
  syncKubernetesNode_not_owner
    { controllerID := "node-2",
      ds := sampleStore true (sampleKubeNode [("create-default-disk", "true")] []) updateOk,
      maxRetries := 3 }
    "node-1" "" "node-1" (sampleKubeNode [("create-default-disk", "true")] [])
    (by decide) rfl (by decide)

/-- A conflict on the write of the tags of `node-1` is swallowed and the key
`node-1` is requeued once. -/
theorem syncKubernetesNode_conflict_witness :
    (syncKubernetesNode
        { controllerID := "node-1",
          ds := sampleStore false
            (sampleKubeNode [] [("default-node-tag-config", "[\"fast\",\"ssd\"]")])
            updateConflict,
          maxRetries := 3 }
        "node-1").outcome = Outcome.returned none ∧
    (syncKubernetesNode
        { controllerID := "node-1",
          ds := sampleStore false
            (sampleKubeNode [] [("default-node-tag-config", "[\"fast\",\"ssd\"]")])
            updateConflict,
          maxRetries := 3 }
        "node-1").effects.filter Effect.isAddRateLimited = [Effect.AddRateLimited "node-1"] :=
  syncKubernetesNode_conflict
    { controllerID := "node-1",
      ds := sampleStore false
        (sampleKubeNode [] [("default-node-tag-config", "[\"fast\",\"ssd\"]")]) updateConflict,
      maxRetries := 3 }
    "node-1" "" "node-1"
    (sampleKubeNode [] [("default-node-tag-config", "[\"fast\",\"ssd\"]")]) sampleNode
    (by decide) rfl rfl rfl
    (Or.inr ⟨by decide, sampleConflict, by decide, by decide⟩)

/-- With `maxRetries = 3`: a key requeued twice is re-added, a key requeued
three times is reported and forgotten. -/
theorem handleErr_cases_witness :
    handleErr ⟨"node-1", sampleStore false (sampleKubeNode [] []) updateOk, 3⟩
        ((emptyQueue.AddRateLimited "node-1").AddRateLimited "node-1")
        (some sampleConflict) "node-1" = [Effect.AddRateLimited "node-1"] ∧
    handleErr ⟨"node-1", sampleStore false (sampleKubeNode [] []) updateOk, 3⟩
        (((emptyQueue.AddRateLimited "node-1").AddRateLimited "node-1").AddRateLimited "node-1")
        (some sampleConflict) "node-1" =
      [Effect.HandleError sampleConflict, Effect.Forget "node-1"] :=
  ⟨(handleErr_cases ⟨"node-1", sampleStore false (sampleKubeNode [] []) updateOk, 3⟩
      ((emptyQueue.AddRateLimited "node-1").AddRateLimited "node-1") "node-1").1
      sampleConflict (by decide),
    (handleErr_cases ⟨"node-1", sampleStore false (sampleKubeNode [] []) updateOk, 3⟩
      (((emptyQueue.AddRateLimited "node-1").AddRateLimited "node-1").AddRateLimited "node-1")
      "node-1").2.1 sampleConflict (by decide)⟩

/-- With `maxRetries = 3` the key `node-1` of the sample attempts is re-added at
most three times and then dropped. -/
theorem readdsBeforeDrop_le_maxRetries_witness :
    (readdsBeforeDrop ⟨"node-1", brokenStore, 3⟩ "node-1" emptyQueue sampleAttempts).1 ≤ 3 ∧
    (3 < sampleAttempts.length →
      (readdsBeforeDrop ⟨"node-1", brokenStore, 3⟩ "node-1" emptyQueue sampleAttempts).2 = true) :=
  readdsBeforeDrop_le_maxRetries ⟨"node-1", brokenStore, 3⟩ "node-1" emptyQueue sampleAttempts
    (by
      intro a ha
      simp only [sampleAttempts, List.mem_cons, List.mem_singleton, List.not_mem_nil,
        or_false] at ha
      rcases ha with rfl | rfl | rfl | rfl | rfl <;> exact ⟨_, rfl⟩)

/-- In the sample attempts the requeue made by `enqueueKubernetesNode` counts:
`handleErr` re-adds the key twice, and the third attempt drops it. -/
theorem readdsBeforeDrop_sampleAttempts :
    readdsBeforeDrop ⟨"node-1", brokenStore, 3⟩ "node-1" emptyQueue sampleAttempts = (2, true) := by
  decide

/-- Without other requeues, from an empty queue, the key is re-added exactly
`maxRetries = 3` times before the fourth attempt drops it. -/
theorem readdsBeforeDrop_exact :
    readdsBeforeDrop ⟨"node-1", brokenStore, 3⟩ "node-1" emptyQueue
      [⟨[], brokenStore⟩, ⟨[], brokenStore⟩, ⟨[], brokenStore⟩, ⟨[], brokenStore⟩] = (3, true) := by
  decide

/-! ## The setting CRD -/

/-- C20: `CreateSettingCRD` returns nil exactly when the creation call returns
no error or an error that `IsAlreadyExists` recognises, and it returns every
other error of the creation call unchanged. -/
theorem CreateSettingCRD_nil_iff (t : CrdType)
    (create : CustomResourceDefinition → Option GoError) :
    (CreateSettingCRD t create = none ↔
      (create (settingCRD t) = none ∨
        apierrors_IsAlreadyExists (create (settingCRD t)) = true)) ∧
    (apierrors_IsAlreadyExists (create (settingCRD t)) = false →
      CreateSettingCRD t create = create (settingCRD t)) := by
  rcases h : create (settingCRD t) with _ | e
  · simp [CreateSettingCRD, h, apierrors_IsAlreadyExists]
  · by_cases hx : apierrors_IsAlreadyExists (some e) = true
    · simp [CreateSettingCRD, h, hx]
    · simp [CreateSettingCRD, h, hx]

/-- An AlreadyExists answer gives nil, a Conflict answer is returned as it is. -/
theorem CreateSettingCRD_nil_iff_witness :
    CreateSettingCRD sampleCrdType
        (fun _ => some (GoError.status StatusReason.AlreadyExists "already exists")) = none ∧
    CreateSettingCRD sampleCrdType (fun _ => some sampleConflict) = some sampleConflict :=
  ⟨(CreateSettingCRD_nil_iff sampleCrdType
      (fun _ => some (GoError.status StatusReason.AlreadyExists "already exists"))).1.2
      (Or.inr rfl),
    (CreateSettingCRD_nil_iff sampleCrdType (fun _ => some sampleConflict)).2 rfl⟩

/-! ## Paths -/

/-- A split on `/` is never empty. -/
theorem splitOnSlash_ne_nil (p : List Char) : splitOnSlash p ≠ [] := by
  cases p with
  | nil => simp [splitOnSlash]
  | cons c cs =>
    simp only [splitOnSlash]
    split
    · simp
    · split <;> simp

/-- A string without `/` is its own single part. -/
theorem splitOnSlash_of_not_mem (w : List Char) (hw : '/' ∉ w) : splitOnSlash w = [w] := by
  induction w with
  | nil => rfl
  | cons c cs ih =>
    have hc : c ≠ '/' := fun h => hw (h ▸ List.mem_cons_self _ _)
    have hcs : '/' ∉ cs := fun h => hw (List.mem_cons_of_mem _ h)
    simp [splitOnSlash, ih hcs, hc]

/-- Splitting distributes over a `/`. -/
theorem splitOnSlash_append (a b : List Char) :
    splitOnSlash (a ++ '/' :: b) = splitOnSlash a ++ splitOnSlash b := by
  induction a with
  | nil =>
    rcases hb : splitOnSlash b with _ | ⟨p, ps⟩
    · exact absurd hb (splitOnSlash_ne_nil b)
    · simp [splitOnSlash, hb]
  | cons c cs ih =>
    rcases ha : splitOnSlash cs with _ | ⟨p, ps⟩
    · exact absurd ha (splitOnSlash_ne_nil cs)
    · have ih2 : splitOnSlash (cs ++ '/' :: b) = p :: (ps ++ splitOnSlash b) := by
        rw [ih, ha]; rfl
      by_cases hc : c = '/' <;> simp [splitOnSlash, ih2, ha, hc]

/-- The parts of a split contain no `/`. -/
theorem not_mem_of_mem_splitOnSlash (p : List Char) :
    ∀ c ∈ splitOnSlash p, '/' ∉ c := by
  induction p with
  | nil => simp [splitOnSlash]
  | cons x xs ih =>
    rcases hs : splitOnSlash xs with _ | ⟨q, qs⟩
    · exact absurd hs (splitOnSlash_ne_nil xs)
    · rw [hs] at ih
      simp only [splitOnSlash, hs]
      by_cases hx : x = '/'
      · simp only [hx, if_true]
        intro c hc
        rcases List.mem_cons.mp hc with rfl | hc
        · simp
        · exact ih c hc
      · simp only [hx, if_false]
        intro c hc
        rcases List.mem_cons.mp hc with rfl | hc
        · intro hmem
          rcases List.mem_cons.mp hmem with h | h
          · exact hx h.symm
          · exact ih q (List.mem_cons_self _ _) h
        · exact ih c (List.mem_cons_of_mem _ hc)

/-- A regular element is pushed by `cleanStep`. -/
theorem cleanStep_regular (rooted : Bool) (stack : List (List Char)) (c : List Char)
    (hc : regularElement c) : cleanStep rooted stack c = c :: stack := by
  obtain ⟨h1, h2, h3, _⟩ := hc
  simp [cleanStep, h1, h2, h3]

/-- Regular elements are pushed one after the other. -/
theorem foldl_cleanStep_regular (rooted : Bool) (S : List (List Char))
    (hS : ∀ c ∈ S, regularElement c) (stack : List (List Char)) :
    S.foldl (cleanStep rooted) stack = S.reverse ++ stack := by
  induction S generalizing stack with
  | nil => rfl
  | cons c cs ih =>
    have hc := hS c (List.mem_cons_self _ _)
    have hcs : ∀ x ∈ cs, regularElement x := fun x hx => hS x (List.mem_cons_of_mem _ hx)
    simp [List.foldl_cons, cleanStep_regular rooted stack c hc, ih hcs]

/-- In a rooted path `cleanStep` keeps a stack of regular elements regular. -/
theorem cleanStep_keeps_regular (stack : List (List Char)) (c : List Char)
    (hstack : ∀ x ∈ stack, regularElement x) (hc : '/' ∉ c) :
    ∀ x ∈ cleanStep true stack c, regularElement x := by
  by_cases h1 : c = [] ∨ c = ['.']
  · simpa [cleanStep, h1] using hstack
  · by_cases h2 : c = ['.', '.']
    · cases stack with
      | nil => simp [cleanStep, h2]
      | cons top rest =>
        have htop := hstack top (List.mem_cons_self _ _)
        have hne : top ≠ ['.', '.'] := htop.2.2.1
        have hrest : ∀ x ∈ rest, regularElement x :=
          fun x hx => hstack x (List.mem_cons_of_mem _ hx)
        simpa [cleanStep, h2, hne] using hrest
    · intro x hx
      simp only [cleanStep, h1, h2, if_false] at hx
      rcases List.mem_cons.mp hx with rfl | hx
      · exact ⟨fun h => h1 (Or.inl h), fun h => h1 (Or.inr h), h2, hc⟩
      · exact hstack x hx

/-- In a rooted path the stack of `filepath.Clean` holds regular elements. -/
theorem foldl_cleanStep_keeps_regular (comps : List (List Char))
    (hcomps : ∀ c ∈ comps, '/' ∉ c) (stack : List (List Char))
    (hstack : ∀ x ∈ stack, regularElement x) :
    ∀ x ∈ comps.foldl (cleanStep true) stack, regularElement x := by
  induction comps generalizing stack with
  | nil => exact hstack
  | cons c cs ih =>
    exact ih (fun x hx => hcomps x (List.mem_cons_of_mem _ hx)) _
      (cleanStep_keeps_regular stack c hstack (hcomps c (List.mem_cons_self _ _)))

/-- The elements kept from a rooted path are regular. -/
theorem cleanElements_regular (p : List Char) (hp : p.head? = some '/') :
    ∀ x ∈ cleanElements p, regularElement x := by
  intro x hx
  simp only [cleanElements, hp, decide_True, List.mem_reverse] at hx
  exact foldl_cleanStep_keeps_regular (splitOnSlash p) (not_mem_of_mem_splitOnSlash p) []
    (by simp) x hx

/-- A rooted path with at least one element starts with `/` and joins its
elements with `/`. -/
theorem cons_joinSlash_eq_rootedPath (S : List (List Char)) (hS : S ≠ []) :
    '/' :: joinSlash S = rootedPath S := by
  induction S with
  | nil => exact absurd rfl hS
  | cons c cs ih =>
    cases cs with
    | nil => simp [joinSlash, rootedPath]
    | cons d ds =>
      have := ih (by simp)
      simp only [joinSlash, rootedPath] at this ⊢
      rw [this]
      simp

/-- The rooted path of more elements. -/
theorem rootedPath_append (S T : List (List Char)) :
    rootedPath (S ++ T) = rootedPath S ++ rootedPath T := by
  induction S with
  | nil => rfl
  | cons c cs ih => simp [rootedPath, ih]

/-- The split of an element followed by a rooted path. -/
theorem splitOnSlash_append_rootedPath (S : List (List Char)) (hS : ∀ c ∈ S, '/' ∉ c)
    (c : List Char) (hc : '/' ∉ c) : splitOnSlash (c ++ rootedPath S) = c :: S := by
  induction S generalizing c with
  | nil => simpa [rootedPath] using splitOnSlash_of_not_mem c hc
  | cons d ds ih =>
    have hd := hS d (List.mem_cons_self _ _)
    have hds : ∀ x ∈ ds, '/' ∉ x := fun x hx => hS x (List.mem_cons_of_mem _ hx)
    simp only [rootedPath, List.cons_append]
    rw [splitOnSlash_append, splitOnSlash_of_not_mem c hc, ih hds d hd]
    rfl

/-- The elements kept from a rooted path of regular elements are these
elements. -/
theorem cleanElements_rootedPath (S : List (List Char)) (hS : ∀ c ∈ S, regularElement c)
    (hne : S ≠ []) : cleanElements (rootedPath S) = S := by
  have hfree : ∀ c ∈ S, '/' ∉ c := fun c hc => (hS c hc).2.2.2
  have hsplit : splitOnSlash (rootedPath S) = [] :: S := by
    simpa using splitOnSlash_append_rootedPath S hfree [] (by simp)
  have hhead : (rootedPath S).head? = some '/' := by
    cases S with
    | nil => exact absurd rfl hne
    | cons c cs => simp [rootedPath]
  simp only [cleanElements, hhead, decide_True, hsplit, List.foldl_cons]
  have h0 : cleanStep true [] [] = [] := by simp [cleanStep]
  rw [h0, foldl_cleanStep_regular true S hS []]
  simp

/-- A rooted path of regular elements is clean. -/
theorem cleanChars_rootedPath (S : List (List Char)) (hS : ∀ c ∈ S, regularElement c)
    (hne : S ≠ []) : cleanChars (rootedPath S) = rootedPath S := by
  have hhead : (rootedPath S).head? = some '/' := by
    cases S with
    | nil => exact absurd rfl hne
    | cons c cs => simp [rootedPath]
  have hnil : rootedPath S ≠ [] := by
    intro h
    rw [h] at hhead
    simp at hhead
  simp only [cleanChars, hnil, if_false, hhead, if_true, cleanElements_rootedPath S hS hne]
  simp [cons_joinSlash_eq_rootedPath S hne, hnil]

/-- The clean form of a rooted path is `/` followed by its elements. -/
theorem cleanChars_of_rooted (d : List Char) (hd : d.head? = some '/') :
    cleanChars d = '/' :: joinSlash (cleanElements d) := by
  have hnil : d ≠ [] := by
    intro h
    rw [h] at hd
    simp at hd
  simp [cleanChars, hnil, hd]

/-- The elements kept from a rooted path followed by two regular elements. -/
theorem cleanElements_append_two (d r n : List Char) (hd : d.head? = some '/')
    (hr : regularElement r) (hn : regularElement n) :
    cleanElements (d ++ '/' :: (r ++ '/' :: n)) = cleanElements d ++ [r, n] := by
  have hhead : (d ++ '/' :: (r ++ '/' :: n)).head? = some '/' := by
    cases d with
    | nil => simp at hd
    | cons x xs => simpa using hd
  simp only [cleanElements, hhead, hd, decide_True]
  rw [splitOnSlash_append, splitOnSlash_append, splitOnSlash_of_not_mem r hr.2.2.2,
    splitOnSlash_of_not_mem n hn.2.2.2, List.foldl_append, List.foldl_append]
  simp [cleanStep_regular, hr, hn]

/-- Joining a rooted path with two regular elements and cleaning gives the
rooted path of the kept elements followed by the two. -/
theorem cleanChars_append_two (d r n : List Char) (hd : d.head? = some '/')
    (hr : regularElement r) (hn : regularElement n) :
    cleanChars (d ++ '/' :: (r ++ '/' :: n)) = rootedPath (cleanElements d ++ [r, n]) := by
  have hhead : (d ++ '/' :: (r ++ '/' :: n)).head? = some '/' := by
    cases d with
    | nil => simp at hd
    | cons x xs => simpa using hd
  rw [cleanChars_of_rooted _ hhead, cleanElements_append_two d r n hd hr hn]
  exact cons_joinSlash_eq_rootedPath _ (by simp)

/-- Two strings that agree up to their first `/` have the same first part. -/
theorem eq_of_append_slash_eq (w1 w2 r1 r2 : List Char) (h1 : '/' ∉ w1) (h2 : '/' ∉ w2)
    (h : w1 ++ '/' :: r1 = w2 ++ '/' :: r2) : w1 = w2 := by
  induction w1 generalizing w2 with
  | nil =>
    cases w2 with
    | nil => rfl
    | cons y ys =>
      simp only [List.nil_append, List.cons_append, List.cons.injEq] at h
      exact absurd (h.1 ▸ List.mem_cons_self _ _) h2
  | cons x xs ih =>
    cases w2 with
    | nil =>
      simp only [List.nil_append, List.cons_append, List.cons.injEq] at h
      exact absurd (h.1 ▸ List.mem_cons_self _ _) h1
    | cons y ys =>
      simp only [List.cons_append, List.cons.injEq] at h
      rw [h.1, ih ys (fun hm => h1 (List.mem_cons_of_mem _ hm))
        (fun hm => h2 (List.mem_cons_of_mem _ hm)) h.2]

/-- The loop of the split at a character, outside a separator. -/
theorem splitAux_cons_zero (sep : List Char) (c : Char) (cs cur : List Char) :
    splitAux sep (c :: cs) 0 cur =
      if sep.isPrefixOf (c :: cs) then cur.reverse :: splitAux sep cs (sep.length - 1) []
      else splitAux sep cs 0 (c :: cur) := by
  rw [splitAux]

/-- The loop of the split at a character, inside a separator. -/
theorem splitAux_cons_succ (sep : List Char) (c : Char) (cs cur : List Char) (k : Nat) :
    splitAux sep (c :: cs) (k + 1) cur = splitAux sep cs k cur := by
  rw [splitAux]

/-- While a separator is passed, characters are dropped. -/
theorem splitAux_skip (sep w rest cur : List Char) :
    splitAux sep (w ++ rest) w.length cur = splitAux sep rest 0 cur := by
  induction w with
  | nil => rfl
  | cons x xs ih =>
    rw [List.cons_append, List.length_cons, splitAux_cons_succ]
    exact ih

/-- Characters other than `/` go to the current part. -/
theorem splitAux_scan (w rest cur : List Char) (hw : '/' ∉ w) :
    splitAux replicasSeparator (w ++ rest) 0 cur =
      splitAux replicasSeparator rest 0 (w.reverse ++ cur) := by
  induction w generalizing cur with
  | nil => rfl
  | cons x xs ih =>
    have hx : x ≠ '/' := fun h => hw (h ▸ List.mem_cons_self _ _)
    have hxs : '/' ∉ xs := fun h => hw (List.mem_cons_of_mem _ h)
    have hpre : replicasSeparator.isPrefixOf (x :: (xs ++ rest)) = false := by
      simp [replicasSeparator, List.isPrefixOf, Ne.symm hx]
    rw [List.cons_append, splitAux_cons_zero, hpre, if_neg (by simp), ih (x :: cur) hxs]
    simp

/-- The separator does not start at the `/` before an element other than
`replicas`. -/
theorem isPrefixOf_separator_eq_false (c t : List Char) (hc : '/' ∉ c)
    (hne : c ≠ replicasElement) :
    replicasSeparator.isPrefixOf ('/' :: (c ++ '/' :: t)) = false := by
  by_contra hcon
  have htrue : replicasSeparator.isPrefixOf ('/' :: (c ++ '/' :: t)) = true := by
    simpa using hcon
  rw [List.isPrefixOf_iff_prefix] at htrue
  obtain ⟨u, hu⟩ := htrue
  simp only [replicasSeparator, List.cons_append, List.cons.injEq, true_and,
    List.append_assoc, List.nil_append] at hu
  exact hne (eq_of_append_slash_eq replicasElement c u t (by decide) hc hu).symm

/-- The split on `/replicas/` of a rooted path without an element `replicas`,
followed by `/replicas/` and a last element: the path and the last element. -/
theorem splitAux_rootedPath (S : List (List Char))
    (hS : ∀ c ∈ S, '/' ∉ c ∧ c ≠ replicasElement) (n : List Char) (hn : '/' ∉ n)
    (cur : List Char) :
    splitAux replicasSeparator (rootedPath S ++ (replicasSeparator ++ n)) 0 cur =
      [cur.reverse ++ rootedPath S, n] := by
  induction S generalizing cur with
  | nil =>
    have heq : rootedPath [] ++ (replicasSeparator ++ n) =
        '/' :: ((replicasElement ++ ['/']) ++ n) := by
      simp [rootedPath, replicasSeparator]
    have hpre : replicasSeparator.isPrefixOf
        ('/' :: ((replicasElement ++ ['/']) ++ n)) = true := by
      rw [List.isPrefixOf_iff_prefix]
      exact ⟨n, by simp [replicasSeparator]⟩
    have hskip := splitAux_skip replicasSeparator (replicasElement ++ ['/']) n []
    have hscan := splitAux_scan n [] [] hn
    simp only [List.append_nil] at hscan
    have hlen : replicasSeparator.length - 1 = (replicasElement ++ ['/']).length := by decide
    have hend : splitAux replicasSeparator [] 0 n.reverse = [n] := by
      rw [splitAux]
      simp
    rw [heq, splitAux_cons_zero, if_pos hpre, hlen, hskip, hscan, hend]
    simp [rootedPath]
  | cons c cs ih =>
    have hc := hS c (List.mem_cons_self _ _)
    have hcs : ∀ x ∈ cs, '/' ∉ x ∧ x ≠ replicasElement :=
      fun x hx => hS x (List.mem_cons_of_mem _ hx)
    obtain ⟨t, ht⟩ : ∃ t, rootedPath cs ++ (replicasSeparator ++ n) = '/' :: t := by
      cases cs with
      | nil => exact ⟨(replicasElement ++ ['/']) ++ n, by simp [rootedPath, replicasSeparator]⟩
      | cons d ds =>
        exact ⟨d ++ (rootedPath ds ++ (replicasSeparator ++ n)), by simp [rootedPath]⟩
    have hpre := isPrefixOf_separator_eq_false c t hc.1 hc.2
    have hscan := splitAux_scan c (rootedPath cs ++ (replicasSeparator ++ n)) ('/' :: cur) hc.1
    have hih := ih hcs (c.reverse ++ '/' :: cur)
    have heq : rootedPath (c :: cs) ++ (replicasSeparator ++ n) =
        '/' :: (c ++ (rootedPath cs ++ (replicasSeparator ++ n))) := by
      simp [rootedPath]
    rw [heq, splitAux_cons_zero, ht, if_neg (by simp [hpre]), ← ht, hscan, hih]
    simp [rootedPath]

/-! ## The upgrade of the replicas -/

/-- The data path joined from an absolute disk path, `replicas` and a regular
name, and its split on `/replicas/`, when the clean disk path is not the root
and has no element `replicas`. -/
theorem split_join_dataPath (diskPath name : String)
    (habs : diskPath.data.head? = some '/')
    (hroot : filepath_Clean diskPath ≠ "/")
    (hrep : replicasElement ∉ cleanElements diskPath.data)
    (hname : regularElement name.data) :
    filepath_Join [diskPath, "replicas", name] =
        filepath_Clean diskPath ++ "/replicas/" ++ name ∧
    strings_Split (filepath_Clean (filepath_Join [diskPath, "replicas", name])) "/replicas/" =
        [filepath_Clean diskPath, name] := by
  have hreg := cleanElements_regular diskPath.data habs
  have hclean := cleanChars_of_rooted diskPath.data habs
  have hne : cleanElements diskPath.data ≠ [] := by
    intro h
    apply hroot
    simp only [filepath_Clean, hclean, h, joinSlash]
  have hcleanD : cleanChars diskPath.data = rootedPath (cleanElements diskPath.data) := by
    rw [hclean, cons_joinSlash_eq_rootedPath _ hne]
  have hrepreg : regularElement replicasElement := by
    unfold regularElement replicasElement
    decide
  have hd : diskPath ≠ "" := by
    intro h
    rw [h] at habs
    simp at habs
  have hjoinChars : cleanChars (diskPath.data ++ '/' :: (replicasElement ++ '/' :: name.data)) =
      rootedPath (cleanElements diskPath.data) ++ (replicasSeparator ++ name.data) := by
    rw [cleanChars_append_two _ _ _ habs hrepreg hname, rootedPath_append]
    simp [rootedPath, replicasSeparator]
  have hjoin : filepath_Join [diskPath, "replicas", name] =
      String.mk (rootedPath (cleanElements diskPath.data) ++ (replicasSeparator ++ name.data)) := by
    have hdata : joinSlash ([diskPath, "replicas", name].map String.data) =
        diskPath.data ++ '/' :: (replicasElement ++ '/' :: name.data) := rfl
    simp only [filepath_Join, hd, if_false, hdata, hjoinChars]
  have hall : ∀ c ∈ cleanElements diskPath.data ++ [replicasElement, name.data],
      regularElement c := by
    intro c hc
    rcases List.mem_append.mp hc with h | h
    · exact hreg c h
    · simp only [List.mem_cons, List.mem_singleton, List.not_mem_nil, or_false] at h
      rcases h with rfl | rfl
      · exact hrepreg
      · exact hname
  have hpath : rootedPath (cleanElements diskPath.data) ++ (replicasSeparator ++ name.data) =
      rootedPath (cleanElements diskPath.data ++ [replicasElement, name.data]) := by
    rw [rootedPath_append]
    simp [rootedPath, replicasSeparator]
  have hclean2 : cleanChars
      (rootedPath (cleanElements diskPath.data) ++ (replicasSeparator ++ name.data)) =
      rootedPath (cleanElements diskPath.data) ++ (replicasSeparator ++ name.data) := by
    rw [hpath]
    exact cleanChars_rootedPath _ hall (by simp)
  have hsplit := splitAux_rootedPath (cleanElements diskPath.data)
    (fun c hc => ⟨(hreg c hc).2.2.2, fun h => hrep (h ▸ hc)⟩) name.data hname.2.2.2 []
  constructor
  · rw [hjoin]
    apply String.ext
    simp [filepath_Clean, hcleanD, replicasSeparator, replicasElement]
  · rw [hjoin]
    simp only [filepath_Clean, hclean2, hcleanD]
    show List.map String.mk (splitAux replicasSeparator
      (rootedPath (cleanElements diskPath.data) ++ (replicasSeparator ++ name.data)) 0 []) = _
    rw [hsplit]
    simp

/-- C11, as stated, fails: for the absolute disk path `/mnt/replicas` and the
name `vol-r-1` the data path is `/mnt/replicas/replicas/vol-r-1`, and the
upgrade sets the disk path `/mnt` and the directory name `replicas/vol-r-1`. -/
theorem upgradeReplica_diskPath_counterexample :
    (legacyReplica (filepath_Join ["/mnt/replicas", "replicas", "vol-r-1"])).Spec.NodeID ≠ "" ∧
    ("/mnt/replicas" : String).data.head? = some '/' ∧
    '/' ∉ ("vol-r-1" : String).data ∧
    ∃ r1, upgradeReplica legacyClient
        (legacyReplica (filepath_Join ["/mnt/replicas", "replicas", "vol-r-1"])) =
        UpgradeStep.update r1 ∧
      r1.Spec.DiskPath = "/mnt" ∧ r1.Spec.DataDirectoryName = "replicas/vol-r-1" ∧
      r1.Spec.DiskPath ≠ "/mnt/replicas" ∧ r1.Spec.DataDirectoryName ≠ "vol-r-1" := by
  refine ⟨by decide, by decide, by decide, _, rfl, ?_⟩
  decide

/-- C11, amended: for a replica eligible for upgrade (non-empty nodeID, node
found, disk present in the disk status and in the disk spec of the node, label
map not nil) whose dataPath is `filepath.Join(diskPath, "replicas", name)`, for
an absolute diskPath whose clean form is not the root and has no element named
`replicas`, and for a name that is not empty, not `.`, not `..` and has no `/`,
the loop body of `UpgradeReplicas` hands to `Update` a replica with
`spec.diskPath = filepath.Clean(diskPath)` and `spec.dataDirectoryName = name`,
and diskPath, `/replicas/` and dataDirectoryName put together give the original
data path. -/
theorem upgradeReplica_splits_dataPath (client : ReplicaClient) (r : Replica)
    (node : UpgradeNode) (diskUUID : String) (labels : List (String × String))
    (diskPath name : String)
    (hnode : r.Spec.NodeID ≠ "")
    (hget : client.GetNode r.Spec.NodeID = (some node, none))
    (hstatus : node.DiskStatus.lookup r.Spec.DiskID = some diskUUID)
    (hspec : node.SpecDisks.contains r.Spec.DiskID = true)
    (hlabels : r.Labels = some labels)
    (hpath : r.Spec.DataPath = filepath_Join [diskPath, "replicas", name])
    (habs : diskPath.data.head? = some '/')
    (hroot : filepath_Clean diskPath ≠ "/")
    (hrep : replicasElement ∉ cleanElements diskPath.data)
    (hname : name ≠ "" ∧ name ≠ "." ∧ name ≠ ".." ∧ '/' ∉ name.data) :
    ∃ r1, upgradeReplica client r = UpgradeStep.update r1 ∧
      r1.Spec.DiskPath = filepath_Clean diskPath ∧
      r1.Spec.DataDirectoryName = name ∧
      r1.Spec.DiskPath ++ "/replicas/" ++ r1.Spec.DataDirectoryName = r.Spec.DataPath := by
  have hreg : regularElement name.data :=
    ⟨fun h => hname.1 (String.ext h), fun h => hname.2.1 (String.ext h),
      fun h => hname.2.2.1 (String.ext h), hname.2.2.2⟩
  obtain ⟨hjoin, hsplit⟩ := split_join_dataPath diskPath name habs hroot hrep hreg
  have hdp : r.Spec.DataPath ≠ "" := by
    rw [hpath, hjoin]
    intro h
    have := congrArg String.length h
    simp at this
    exact absurd this.1.2 (by decide)
  refine ⟨finishUpgrade client.Now false
    { r with
      Labels := some (mapSet labels LonghornDiskUUIDKey diskUUID),
      Spec := { r.Spec with
        DiskID := diskUUID,
        DiskPath := filepath_Clean diskPath,
        DataDirectoryName := name } }, ?_, rfl, rfl, ?_⟩
  · have hsplit2 : strings_Split (filepath_Clean r.Spec.DataPath) "/replicas/" =
        [filepath_Clean diskPath, name] := by rw [hpath]; exact hsplit
    simp only [upgradeReplica, hdp, hnode, or_self, if_false, hget, hstatus, hspec,
      Bool.not_true, Bool.false_eq_true, hsplit2, hlabels]
  · simp [finishUpgrade, hpath, hjoin]

/-- The replica `vol-r-1` on the disk path `/var/lib/longhorn/`: the upgrade
sets the clean disk path `/var/lib/longhorn` and the directory `vol-r-1`. -/
theorem upgradeReplica_splits_dataPath_witness :
    ∃ r1, upgradeReplica legacyClient
        (legacyReplica (filepath_Join ["/var/lib/longhorn/", "replicas", "vol-r-1"])) =
        UpgradeStep.update r1 ∧
      r1.Spec.DiskPath = filepath_Clean "/var/lib/longhorn/" ∧
      r1.Spec.DataDirectoryName = "vol-r-1" ∧
      r1.Spec.DiskPath ++ "/replicas/" ++ r1.Spec.DataDirectoryName =
        (legacyReplica (filepath_Join ["/var/lib/longhorn/", "replicas", "vol-r-1"])).Spec.DataPath :=
  upgradeReplica_splits_dataPath legacyClient
    (legacyReplica (filepath_Join ["/var/lib/longhorn/", "replicas", "vol-r-1"]))
    { DiskStatus := [("disk-1", "uuid-1")], SpecDisks := ["disk-1"] } "uuid-1"
    [("longhornvolume", "vol")] "/var/lib/longhorn/" "vol-r-1"
    (by decide) rfl (by decide) (by decide) rfl rfl (by decide) (by decide) (by decide)
    (by decide)

/-! ## The volume pass on the cases of `TestVolumeLifeCycle` -/

/-- Test "volume attaching - start replicas": the volume goes to Attaching on
node 1, the replicas get `desireState = Running`, the engine is left as it is. -/
theorem syncVolume_test_start_replicas :
    syncVolume (testEnv true false)
        { volume := testVolume "test-node-1", engine := some testEngine,
          replicas := testReplicas } =
      { volume := { testVolume "test-node-1" with
          Status := { (testVolume "test-node-1").Status with
            State := VolumeState.Attaching, CurrentNodeID := "test-node-1" } },
        engine := some testEngine,
        replicas := testReplicas.map
          (fun r => { r with Spec := { r.Spec with DesireState := InstanceState.Running } }) } := by
  decide

/-- Test "volume create": a new volume stays Creating with condition Scheduled
True; one engine and two replicas on node 1 are created. -/
theorem syncVolume_test_create :
    syncVolume (testEnv true false) { volume := testVolume "", engine := none, replicas := [] } =
      { volume := testVolume "",
        engine := some testEngine,
        replicas := (newReplicas (testEnv true false) "test-volume" InstanceState.Stopped 0 2).map
          (fun r => { r with Spec := { r.Spec with
            NodeID := "test-node-1", DiskID := "disk-uuid-1",
            DataPath := "/var/lib/longhorn/replicas/" ++ r.Name } }) } := by
  decide

/-- Test "volume create - replica scheduling failure": no node allows
scheduling; the engine and two replicas without node are created, the volume
stays Creating with Scheduled False and reason ReplicaSchedulingFailure. -/
theorem syncVolume_test_scheduling_failure :
    syncVolume (testEnv false false)
        { volume := testVolume "", engine := none, replicas := [] } =
      { volume := { testVolume "" with Status := { (testVolume "").Status with
          Scheduled := { Status := false, Reason := "ReplicaSchedulingFailure" } } },
        engine := some testEngine,
        replicas := newReplicas (testEnv false false) "test-volume" InstanceState.Stopped 0 2 } := by
  decide

/-- Test "volume detached": stopped children give state Detached. -/
theorem syncVolume_test_detached :
    syncVolume (testEnv true false)
        { volume := testVolume "", engine := some testEngine, replicas := testReplicas } =
      { volume := (testVolume "").withStatus VolumeState.Detached Robustness.Unknown "",
        engine := some testEngine,
        replicas := testReplicas } := by
  decide

/-- Test "volume attaching - start controller": with both replicas running the
engine gets node 1, `desireState = Running` and both addresses. -/
theorem syncVolume_test_start_controller :
    syncVolume (testEnv true false)
        { volume := testVolume "test-node-1", engine := some testEngine,
          replicas := testReplicasRunning } =
      { volume := (testVolume "test-node-1").withStatus VolumeState.Attaching
          Robustness.Unknown "test-node-1",
        engine := some { testEngine with Spec := { testEngine.Spec with
          NodeID := "test-node-1", DesireState := InstanceState.Running,
          ReplicaAddressMap := [("test-volume-r-1", "10.0.0.1:9502"),
            ("test-volume-r-2", "10.0.0.2:9502")] } },
        replicas := testReplicasRunning } := by
  decide

/-- Test "volume attached": with the engine running and both replicas RW the
volume is Attached and Healthy and the replicas are stamped `healthyAt`. -/
theorem syncVolume_test_attached :
    syncVolume (testEnv true false)
        { volume := testVolume "test-node-1", engine := some testEngineRunning,
          replicas := testReplicasRunning } =
      { volume := (testVolume "test-node-1").withStatus VolumeState.Attached
          Robustness.Healthy "test-node-1",
        engine := some testEngineRunning,
        replicas := testReplicasRunning.map (fun r => r.healthyAt (some testNow)) } := by
  decide

/-- Test "volume detaching - stop engine": the engine is stopped and loses its
node, the replicas are left running. -/
theorem syncVolume_test_stop_engine :
    syncVolume (testEnv true false)
        { volume := testVolume "", engine := some testEngineRunning,
          replicas := testReplicasRunning.map (fun r => r.healthyAt (some testNow)) } =
      { volume := (testVolume "").withStatus VolumeState.Detaching Robustness.Unknown "",
        engine := some { testEngineRunning with Spec := { testEngineRunning.Spec with
          NodeID := "", DesireState := InstanceState.Stopped } },
        replicas := testReplicasRunning.map (fun r => r.healthyAt (some testNow)) } := by
  decide

/-- Test "volume detaching - stop replicas": with the engine observed Stopped
the replicas get `desireState = Stopped`. -/
theorem syncVolume_test_stop_replicas :
    syncVolume (testEnv true false)
        { volume := testVolume "",
          engine := some { testEngine with Spec := { testEngine.Spec with
            ReplicaAddressMap := runningAddresses testReplicasRunning } },
          replicas := testReplicasRunning.map (fun r => r.healthyAt (some testNow)) } =
      { volume := (testVolume "").withStatus VolumeState.Detaching Robustness.Unknown "",
        engine := some { testEngine with Spec := { testEngine.Spec with
          ReplicaAddressMap := runningAddresses testReplicasRunning } },
        replicas := testReplicasRunning.map
          (fun r => (r.healthyAt (some testNow)).desire InstanceState.Stopped) } := by
  decide

/-- Test "volume deleting": the volume is Deleting, no engine and no replica
is left. -/
theorem syncVolume_test_deleting :
    syncVolume (testEnv true false)
        { volume := { testVolume "" with DeletionTimestamp := some 2000 },
          engine := some testEngine, replicas := testReplicas } =
      { volume := { testVolume "" with
          DeletionTimestamp := some 2000, Finalizer := false,
          Status := { (testVolume "").Status with State := VolumeState.Deleting } },
        engine := none,
        replicas := [] } := by
  decide

/-- Test "volume salvage requested - all replica failed": the failure marks
are cleared, the replicas stay stopped, the engine gets `salvageRequested`, the
volume stays Detached with robustness Unknown, node 1 and a remount request. -/
theorem syncVolume_test_salvage :
    syncVolume (testEnv true true)
        { volume := (testVolume "test-node-1").withStatus VolumeState.Detached
            Robustness.Faulted "",
          engine := some testEngine,
          replicas := testReplicas.map
            (fun r => (r.healthyAt (some testNow)).failedAt (some testNow)) } =
      { volume := { testVolume "test-node-1" with
          Status := { (testVolume "test-node-1").Status with
            State := VolumeState.Detached, Robustness := Robustness.Unknown,
            CurrentNodeID := "test-node-1", RemountRequestedAt := some testNow } },
        engine := some { testEngine with Spec := { testEngine.Spec with
          SalvageRequested := true } },
        replicas := testReplicas.map (fun r => r.healthyAt (some testNow)) } := by
  decide

/-! ## Properties of the volume pass -/

/-- The detach side leaves the volume without node and the engine stopped
without node. -/
theorem detachFlow_engine (isNew : Bool) (v : Volume) (e : Engine) (rs : List Replica) :
    (detachFlow isNew v e rs).engine = some (stopEngine e) ∧
    (detachFlow isNew v e rs).volume.Status.CurrentNodeID = v.Status.CurrentNodeID := by
  unfold detachFlow
  split_ifs <;> simp

/-- The attach side keeps the node of the volume and starts the engine or
leaves it as it is. -/
theorem attachFlow_engine (env : ReconcileEnv) (v : Volume) (e : Engine) (rs : List Replica) :
    (attachFlow env v e rs).engine = some (startEngine v.Status.CurrentNodeID
      (rs.map startReplica) e) ∧
    (attachFlow env v e rs).volume.Status.CurrentNodeID = v.Status.CurrentNodeID := by
  unfold attachFlow
  split_ifs <;> simp

/-- The engine after `startEngine`: started on the given node, or untouched. -/
theorem startEngine_spec (node : String) (rs : List Replica) (e : Engine) :
    ((startEngine node rs e).Spec.NodeID = node ∧
      (startEngine node rs e).Spec.DesireState = InstanceState.Running ∧
      runningAddresses rs ≠ []) ∨
    (startEngine node rs e = e ∧ runningAddresses rs = []) := by
  unfold startEngine
  split
  · right; simp [*]
  · left; simp [*]

/-- C12, as stated, fails: after the pass of the test "volume attaching - start
replicas" the current node of the volume is node 1 while the node of the
engine is still empty. -/
theorem syncVolume_engine_node_counterexample :
    (syncVolume (testEnv true false)
        { volume := testVolume "test-node-1", engine := some testEngine,
          replicas := testReplicas }).volume.Status.CurrentNodeID = "test-node-1" ∧
    (syncVolume (testEnv true false)
        { volume := testVolume "test-node-1", engine := some testEngine,
          replicas := testReplicas }).engine.map (fun e => e.Spec.NodeID) = some "" := by
  decide

/-- C12, amended: after a pass that is neither the deletion nor the
auto-salvage of the volume, the node of the engine is empty when
`status.currentNodeID` is empty; when `currentNodeID` is not empty, either the
pass has started the engine (a healthy replica reports Running with an IP and
a port), and then the node of the engine is `currentNodeID` and its desireState
is Running, or the engine is left as it was before the pass. -/
theorem syncVolume_engine_node (env : ReconcileEnv) (c : Cluster) (e1 : Engine)
    (hdel : c.volume.DeletionTimestamp = none)
    (hsalvage : ¬ (c.volume.Status.State = VolumeState.Detached ∧
      c.volume.Status.Robustness = Robustness.Faulted ∧ env.AutoSalvage = true))
    (he : (syncVolume env c).engine = some e1) :
    ((syncVolume env c).volume.Status.CurrentNodeID = "" → e1.Spec.NodeID = "") ∧
    ((syncVolume env c).volume.Status.CurrentNodeID ≠ "" →
      (e1.Spec.NodeID = (syncVolume env c).volume.Status.CurrentNodeID ∧
        e1.Spec.DesireState = InstanceState.Running) ∨
      e1 = currentEngine env c) := by
  have hsync : syncVolume env c = reconcile env c := by
    simp [syncVolume, hdel, hsalvage]
  rw [hsync] at he ⊢
  unfold reconcile at he ⊢
  split_ifs at he ⊢ with h1 h2
  · have h := detachFlow_engine c.engine.isNone (faultedVolume (preparedVolume env c))
      (currentEngine env c) (preparedReplicas env c)
    rw [h.1] at he
    rw [h.2]
    cases he
    simp [stopEngine, faultedVolume]
  · have h := detachFlow_engine c.engine.isNone (preparedVolume env c)
      (currentEngine env c) (preparedReplicas env c)
    rw [h.1] at he
    rw [h.2]
    cases he
    simp [stopEngine, h2]
  · have h := attachFlow_engine env (preparedVolume env c) (currentEngine env c)
      (preparedReplicas env c)
    rw [h.1] at he
    rw [h.2]
    cases he
    refine ⟨fun h0 => absurd h0 h2, fun _ => ?_⟩
    rcases startEngine_spec (preparedVolume env c).Status.CurrentNodeID
      ((preparedReplicas env c).map startReplica) (currentEngine env c) with
      ⟨ha, hb, _⟩ | ⟨ha, _⟩
    · exact Or.inl ⟨ha, hb⟩
    · exact Or.inr ha

/-- C12, amended, on the test "volume attaching - start controller": the pass
starts the engine on node 1, the current node of the volume. -/
theorem syncVolume_engine_node_witness :
    testClusterStartController.volume.DeletionTimestamp = none ∧
    (syncVolume (testEnv true false) testClusterStartController).engine =
      some testEngineStarted ∧
    ((syncVolume (testEnv true false) testClusterStartController).volume.Status.CurrentNodeID
        ≠ "" →
      (testEngineStarted.Spec.NodeID =
          (syncVolume (testEnv true false) testClusterStartController).volume.Status.CurrentNodeID ∧
        testEngineStarted.Spec.DesireState = InstanceState.Running) ∨
      testEngineStarted = currentEngine (testEnv true false) testClusterStartController) :=
  ⟨rfl, by decide,
    (syncVolume_engine_node (testEnv true false) testClusterStartController testEngineStarted
      rfl (by decide) (by decide)).2⟩

/-- Scheduling keeps the name, the status and the marks of a replica. -/
theorem keepsFailedStopped_schedule (env : ReconcileEnv) :
    keepsFailedStopped
      (fun r => if r.Spec.NodeID = "" then (scheduleReplica env r).getD r else r) := by
  intro r
  by_cases h : r.Spec.NodeID = ""
  · simp only [h, if_true, scheduleReplica]
    split
    · simp
    · split
      · simp
      · simp [noFailedRunning, failedStopped]
  · simp [h]

/-- Failure handling keeps property P2 and stops the replicas it marks. -/
theorem keepsFailedStopped_handleFailures (now : Nat) (e : Engine) :
    keepsFailedStopped (fun r => if reportedFailed e r then markFailed now r else r) := by
  intro r
  by_cases h : reportedFailed e r = true
  · simp only [h, if_true]
    refine ⟨rfl, rfl, fun _ _ => ?_, fun _ => ⟨?_, rfl⟩⟩
    · simp [markFailed]
    · show (if r.Spec.FailedAt = none then some now else r.Spec.FailedAt) ≠ none
      split_ifs with h0
      · simp
      · exact h0
  · simp [h]

/-- A replica reported failed is marked and stopped by failure handling. -/
theorem failedStopped_markFailed (now : Nat) (r : Replica) : failedStopped (markFailed now r) := by
  refine ⟨?_, rfl⟩
  show (if r.Spec.FailedAt = none then some now else r.Spec.FailedAt) ≠ none
  split_ifs with h0
  · simp
  · exact h0

/-- Replica start keeps property P2 and does not start a failed replica. -/
theorem keepsFailedStopped_startReplica : keepsFailedStopped startReplica := by
  intro r
  unfold startReplica
  split_ifs with h
  · refine ⟨rfl, rfl, fun _ hf => absurd h.2 hf, fun hq => absurd h.2 hq.1⟩
  · simp

/-- The stamp `healthyAt` changes neither the failure mark nor the desireState. -/
theorem keepsFailedStopped_stampHealthy (now : Nat) (e : Engine) :
    keepsFailedStopped (stampHealthy now e) := by
  intro r
  unfold stampHealthy
  split_ifs <;> simp [noFailedRunning, failedStopped]

/-- Replica stop keeps property P2. -/
theorem keepsFailedStopped_stopReplica : keepsFailedStopped stopReplica := by
  intro r
  refine ⟨rfl, rfl, fun _ _ => ?_, fun h => ⟨h.1, rfl⟩⟩
  simp [stopReplica]

/-- The identity keeps everything. -/
theorem keepsFailedStopped_id : keepsFailedStopped (fun r => r) := by
  intro r
  simp

/-- Two changes after one another. -/
theorem keepsFailedStopped_comp (f g : Replica → Replica) (hf : keepsFailedStopped f)
    (hg : keepsFailedStopped g) : keepsFailedStopped (fun r => g (f r)) := by
  intro r
  obtain ⟨f1, f2, f3, f4⟩ := hf r
  obtain ⟨g1, g2, g3, g4⟩ := hg (f r)
  exact ⟨g1.trans f1, g2.trans f2, fun h => g3 (f3 h), fun h => g4 (f4 h)⟩

/-- A change that keeps property P2 keeps it on every replica of a list. -/
theorem noFailedRunning_map (g : Replica → Replica) (hg : keepsFailedStopped g)
    (rs : List Replica) (h : ∀ r ∈ rs, noFailedRunning r) :
    ∀ r ∈ rs.map g, noFailedRunning r := by
  intro r hr
  obtain ⟨r0, hr0, rfl⟩ := List.mem_map.1 hr
  exact (hg r0).2.2.1 (h r0 hr0)

/-- A change that keeps a failed replica stopped keeps it so in a list. -/
theorem failedStopped_map (g : Replica → Replica) (hg : keepsFailedStopped g)
    (rs : List Replica) (n : String) (h : ∃ r ∈ rs, r.Name = n ∧ failedStopped r) :
    ∃ r ∈ rs.map g, r.Name = n ∧ failedStopped r := by
  obtain ⟨r0, hr0, hn, hf⟩ := h
  exact ⟨g r0, List.mem_map.2 ⟨r0, hr0, rfl⟩, (hg r0).1.trans hn, (hg r0).2.2.2 hf⟩

/-- A new replica carries no failure mark. -/
theorem noFailedRunning_newReplicas (env : ReconcileEnv) (name : String) (s : InstanceState)
    (first count : Nat) : ∀ r ∈ newReplicas env name s first count, noFailedRunning r := by
  intro r hr
  obtain ⟨i, _, rfl⟩ := List.mem_map.1 hr
  intro h
  exact absurd rfl h

/-- The replicas after provisioning and scheduling keep property P2. -/
theorem noFailedRunning_provisioned (env : ReconcileEnv) (c : Cluster)
    (h : ∀ r ∈ c.replicas, noFailedRunning r) :
    ∀ r ∈ provisionedReplicas env c, noFailedRunning r := by
  unfold provisionedReplicas scheduleReplicas
  apply noFailedRunning_map _ (keepsFailedStopped_schedule env)
  split_ifs
  · exact noFailedRunning_newReplicas env _ _ _ _
  · exact h

/-- The replicas after failure handling keep property P2. -/
theorem noFailedRunning_prepared (env : ReconcileEnv) (c : Cluster)
    (h : ∀ r ∈ c.replicas, noFailedRunning r) :
    ∀ r ∈ preparedReplicas env c, noFailedRunning r := by
  unfold preparedReplicas handleFailures
  exact noFailedRunning_map _ (keepsFailedStopped_handleFailures env.Now _) _
    (noFailedRunning_provisioned env c h)

/-- The replicas added by a rebuild carry no failure mark. -/
theorem noFailedRunning_rebuildReplicas (env : ReconcileEnv) (v : Volume) (rs : List Replica)
    (h : ∀ r ∈ rs, noFailedRunning r) : ∀ r ∈ rebuildReplicas env v rs, noFailedRunning r := by
  intro r hr
  unfold rebuildReplicas at hr
  rcases List.mem_append.1 hr with hr | hr
  · exact h r hr
  · obtain ⟨r0, hr0, hs⟩ := List.mem_filterMap.1 hr
    have h0 := noFailedRunning_newReplicas env _ _ _ _ r0 hr0
    have hk := keepsFailedStopped_schedule env r0
    by_cases hn : r0.Spec.NodeID = ""
    · simp only [hn, if_true] at hk
      rw [hs] at hk
      exact hk.2.2.1 h0
    · intro hf
      unfold scheduleReplica at hs
      split at hs
      · cases hs
      · split at hs
        · cases hs
        · cases hs
          exact h0 hf

/-- The replicas the detach side leaves are the given ones, as they are or
stopped. -/
theorem detachFlow_replicas (isNew : Bool) (v : Volume) (e : Engine) (rs : List Replica) :
    (e.Status.CurrentState ≠ InstanceState.Stopped → (detachFlow isNew v e rs).replicas = rs) ∧
    (e.Status.CurrentState = InstanceState.Stopped →
      (detachFlow isNew v e rs).replicas = rs.map stopReplica) := by
  unfold detachFlow
  by_cases h : e.Status.CurrentState = InstanceState.Stopped
  · simp [h]
  · simp [h]

/-- The replicas the attach side leaves: the given ones started, stamped when
the engine reports Running, with the rebuilt ones after them when the volume
is Degraded. -/
theorem attachFlow_replicas (env : ReconcileEnv) (v : Volume) (e : Engine) (rs : List Replica) :
    (attachFlow env v e rs).replicas =
      if e.Status.CurrentState = InstanceState.Running then
        if classify v.Status.Robustness (countRW e) v.Spec.NumberOfReplicas =
            Robustness.Degraded then
          rebuildReplicas env v ((rs.map startReplica).map (stampHealthy env.Now e))
        else (rs.map startReplica).map (stampHealthy env.Now e)
      else rs.map startReplica := by
  unfold attachFlow
  by_cases h : e.Status.CurrentState = InstanceState.Running
  · simp only [h, if_true]
  · simp only [h, if_false]

/-- The replicas a pass leaves that is neither a deletion nor a salvage: the
prepared ones, as they are, stopped, started, or started and stamped, with
rebuilt ones after them. -/
theorem reconcile_replicas (env : ReconcileEnv) (c : Cluster) :
    ∃ g : Replica → Replica, keepsFailedStopped g ∧
      ((reconcile env c).replicas = (preparedReplicas env c).map g ∨
       (reconcile env c).replicas =
        rebuildReplicas env (preparedVolume env c) ((preparedReplicas env c).map g)) := by
  have hd : ∀ v, ∃ g : Replica → Replica, keepsFailedStopped g ∧
      (detachFlow c.engine.isNone v (currentEngine env c) (preparedReplicas env c)).replicas =
        (preparedReplicas env c).map g := by
    intro v
    have h := detachFlow_replicas c.engine.isNone v (currentEngine env c) (preparedReplicas env c)
    by_cases hs : (currentEngine env c).Status.CurrentState = InstanceState.Stopped
    · exact ⟨stopReplica, keepsFailedStopped_stopReplica, h.2 hs⟩
    · exact ⟨fun r => r, keepsFailedStopped_id, by rw [h.1 hs]; simp⟩
  unfold reconcile
  split_ifs with h1 h2
  · obtain ⟨g, hg, he⟩ := hd (faultedVolume (preparedVolume env c))
    exact ⟨g, hg, Or.inl he⟩
  · obtain ⟨g, hg, he⟩ := hd (preparedVolume env c)
    exact ⟨g, hg, Or.inl he⟩
  · rw [attachFlow_replicas]
    split_ifs with h3 h4
    · exact ⟨fun r => stampHealthy env.Now (currentEngine env c) (startReplica r),
        keepsFailedStopped_comp _ _ keepsFailedStopped_startReplica
          (keepsFailedStopped_stampHealthy _ _), Or.inr (by rw [List.map_map]; rfl)⟩
    · exact ⟨fun r => stampHealthy env.Now (currentEngine env c) (startReplica r),
        keepsFailedStopped_comp _ _ keepsFailedStopped_startReplica
          (keepsFailedStopped_stampHealthy _ _), Or.inl (by rw [List.map_map]; rfl)⟩
    · exact ⟨startReplica, keepsFailedStopped_startReplica, Or.inl rfl⟩

/-- A replica reported failed is in the prepared replicas with a failure mark
and `desireState = Stopped`. -/
theorem failedStopped_prepared (env : ReconcileEnv) (c : Cluster) (r : Replica)
    (hr : r ∈ c.replicas) (hf : reportedFailed (currentEngine env c) r = true) :
    ∃ r1 ∈ preparedReplicas env c, r1.Name = r.Name ∧ failedStopped r1 := by
  have hne : c.replicas ≠ [] := List.ne_nil_of_mem hr
  have hk := keepsFailedStopped_schedule env r
  have hrep : reportedFailed (currentEngine env c)
      (if r.Spec.NodeID = "" then (scheduleReplica env r).getD r else r) = true := by
    unfold reportedFailed at hf ⊢
    rw [hk.1, hk.2.1]
    exact hf
  refine ⟨markFailed env.Now (if r.Spec.NodeID = "" then (scheduleReplica env r).getD r else r),
    ?_, hk.1, failedStopped_markFailed _ _⟩
  unfold preparedReplicas handleFailures provisionedReplicas scheduleReplicas
  rw [if_neg hne]
  refine List.mem_map.2 ⟨_, List.mem_map.2 ⟨r, hr, rfl⟩, ?_⟩
  rw [if_pos hrep]

/-- The salvage keeps property P2: it clears failure marks and starts nothing. -/
theorem noFailedRunning_salvage (env : ReconcileEnv) (c : Cluster)
    (h : ∀ r ∈ c.replicas, noFailedRunning r) :
    ∀ r ∈ (salvage env c).replicas, noFailedRunning r := by
  intro r hr
  obtain ⟨r0, hr0, rfl⟩ := List.mem_map.1 hr
  split_ifs
  · intro hf
    exact absurd rfl hf
  · exact h r0 hr0

/-- C13: property P2 is an invariant of the pass.  When no replica of the
volume has both a failure mark and `desireState = Running` before a pass, none
has after it; and in a pass that is neither the deletion nor the salvage of
the volume, every replica that is reported failed (mode ERR in the engine, or
instance state Error) carries a failure mark and `desireState = Stopped` after
the pass. -/
theorem syncVolume_no_failed_running (env : ReconcileEnv) (c : Cluster)
    (h : ∀ r ∈ c.replicas, r.Spec.FailedAt ≠ none → r.Spec.DesireState ≠ InstanceState.Running) :
    (∀ r ∈ (syncVolume env c).replicas,
      r.Spec.FailedAt ≠ none → r.Spec.DesireState ≠ InstanceState.Running) ∧
    (c.volume.DeletionTimestamp = none →
      ¬ (c.volume.Status.State = VolumeState.Detached ∧
        c.volume.Status.Robustness = Robustness.Faulted ∧ env.AutoSalvage = true) →
      ∀ r ∈ c.replicas, reportedFailed (currentEngine env c) r = true →
        ∃ r1 ∈ (syncVolume env c).replicas, r1.Name = r.Name ∧
          r1.Spec.FailedAt ≠ none ∧ r1.Spec.DesireState = InstanceState.Stopped) := by
  constructor
  · unfold syncVolume
    split_ifs with h1 h2
    · intro r hr
      cases hr
    · exact noFailedRunning_salvage env c h
    · obtain ⟨g, hg, hrs | hrs⟩ := reconcile_replicas env c
      · rw [hrs]
        exact noFailedRunning_map g hg _ (noFailedRunning_prepared env c h)
      · rw [hrs]
        exact noFailedRunning_rebuildReplicas env _ _
          (noFailedRunning_map g hg _ (noFailedRunning_prepared env c h))
  · intro hdel hsalvage r hr hf
    have hsync : syncVolume env c = reconcile env c := by
      simp [syncVolume, hdel, hsalvage]
    rw [hsync]
    obtain ⟨g, hg, hrs | hrs⟩ := reconcile_replicas env c
    · rw [hrs]
      exact failedStopped_map g hg _ _ (failedStopped_prepared env c r hr hf)
    · rw [hrs]
      obtain ⟨r1, hr1, hn, hs⟩ :=
        failedStopped_map g hg _ _ (failedStopped_prepared env c r hr hf)
      exact ⟨r1, by unfold rebuildReplicas; exact List.mem_append_left _ hr1, hn, hs⟩

/-- C13 on the test "newly restored volume becomes faulted after all replica
error": both replicas run and the engine reports both in mode ERR; after the
pass the first replica carries a failure mark and is stopped. -/
theorem syncVolume_no_failed_running_witness :
    (∀ r ∈ testClusterAllERR.replicas,
      r.Spec.FailedAt ≠ none → r.Spec.DesireState ≠ InstanceState.Running) ∧
    (∀ r ∈ (syncVolume (testEnv true false) testClusterAllERR).replicas,
      r.Spec.FailedAt ≠ none → r.Spec.DesireState ≠ InstanceState.Running) ∧
    (∃ r1 ∈ (syncVolume (testEnv true false) testClusterAllERR).replicas,
      r1.Name = "test-volume-r-1" ∧
        r1.Spec.FailedAt ≠ none ∧ r1.Spec.DesireState = InstanceState.Stopped) :=
  ⟨by decide,
    (syncVolume_no_failed_running (testEnv true false) testClusterAllERR (by decide)).1,
    (syncVolume_no_failed_running (testEnv true false) testClusterAllERR (by decide)).2
      rfl (by decide)
      ((testReplica "test-volume-r-1" "test-node-1" "disk-uuid-1").running "10.0.0.1" 9502)
      (by decide) (by decide)⟩

/-- The running addresses depend on the name, the observed status and the
failure mark of the replicas only. -/
theorem runningAddresses_map (g : Replica → Replica)
    (hg : ∀ r, (g r).Name = r.Name ∧ (g r).Status = r.Status ∧
      (g r).Spec.FailedAt = r.Spec.FailedAt) (rs : List Replica) :
    runningAddresses (rs.map g) = runningAddresses rs := by
  induction rs with
  | nil => rfl
  | cons r rs ih =>
    unfold runningAddresses at ih ⊢
    have h1 : runningWithAddress (g r) = runningWithAddress r := by
      unfold runningWithAddress
      rw [(hg r).2.1, (hg r).2.2]
    have h2 : replicaAddress (g r) = replicaAddress r := by
      unfold replicaAddress
      rw [(hg r).2.1]
    rw [List.map_cons, List.filter_cons, List.filter_cons, h1]
    split_ifs
    · rw [List.map_cons, List.map_cons, ih, (hg r).1, h2]
    · exact ih

/-- Scheduling keeps the name, the status and the failure mark. -/
theorem schedule_keeps (env : ReconcileEnv) (r : Replica) :
    (if r.Spec.NodeID = "" then (scheduleReplica env r).getD r else r).Name = r.Name ∧
    (if r.Spec.NodeID = "" then (scheduleReplica env r).getD r else r).Status = r.Status ∧
    (if r.Spec.NodeID = "" then (scheduleReplica env r).getD r else r).Spec.FailedAt =
      r.Spec.FailedAt := by
  by_cases h : r.Spec.NodeID = ""
  · simp only [h, if_true, scheduleReplica]
    split
    · simp
    · split
      · simp
      · simp
  · simp [h]

/-- Replica start keeps the name, the status, the node and the failure mark. -/
theorem startReplica_keeps (r : Replica) :
    (startReplica r).Name = r.Name ∧ (startReplica r).Status = r.Status ∧
    (startReplica r).Spec.FailedAt = r.Spec.FailedAt := by
  unfold startReplica
  split_ifs <;> simp

/-- The running addresses of a list, one replica at a time. -/
theorem runningAddresses_cons (r : Replica) (rs : List Replica) :
    runningAddresses (r :: rs) =
      if runningWithAddress r = true then (r.Name, replicaAddress r) :: runningAddresses rs
      else runningAddresses rs := by
  unfold runningAddresses
  rw [List.filter_cons]
  split_ifs <;> rfl

/-- The replicas marked failed in a pass give no address to the engine. -/
theorem runningAddresses_handleFailures (now : Nat) (e : Engine) (rs : List Replica) :
    runningAddresses (handleFailures now e rs) =
      runningAddresses (rs.filter (fun r => !reportedFailed e r)) := by
  induction rs with
  | nil => rfl
  | cons r rs ih =>
    have hcons : handleFailures now e (r :: rs) =
        (if reportedFailed e r = true then markFailed now r else r) ::
          handleFailures now e rs := rfl
    by_cases h : reportedFailed e r = true
    · have h1 : runningWithAddress (markFailed now r) = false := by
        unfold runningWithAddress markFailed
        by_cases h0 : r.Spec.FailedAt = none <;> simp [h0]
      have hf : List.filter (fun r => !reportedFailed e r) (r :: rs) =
          List.filter (fun r => !reportedFailed e r) rs := by
        rw [List.filter_cons]
        simp [h]
      rw [hcons, runningAddresses_cons, if_pos h, h1, hf, ← ih]
      simp
    · have h2 : reportedFailed e r = false := by simpa using h
      have hf : List.filter (fun r => !reportedFailed e r) (r :: rs) =
          r :: List.filter (fun r => !reportedFailed e r) rs := by
        rw [List.filter_cons]
        simp [h2]
      rw [hcons, runningAddresses_cons, if_neg h, hf, runningAddresses_cons, ih]

/-- Replicas that do not report Running give no address. -/
theorem runningAddresses_eq_nil (rs : List Replica)
    (h : ∀ r ∈ rs, r.Status.CurrentState ≠ InstanceState.Running) : runningAddresses rs = [] := by
  induction rs with
  | nil => rfl
  | cons r rs ih =>
    have h1 : runningWithAddress r = false := by
      unfold runningWithAddress
      simp [h r (List.mem_cons_self _ _)]
    rw [runningAddresses_cons, h1]
    simpa using ih (fun x hx => h x (List.mem_cons_of_mem _ hx))

/-- An address comes from a replica that reports Running with an IP and a
port. -/
theorem exists_running_of_runningAddresses (rs : List Replica) (h : runningAddresses rs ≠ []) :
    ∃ r ∈ rs, r.Status.CurrentState = InstanceState.Running ∧ r.Status.IP ≠ "" ∧
      r.Status.Port ≠ 0 := by
  induction rs with
  | nil => exact absurd rfl h
  | cons r rs ih =>
    by_cases h1 : runningWithAddress r = true
    · refine ⟨r, List.mem_cons_self _ _, ?_⟩
      unfold runningWithAddress at h1
      simp at h1
      exact ⟨h1.1.1.2, h1.1.2, h1.2⟩
    · rw [runningAddresses_cons, if_neg h1] at h
      obtain ⟨x, hx, hp⟩ := ih h
      exact ⟨x, List.mem_cons_of_mem _ hx, hp⟩

/-- The addresses given to the engine are those of the replicas of the volume
that are not reported failed in the pass. -/
theorem runningAddresses_prepared (env : ReconcileEnv) (c : Cluster) :
    runningAddresses (preparedReplicas env c) =
      runningAddresses (c.replicas.filter (fun r => !reportedFailed (currentEngine env c) r)) := by
  have hp : ∀ rs : List Replica,
      runningAddresses (handleFailures env.Now (currentEngine env c) (scheduleReplicas env rs)) =
        runningAddresses (rs.filter (fun r => !reportedFailed (currentEngine env c) r)) := by
    intro rs
    rw [runningAddresses_handleFailures]
    unfold scheduleReplicas
    rw [List.filter_map]
    have hfun : ((fun r => !reportedFailed (currentEngine env c) r) ∘
        fun r => if r.Spec.NodeID = "" then (scheduleReplica env r).getD r else r) =
        fun r => !reportedFailed (currentEngine env c) r := by
      funext r
      have hk := schedule_keeps env r
      show (!reportedFailed (currentEngine env c)
        (if r.Spec.NodeID = "" then (scheduleReplica env r).getD r else r)) = _
      unfold reportedFailed
      rw [hk.1, hk.2.1]
    rw [hfun]
    exact runningAddresses_map _ (schedule_keeps env) _
  unfold preparedReplicas provisionedReplicas
  rw [hp]
  split_ifs with h0
  · rw [h0]
    apply runningAddresses_eq_nil
    intro r hr
    obtain ⟨i, _, rfl⟩ := List.mem_map.1 (List.mem_of_mem_filter hr)
    simp [newReplica]
  · rfl

/-- The engine that `startEngine` starts gets the running addresses. -/
theorem startEngine_addresses (node : String) (rs : List Replica) (e : Engine)
    (h : runningAddresses rs ≠ []) :
    (startEngine node rs e).Spec.ReplicaAddressMap = runningAddresses rs := by
  unfold startEngine
  split
  · rename_i h0
    exact absurd h0 h
  · rename_i a as h0
    rw [h0]

/-- The replicas the attach side leaves have `desireState = Running` when they
are scheduled and carry no failure mark. -/
theorem attachFlow_replicas_started (env : ReconcileEnv) (v : Volume) (e : Engine)
    (rs : List Replica) :
    ∀ r ∈ (attachFlow env v e rs).replicas, r.Spec.NodeID ≠ "" → r.Spec.FailedAt = none →
      r.Spec.DesireState = InstanceState.Running := by
  have h1 : ∀ r ∈ rs.map startReplica, r.Spec.NodeID ≠ "" → r.Spec.FailedAt = none →
      r.Spec.DesireState = InstanceState.Running := by
    intro r hr
    obtain ⟨r0, _, rfl⟩ := List.mem_map.1 hr
    unfold startReplica
    split_ifs with h
    · intro _ _
      rfl
    · intro hn hf
      exact absurd ⟨hn, hf⟩ h
  have h2 : ∀ r ∈ (rs.map startReplica).map (stampHealthy env.Now e), r.Spec.NodeID ≠ "" →
      r.Spec.FailedAt = none → r.Spec.DesireState = InstanceState.Running := by
    intro r hr
    obtain ⟨r0, hr0, rfl⟩ := List.mem_map.1 hr
    have := h1 r0 hr0
    unfold stampHealthy
    split_ifs
    · exact this
    · exact this
  rw [attachFlow_replicas]
  split_ifs
  · intro r hr
    unfold rebuildReplicas at hr
    rcases List.mem_append.1 hr with hr | hr
    · exact h2 r hr
    · obtain ⟨r0, hr0, hs⟩ := List.mem_filterMap.1 hr
      obtain ⟨i, _, rfl⟩ := List.mem_map.1 hr0
      intro _ _
      unfold scheduleReplica at hs
      split at hs
      · cases hs
      · split at hs
        · cases hs
        · cases hs
          rfl
  · exact h2
  · exact h1

/-- C14: replicas start before the engine.  When a pass sets the desireState of
the engine to Running, a replica of the volume reports Running with an IP and
a port, and `engine.spec.replicaAddressMap` holds exactly the `ip:port` of the
replicas that report Running with an IP and a port, carry no failure mark and
are not reported failed in the pass.  In a pass of a volume with an attach
node in which no replica reports Running, the engine is left as it was (its
desireState stays Stopped) and every scheduled replica without failure mark
has `desireState = Running` after the pass. -/
theorem syncVolume_replicas_before_engine (env : ReconcileEnv) (c : Cluster) (e1 : Engine)
    (he : (syncVolume env c).engine = some e1) :
    (e1.Spec.DesireState = InstanceState.Running →
      (currentEngine env c).Spec.DesireState ≠ InstanceState.Running →
      (∃ r ∈ c.replicas, r.Status.CurrentState = InstanceState.Running ∧ r.Status.IP ≠ "" ∧
        r.Status.Port ≠ 0) ∧
      e1.Spec.ReplicaAddressMap =
        runningAddresses
          (c.replicas.filter (fun r => !reportedFailed (currentEngine env c) r))) ∧
    (c.volume.DeletionTimestamp = none →
      ¬ (c.volume.Status.State = VolumeState.Detached ∧
        c.volume.Status.Robustness = Robustness.Faulted ∧ env.AutoSalvage = true) →
      (preparedVolume env c).Status.CurrentNodeID ≠ "" →
      allReplicasERR (currentEngine env c) = false →
      (∀ r ∈ c.replicas, r.Status.CurrentState ≠ InstanceState.Running) →
      e1 = currentEngine env c ∧
      ∀ r ∈ (syncVolume env c).replicas, r.Spec.NodeID ≠ "" → r.Spec.FailedAt = none →
        r.Spec.DesireState = InstanceState.Running) := by
  have hstart : runningAddresses ((preparedReplicas env c).map startReplica) =
      runningAddresses
        (c.replicas.filter (fun r => !reportedFailed (currentEngine env c) r)) := by
    rw [runningAddresses_map _ startReplica_keeps, runningAddresses_prepared]
  constructor
  · intro hrun hold
    unfold syncVolume at he
    split_ifs at he with h1 h2
    · cases he
    · unfold salvage at he
      cases hc : c.engine with
      | none => rw [hc] at he; cases he
      | some e =>
        rw [hc] at he
        cases he
        exact absurd hrun (by simpa [currentEngine, hc] using hold)
    · unfold reconcile at he
      split_ifs at he with h3 h4
      · rw [(detachFlow_engine _ _ _ _).1] at he
        cases he
        cases hrun
      · rw [(detachFlow_engine _ _ _ _).1] at he
        cases he
        cases hrun
      · rw [(attachFlow_engine _ _ _ _).1] at he
        cases he
        rcases startEngine_spec (preparedVolume env c).Status.CurrentNodeID
          ((preparedReplicas env c).map startReplica) (currentEngine env c) with
          ⟨_, _, hne⟩ | ⟨ha, _⟩
        · rw [startEngine_addresses _ _ _ hne, hstart]
          rw [hstart] at hne
          obtain ⟨r, hr, hp⟩ := exists_running_of_runningAddresses _ hne
          exact ⟨⟨r, List.mem_of_mem_filter hr, hp⟩, rfl⟩
        · rw [ha] at hrun
          exact absurd hrun hold
  · intro hdel hsalvage hnode herr hnone
    have hsync : syncVolume env c = reconcile env c := by
      simp [syncVolume, hdel, hsalvage]
    rw [hsync] at he ⊢
    unfold reconcile at he ⊢
    rw [if_neg (by simp [herr]), if_neg hnode] at he ⊢
    rw [(attachFlow_engine _ _ _ _).1] at he
    cases he
    refine ⟨?_, attachFlow_replicas_started _ _ _ _⟩
    have hnil : runningAddresses ((preparedReplicas env c).map startReplica) = [] := by
      rw [hstart]
      exact runningAddresses_eq_nil _ (fun r hr => hnone r (List.mem_of_mem_filter hr))
    unfold startEngine
    rw [hnil]

/-- C14 on the tests "volume attaching - start controller" (both replicas run
and the engine is started with both addresses) and "volume attaching - start
replicas" (no replica runs, the engine is left as it is). -/
theorem syncVolume_replicas_before_engine_witness :
    (syncVolume (testEnv true false) testClusterStartController).engine =
      some testEngineStarted ∧
    testEngineStarted.Spec.ReplicaAddressMap =
      [("test-volume-r-1", "10.0.0.1:9502"), ("test-volume-r-2", "10.0.0.2:9502")] ∧
    (syncVolume (testEnv true false) testClusterStartReplicas).engine = some testEngine ∧
    (∀ r ∈ (syncVolume (testEnv true false) testClusterStartReplicas).replicas,
      r.Spec.NodeID ≠ "" → r.Spec.FailedAt = none →
        r.Spec.DesireState = InstanceState.Running) :=
  ⟨by decide,
    ((syncVolume_replicas_before_engine (testEnv true false) testClusterStartController
      testEngineStarted (by decide)).1 rfl (by decide)).2.trans (by decide),
    by decide,
    ((syncVolume_replicas_before_engine (testEnv true false) testClusterStartReplicas
      testEngine (by decide)).2 rfl (by decide) (by decide) (by decide) (by decide)).2⟩

/-- Scheduling keeps the desireState of a replica. -/
theorem schedule_keeps_desireState (env : ReconcileEnv) (r : Replica) :
    (if r.Spec.NodeID = "" then (scheduleReplica env r).getD r else r).Spec.DesireState =
      r.Spec.DesireState := by
  by_cases h : r.Spec.NodeID = ""
  · simp only [h, if_true, scheduleReplica]
    split
    · simp
    · split
      · simp
      · simp
  · simp [h]

/-- Failure handling keeps the name, and the desireState of a replica that is
not reported failed. -/
theorem handleFailures_keeps (now : Nat) (e : Engine) (r : Replica) :
    (if reportedFailed e r = true then markFailed now r else r).Name = r.Name ∧
    (reportedFailed e r = false →
      (if reportedFailed e r = true then markFailed now r else r).Spec.DesireState =
        r.Spec.DesireState) := by
  by_cases hf : reportedFailed e r = true
  · rw [if_pos hf]
    exact ⟨rfl, fun h0 => by rw [hf] at h0; cases h0⟩
  · rw [if_neg hf]
    exact ⟨rfl, fun _ => rfl⟩

/-- The prepared replicas of a volume with replicas: the same names, and the
same desireState except on the replicas reported failed. -/
theorem preparedReplicas_desireState (env : ReconcileEnv) (c : Cluster) (hrs : c.replicas ≠ []) :
    List.Forall₂ (fun r r1 => r1.Name = r.Name ∧
        (reportedFailed (currentEngine env c) r = false →
          r1.Spec.DesireState = r.Spec.DesireState))
      c.replicas (preparedReplicas env c) := by
  unfold preparedReplicas handleFailures provisionedReplicas scheduleReplicas
  rw [if_neg hrs, List.map_map, List.forall₂_map_right_iff, List.forall₂_same]
  intro r _
  have hk := schedule_keeps env r
  have hd := schedule_keeps_desireState env r
  have hrep : reportedFailed (currentEngine env c)
      (if r.Spec.NodeID = "" then (scheduleReplica env r).getD r else r) =
      reportedFailed (currentEngine env c) r := by
    unfold reportedFailed
    rw [hk.1, hk.2.1]
  have hh := handleFailures_keeps env.Now (currentEngine env c)
    (if r.Spec.NodeID = "" then (scheduleReplica env r).getD r else r)
  rw [hrep, hk.1, hd] at hh
  rw [Function.comp_apply, hrep]
  exact hh

/-- C15: the engine stops before the replicas.  In a pass of a volume that is
being detached (no attach node is left after the attach target is resolved),
while the engine is not observed Stopped the pass sets
`engine.spec.desireState = Stopped` and leaves the desireState of every
replica as it was, Running for a running replica, except for the replicas
reported failed in the pass, which failure handling stops; when the engine is
observed Stopped, every replica has `desireState = Stopped` after the pass. -/
theorem syncVolume_engine_stops_first (env : ReconcileEnv) (c : Cluster) (e : Engine)
    (hdel : c.volume.DeletionTimestamp = none)
    (hsalvage : ¬ (c.volume.Status.State = VolumeState.Detached ∧
      c.volume.Status.Robustness = Robustness.Faulted ∧ env.AutoSalvage = true))
    (he : c.engine = some e)
    (hrs : c.replicas ≠ [])
    (hdetach : (preparedVolume env c).Status.CurrentNodeID = "") :
    (syncVolume env c).engine.map (fun e1 => e1.Spec.DesireState) = some InstanceState.Stopped ∧
    (e.Status.CurrentState ≠ InstanceState.Stopped →
      List.Forall₂ (fun r r1 => r1.Name = r.Name ∧
          (reportedFailed e r = false → r1.Spec.DesireState = r.Spec.DesireState))
        c.replicas (syncVolume env c).replicas) ∧
    (e.Status.CurrentState = InstanceState.Stopped →
      ∀ r1 ∈ (syncVolume env c).replicas, r1.Spec.DesireState = InstanceState.Stopped) := by
  have hsync : syncVolume env c = reconcile env c := by
    simp [syncVolume, hdel, hsalvage]
  have hcur : currentEngine env c = e := by
    simp [currentEngine, he]
  have hd : ∀ v, syncVolume env c = detachFlow c.engine.isNone v e (preparedReplicas env c) →
      (syncVolume env c).engine.map (fun e1 => e1.Spec.DesireState) =
        some InstanceState.Stopped ∧
      (e.Status.CurrentState ≠ InstanceState.Stopped →
        List.Forall₂ (fun r r1 => r1.Name = r.Name ∧
            (reportedFailed e r = false → r1.Spec.DesireState = r.Spec.DesireState))
          c.replicas (syncVolume env c).replicas) ∧
      (e.Status.CurrentState = InstanceState.Stopped →
        ∀ r1 ∈ (syncVolume env c).replicas, r1.Spec.DesireState = InstanceState.Stopped) := by
    intro v hv
    rw [hv]
    have h1 := detachFlow_engine c.engine.isNone v e (preparedReplicas env c)
    have h2 := detachFlow_replicas c.engine.isNone v e (preparedReplicas env c)
    refine ⟨by rw [h1.1]; rfl, fun hs => ?_, fun hs r1 hr1 => ?_⟩
    · rw [h2.1 hs]
      have := preparedReplicas_desireState env c hrs
      rw [hcur] at this
      exact this
    · rw [h2.2 hs] at hr1
      obtain ⟨r0, _, rfl⟩ := List.mem_map.1 hr1
      rfl
  rw [hsync] at hd ⊢
  unfold reconcile at hd ⊢
  rw [hcur] at hd ⊢
  split_ifs at hd ⊢ with h1
  · exact hd _ rfl
  · exact hd _ rfl

/-- C15 on the test "volume detaching - stop engine": the engine runs, the
volume is asked to detach; the engine is stopped and the replicas keep their
desireState. -/
theorem syncVolume_engine_stops_first_witness :
    testClusterStopEngine.engine = some testEngineRunning ∧
    (preparedVolume (testEnv true false) testClusterStopEngine).Status.CurrentNodeID = "" ∧
    (syncVolume (testEnv true false) testClusterStopEngine).engine.map
      (fun e1 => e1.Spec.DesireState) = some InstanceState.Stopped ∧
    List.Forall₂ (fun r r1 => r1.Name = r.Name ∧
        (reportedFailed testEngineRunning r = false →
          r1.Spec.DesireState = r.Spec.DesireState))
      testClusterStopEngine.replicas
      (syncVolume (testEnv true false) testClusterStopEngine).replicas :=
  ⟨rfl, by decide,
    (syncVolume_engine_stops_first (testEnv true false) testClusterStopEngine testEngineRunning
      rfl (by decide) rfl (by decide) (by decide)).1,
    (syncVolume_engine_stops_first (testEnv true false) testClusterStopEngine testEngineRunning
      rfl (by decide) rfl (by decide) (by decide)).2.1 (by decide)⟩

/-- C16: for a volume with a deletion timestamp, the pass sets
`status.state = Deleting`, clears the finalizer and leaves no engine and no
replica of the volume. -/
theorem syncVolume_deletion (env : ReconcileEnv) (c : Cluster)
    (h : c.volume.DeletionTimestamp ≠ none) :
    (syncVolume env c).volume.Status.State = VolumeState.Deleting ∧
    (syncVolume env c).volume.Finalizer = false ∧
    (syncVolume env c).engine = none ∧
    (syncVolume env c).replicas = [] := by
  unfold syncVolume
  rw [if_pos h]
  exact ⟨rfl, rfl, rfl, rfl⟩

/-- C16 on the test "volume deleting". -/
theorem syncVolume_deletion_witness :
    testClusterDeleting.volume.DeletionTimestamp ≠ none ∧
    (syncVolume (testEnv true false) testClusterDeleting).volume.Status.State =
      VolumeState.Deleting ∧
    (syncVolume (testEnv true false) testClusterDeleting).volume.Finalizer = false ∧
    (syncVolume (testEnv true false) testClusterDeleting).engine = none ∧
    (syncVolume (testEnv true false) testClusterDeleting).replicas = [] :=
  ⟨by decide, syncVolume_deletion (testEnv true false) testClusterDeleting (by decide)⟩

/-- A key that `lookup` finds is in the list with its value. -/
theorem mem_of_lookup_eq_some {β : Type} (k : String) (v : β) (l : List (String × β))
    (h : l.lookup k = some v) : (k, v) ∈ l := by
  induction l with
  | nil => cases h
  | cons kv l ih =>
    obtain ⟨k1, v1⟩ := kv
    by_cases hk : k = k1
    · subst hk
      simp [List.lookup] at h
      subst h
      exact List.mem_cons_self _ _
    · have hb : (k == k1) = false := by simpa using hk
      rw [List.lookup, hb] at h
      exact List.mem_cons_of_mem _ (ih h)

/-- When all replicas are ERR the engine reports no replica in mode RW. -/
theorem not_RW_of_allReplicasERR (e : Engine) (h : allReplicasERR e = true) :
    countRW e = 0 ∧ ∀ name, e.Status.ReplicaModeMap.lookup name ≠ some ReplicaMode.RW := by
  unfold allReplicasERR at h
  simp only [Bool.and_eq_true, List.all_eq_true, beq_iff_eq] at h
  refine ⟨?_, fun name hn => ?_⟩
  · unfold countRW
    rw [List.length_eq_zero, List.filter_eq_nil_iff]
    intro kv hkv
    rw [h.2 kv hkv]
    decide
  · have := h.2 _ (mem_of_lookup_eq_some name _ _ hn)
    cases this

/-- Every replica of the volume is among the prepared replicas, under its
name. -/
theorem exists_prepared_of_mem (env : ReconcileEnv) (c : Cluster) (r : Replica)
    (hr : r ∈ c.replicas) : ∃ r0 ∈ preparedReplicas env c, r0.Name = r.Name := by
  have hne : c.replicas ≠ [] := List.ne_nil_of_mem hr
  unfold preparedReplicas handleFailures provisionedReplicas scheduleReplicas
  rw [if_neg hne]
  refine ⟨_, List.mem_map.2 ⟨_, List.mem_map.2 ⟨r, hr, rfl⟩, rfl⟩, ?_⟩
  rw [(handleFailures_keeps env.Now (currentEngine env c) _).1]
  exact (schedule_keeps env r).1

/-- The volume after the attach side, while the engine reports Running: the
robustness is the class of M against N. -/
theorem attachFlow_robustness (env : ReconcileEnv) (v : Volume) (e : Engine) (rs : List Replica)
    (h : e.Status.CurrentState = InstanceState.Running) :
    (attachFlow env v e rs).volume.Status.Robustness =
      classify v.Status.Robustness (countRW e) v.Spec.NumberOfReplicas := by
  unfold attachFlow
  simp only [h, if_true]

/-- C17: for a volume that has an attach node and whose engine reports
Running, with M the number of replicas the engine reports in mode RW and
N = `spec.numberOfReplicas` at least 1: after the pass `status.robustness` is
Healthy when M = N, Degraded when 1 ≤ M < N and Faulted when M = 0; and every
replica of the volume that the engine reports RW carries
`healthyAt = now` after the pass. -/
theorem syncVolume_robustness (env : ReconcileEnv) (c : Cluster) (e : Engine)
    (hdel : c.volume.DeletionTimestamp = none)
    (hsalvage : ¬ (c.volume.Status.State = VolumeState.Detached ∧
      c.volume.Status.Robustness = Robustness.Faulted ∧ env.AutoSalvage = true))
    (hnode : (preparedVolume env c).Status.CurrentNodeID ≠ "")
    (he : c.engine = some e)
    (hrun : e.Status.CurrentState = InstanceState.Running)
    (hN : 1 ≤ c.volume.Spec.NumberOfReplicas) :
    (countRW e = c.volume.Spec.NumberOfReplicas →
      (syncVolume env c).volume.Status.Robustness = Robustness.Healthy) ∧
    (1 ≤ countRW e → countRW e < c.volume.Spec.NumberOfReplicas →
      (syncVolume env c).volume.Status.Robustness = Robustness.Degraded) ∧
    (countRW e = 0 →
      (syncVolume env c).volume.Status.Robustness = Robustness.Faulted) ∧
    (∀ r ∈ c.replicas, e.Status.ReplicaModeMap.lookup r.Name = some ReplicaMode.RW →
      ∃ r1 ∈ (syncVolume env c).replicas, r1.Name = r.Name ∧
        r1.Spec.HealthyAt = some env.Now) := by
  have hsync : syncVolume env c = reconcile env c := by
    simp [syncVolume, hdel, hsalvage]
  have hcur : currentEngine env c = e := by
    simp [currentEngine, he]
  have hspec : (preparedVolume env c).Spec.NumberOfReplicas = c.volume.Spec.NumberOfReplicas := by
    unfold preparedVolume resolveAttachTarget
    split_ifs <;> rfl
  rw [hsync]
  unfold reconcile
  rw [hcur]
  by_cases h1 : allReplicasERR e = true
  · rw [if_pos h1]
    obtain ⟨hM, hRW⟩ := not_RW_of_allReplicasERR e h1
    have hrob : (detachFlow c.engine.isNone (faultedVolume (preparedVolume env c)) e
        (preparedReplicas env c)).volume.Status.Robustness = Robustness.Faulted := by
      have hv : (faultedVolume (preparedVolume env c)).Status.Robustness =
          Robustness.Faulted := rfl
      unfold detachFlow
      by_cases hs : e.Status.CurrentState = InstanceState.Stopped
      · simp [hs, hv]
      · simp [hs, hv]
    rw [hrob, hM]
    refine ⟨fun h => ?_, fun h => ?_, fun _ => rfl, fun r _ h => absurd h (hRW r.Name)⟩
    · omega
    · omega
  · rw [if_neg h1, if_neg hnode, attachFlow_robustness env _ e _ hrun, hspec]
    refine ⟨fun h => ?_, fun ha hb => ?_, fun h => ?_, fun r hr hrw => ?_⟩
    · simp [classify, h]
    · have : countRW e ≠ c.volume.Spec.NumberOfReplicas := by omega
      simp [classify, this, ha, hb]
    · have : ¬ (0 = c.volume.Spec.NumberOfReplicas) := by omega
      simp [classify, h, this]
    · obtain ⟨r0, hr0, hn0⟩ := exists_prepared_of_mem env c r hr
      have hmem : stampHealthy env.Now e (startReplica r0) ∈
          (attachFlow env (preparedVolume env c) e (preparedReplicas env c)).replicas := by
        have hm : stampHealthy env.Now e (startReplica r0) ∈
            ((preparedReplicas env c).map startReplica).map (stampHealthy env.Now e) :=
          List.mem_map.2 ⟨_, List.mem_map.2 ⟨r0, hr0, rfl⟩, rfl⟩
        rw [attachFlow_replicas, if_pos hrun]
        split_ifs
        · unfold rebuildReplicas
          exact List.mem_append_left _ hm
        · exact hm
      have hname : (startReplica r0).Name = r.Name := (startReplica_keeps r0).1.trans hn0
      refine ⟨_, hmem, ?_, ?_⟩
      · unfold stampHealthy
        split_ifs <;> exact hname
      · unfold stampHealthy
        rw [hname, if_pos hrw]

/-- C17 on the test "volume attached": the engine runs and reports both
replicas RW, N = 2; the volume is Healthy and the first replica is stamped. -/
theorem syncVolume_robustness_witness :
    testClusterAttached.engine = some testEngineRunning ∧
    countRW testEngineRunning = testClusterAttached.volume.Spec.NumberOfReplicas ∧
    (syncVolume (testEnv true false) testClusterAttached).volume.Status.Robustness =
      Robustness.Healthy ∧
    (∃ r1 ∈ (syncVolume (testEnv true false) testClusterAttached).replicas,
      r1.Name = "test-volume-r-1" ∧ r1.Spec.HealthyAt = some testNow) :=
  ⟨rfl, by decide,
    (syncVolume_robustness (testEnv true false) testClusterAttached testEngineRunning
      rfl (by decide) (by decide) rfl rfl (by decide)).1 (by decide),
    (syncVolume_robustness (testEnv true false) testClusterAttached testEngineRunning
      rfl (by decide) (by decide) rfl rfl (by decide)).2.2.2
      ((testReplica "test-volume-r-1" "test-node-1" "disk-uuid-1").running "10.0.0.1" 9502)
      (by decide) (by decide)⟩

/-- The maximum of a list is below a bound when every element is. -/
theorem foldl_max_le_iff (l : List Nat) (a b : Nat) :
    l.foldl max a ≤ b ↔ a ≤ b ∧ ∀ x ∈ l, x ≤ b := by
  induction l generalizing a with
  | nil => simp
  | cons x l ih =>
    rw [List.foldl_cons, ih]
    constructor
    · rintro ⟨h1, h2⟩
      exact ⟨le_trans (le_max_left a x) h1, fun y hy => by
        rcases List.mem_cons.1 hy with rfl | hy
        · exact le_trans (le_max_right a y) h1
        · exact h2 y hy⟩
    · rintro ⟨h1, h2⟩
      exact ⟨max_le h1 (h2 x (List.mem_cons_self _ _)),
        fun y hy => h2 y (List.mem_cons_of_mem _ hy)⟩

/-- The salvage cohort: the replicas whose failure mark is at most the window
older than every failure mark of the volume. -/
theorem inSalvageCohort_iff (window : Nat) (rs : List Replica) (r : Replica) :
    inSalvageCohort window rs r = true ↔
      ∃ t, r.Spec.FailedAt = some t ∧
        ∀ r1 ∈ rs, ∀ t1, r1.Spec.FailedAt = some t1 → t1 ≤ t + window := by
  unfold inSalvageCohort
  cases hf : r.Spec.FailedAt with
  | none => simp
  | some t =>
    simp only [decide_eq_true_eq, Option.some.injEq, exists_eq_left', Nat.sub_le_iff_le_add]
    unfold lastFailedAt
    rw [add_comm, foldl_max_le_iff]
    constructor
    · rintro ⟨_, h⟩ r1 hr1 t1 ht1
      have := h _ (List.mem_map.2 ⟨r1, hr1, rfl⟩)
      rw [ht1] at this
      exact this
    · intro h
      refine ⟨Nat.zero_le _, fun x hx => ?_⟩
      obtain ⟨r1, hr1, rfl⟩ := List.mem_map.1 hx
      cases h1 : r1.Spec.FailedAt with
      | none => exact Nat.zero_le _
      | some t1 => exact h r1 hr1 t1 h1

/-- C18: for a volume in state Detached with robustness Faulted and
`auto-salvage = true`, the pass clears `failedAt` on exactly the replicas of
the most recent failure cohort (the replicas whose failure mark is at most the
tolerance window older than every failure mark of the volume) and leaves every
other replica and every desireState as it was; it sets
`engine.spec.salvageRequested = true`, `status.robustness = Unknown`,
`status.remountRequestedAt = now` and `status.currentNodeID` to the node asked
for by the spec of the volume. -/
theorem syncVolume_auto_salvage (env : ReconcileEnv) (c : Cluster)
    (hdel : c.volume.DeletionTimestamp = none)
    (hstate : c.volume.Status.State = VolumeState.Detached)
    (hrob : c.volume.Status.Robustness = Robustness.Faulted)
    (hauto : env.AutoSalvage = true) :
    List.Forall₂ (fun r r1 => r1.Name = r.Name ∧
        r1.Spec.DesireState = r.Spec.DesireState ∧
        ((∃ t, r.Spec.FailedAt = some t ∧
            ∀ r2 ∈ c.replicas, ∀ t2, r2.Spec.FailedAt = some t2 → t2 ≤ t + env.SalvageWindow) →
          r1.Spec.FailedAt = none) ∧
        (¬ (∃ t, r.Spec.FailedAt = some t ∧
            ∀ r2 ∈ c.replicas, ∀ t2, r2.Spec.FailedAt = some t2 → t2 ≤ t + env.SalvageWindow) →
          r1 = r))
      c.replicas (syncVolume env c).replicas ∧
    (syncVolume env c).engine.map (fun e => e.Spec.SalvageRequested) =
      c.engine.map (fun _ => true) ∧
    (syncVolume env c).volume.Status.Robustness = Robustness.Unknown ∧
    (syncVolume env c).volume.Status.RemountRequestedAt = some env.Now ∧
    (syncVolume env c).volume.Status.CurrentNodeID = c.volume.Spec.NodeID := by
  have hsync : syncVolume env c = salvage env c := by
    simp [syncVolume, hdel, hstate, hrob, hauto]
  rw [hsync]
  refine ⟨?_, ?_, rfl, rfl, rfl⟩
  · unfold salvage
    rw [List.forall₂_map_right_iff, List.forall₂_same]
    intro r _
    rw [← inSalvageCohort_iff]
    by_cases h : inSalvageCohort env.SalvageWindow c.replicas r = true
    · rw [if_pos h]
      exact ⟨rfl, rfl, fun _ => rfl, fun h0 => absurd h h0⟩
    · rw [if_neg h]
      exact ⟨rfl, rfl, fun h0 => absurd h0 h, fun _ => rfl⟩
  · unfold salvage
    cases c.engine <;> rfl

/-- C18 on the test "volume salvage requested - all replica failed": both
replicas failed at the same time; the pass asks the engine for a salvage and
attaches the volume to node 1. -/
theorem syncVolume_auto_salvage_witness :
    testClusterSalvage.volume.Status.State = VolumeState.Detached ∧
    testClusterSalvage.volume.Status.Robustness = Robustness.Faulted ∧
    (syncVolume (testEnv true true) testClusterSalvage).engine.map
      (fun e => e.Spec.SalvageRequested) = testClusterSalvage.engine.map (fun _ => true) ∧
    (syncVolume (testEnv true true) testClusterSalvage).volume.Status.Robustness =
      Robustness.Unknown ∧
    (syncVolume (testEnv true true) testClusterSalvage).volume.Status.RemountRequestedAt =
      some (testEnv true true).Now ∧
    (syncVolume (testEnv true true) testClusterSalvage).volume.Status.CurrentNodeID =
      testClusterSalvage.volume.Spec.NodeID :=
  ⟨rfl, rfl,
    (syncVolume_auto_salvage (testEnv true true) testClusterSalvage rfl rfl rfl rfl).2⟩

/-- When no node allows scheduling the scheduler has no candidate. -/
theorem scheduleReplica_eq_none (env : ReconcileEnv)
    (h : ∀ n ∈ env.Nodes, n.AllowScheduling = false) (r : Replica) :
    scheduleReplica env r = none := by
  have hc : scheduleCandidates env.Nodes = [] := by
    unfold scheduleCandidates
    have : env.Nodes.filter (fun n => n.AllowScheduling && n.Ready) = [] := by
      rw [List.filter_eq_nil_iff]
      intro n hn
      simp [h n hn]
    rw [this]
    rfl
  unfold scheduleReplica
  rw [hc]

/-- The prepared replicas of a new volume when no node allows scheduling: the
new replicas, as they were created. -/
theorem preparedReplicas_new (env : ReconcileEnv) (c : Cluster)
    (hengine : c.engine = none) (hreps : c.replicas = [])
    (h : ∀ n ∈ env.Nodes, n.AllowScheduling = false) :
    provisionedReplicas env c =
      newReplicas env c.volume.Name InstanceState.Stopped 0 c.volume.Spec.NumberOfReplicas ∧
    preparedReplicas env c =
      newReplicas env c.volume.Name InstanceState.Stopped 0 c.volume.Spec.NumberOfReplicas := by
  have hprov : provisionedReplicas env c =
      newReplicas env c.volume.Name InstanceState.Stopped 0 c.volume.Spec.NumberOfReplicas := by
    unfold provisionedReplicas scheduleReplicas
    rw [if_pos hreps]
    simp [scheduleReplica_eq_none env h]
  refine ⟨hprov, ?_⟩
  unfold preparedReplicas handleFailures
  rw [hprov]
  have hid : ∀ r ∈ newReplicas env c.volume.Name InstanceState.Stopped 0
      c.volume.Spec.NumberOfReplicas,
      (if reportedFailed (currentEngine env c) r = true then markFailed env.Now r else r) = r := by
    intro r hr
    obtain ⟨i, _, rfl⟩ := List.mem_map.1 hr
    simp [reportedFailed, currentEngine, hengine, newEngine, newReplica]
  rw [List.map_congr_left hid]
  simp

/-- C19: for a new volume (state Creating, no engine, no replica, no attach
node asked for or recorded) with `numberOfReplicas` N at least 1, when no node
allows scheduling the pass still creates N replicas and one engine, each
replica with empty nodeID, diskID and dataPath, keeps `status.state = Creating`
and sets the condition Scheduled to False with reason
`ReplicaSchedulingFailure`. -/
theorem syncVolume_scheduling_failure (env : ReconcileEnv) (c : Cluster)
    (hdel : c.volume.DeletionTimestamp = none)
    (hstate : c.volume.Status.State = VolumeState.Creating)
    (hengine : c.engine = none) (hreps : c.replicas = [])
    (hspec : c.volume.Spec.NodeID = "")
    (hcur : c.volume.Status.CurrentNodeID = "")
    (hpend : c.volume.Status.PendingNodeID = "")
    (hN : 1 ≤ c.volume.Spec.NumberOfReplicas)
    (hnodes : ∀ n ∈ env.Nodes, n.AllowScheduling = false) :
    (syncVolume env c).replicas.length = c.volume.Spec.NumberOfReplicas ∧
    (∀ r ∈ (syncVolume env c).replicas,
      r.Spec.NodeID = "" ∧ r.Spec.DiskID = "" ∧ r.Spec.DataPath = "") ∧
    (syncVolume env c).engine = some (newEngine env.EngineName) ∧
    (syncVolume env c).volume.Status.State = VolumeState.Creating ∧
    (syncVolume env c).volume.Status.Scheduled =
      { Status := false, Reason := VolumeConditionReasonReplicaSchedulingFailure } := by
  have hsync : syncVolume env c = reconcile env c := by
    simp [syncVolume, hdel, hstate]
  obtain ⟨hprov, hprep⟩ := preparedReplicas_new env c hengine hreps hnodes
  have hcure : currentEngine env c = newEngine env.EngineName := by
    simp [currentEngine, hengine]
  have herr : ¬ (allReplicasERR (currentEngine env c) = true) := by
    rw [hcure]
    simp [allReplicasERR, newEngine]
  have hsched : scheduledCondition (provisionedReplicas env c) =
      { Status := false, Reason := VolumeConditionReasonReplicaSchedulingFailure } := by
    rw [hprov]
    unfold scheduledCondition
    rw [if_neg]
    intro hall
    rw [List.all_eq_true] at hall
    have hmem : newReplica c.volume.Name (env.ReplicaName (0 + 0)) InstanceState.Stopped ∈
        newReplicas env c.volume.Name InstanceState.Stopped 0 c.volume.Spec.NumberOfReplicas :=
      List.mem_map.2 ⟨0, List.mem_range.2 (by omega), rfl⟩
    have := hall _ hmem
    simp [newReplica] at this
  have hnode : (preparedVolume env c).Status.CurrentNodeID = "" := by
    unfold preparedVolume resolveAttachTarget
    simp [hcur, hpend, hspec]
  have hcond : (preparedVolume env c).Status.Scheduled =
      scheduledCondition (provisionedReplicas env c) := by
    unfold preparedVolume resolveAttachTarget
    split_ifs <;> rfl
  have hflow : ∀ (v : Volume) (rs : List Replica),
      (detachFlow true v (newEngine env.EngineName) rs).replicas = rs.map stopReplica ∧
      (detachFlow true v (newEngine env.EngineName) rs).engine =
        some (newEngine env.EngineName) ∧
      (detachFlow true v (newEngine env.EngineName) rs).volume.Status.State =
        VolumeState.Creating ∧
      (detachFlow true v (newEngine env.EngineName) rs).volume.Status.Scheduled =
        v.Status.Scheduled := by
    intro v rs
    have hst : (newEngine env.EngineName).Status.CurrentState = InstanceState.Stopped := rfl
    unfold detachFlow
    rw [if_neg (not_not.2 hst)]
    exact ⟨rfl, rfl, rfl, rfl⟩
  rw [hsync]
  unfold reconcile
  rw [if_neg herr, if_pos hnode, hprep, hcure, hengine, Option.isNone_none]
  obtain ⟨h1, h2, h3, h4⟩ := hflow (preparedVolume env c)
    (newReplicas env c.volume.Name InstanceState.Stopped 0 c.volume.Spec.NumberOfReplicas)
  refine ⟨?_, ?_, h2, h3, ?_⟩
  · rw [h1]
    simp [newReplicas]
  · intro r hr
    rw [h1] at hr
    obtain ⟨r0, hr0, rfl⟩ := List.mem_map.1 hr
    obtain ⟨i, _, rfl⟩ := List.mem_map.1 hr0
    exact ⟨rfl, rfl, rfl⟩
  · rw [h4, hcond, hsched]

/-- C19 on the test "volume create - replica scheduling failure". -/
theorem syncVolume_scheduling_failure_witness :
    (∀ n ∈ (testEnv false false).Nodes, n.AllowScheduling = false) ∧
    (syncVolume (testEnv false false) testClusterNew).replicas.length =
      testClusterNew.volume.Spec.NumberOfReplicas ∧
    (∀ r ∈ (syncVolume (testEnv false false) testClusterNew).replicas,
      r.Spec.NodeID = "" ∧ r.Spec.DiskID = "" ∧ r.Spec.DataPath = "") ∧
    (syncVolume (testEnv false false) testClusterNew).engine =
      some (newEngine (testEnv false false).EngineName) ∧
    (syncVolume (testEnv false false) testClusterNew).volume.Status.State =
      VolumeState.Creating ∧
    (syncVolume (testEnv false false) testClusterNew).volume.Status.Scheduled =
      { Status := false, Reason := VolumeConditionReasonReplicaSchedulingFailure } :=
  ⟨by decide,
    syncVolume_scheduling_failure (testEnv false false) testClusterNew rfl rfl rfl rfl rfl rfl rfl
      (by decide) (by decide)⟩

/-! ## The upgrade of the instance manager pods -/

/-- The loop over the owner references: a reference that passes the test gets
`controller = true`, every other reference is written back as it is. -/
theorem upgradeOwnerRefs_eq_map (refs : List OwnerReference) :
    (upgradeOwnerRefs refs).1 =
      refs.map (fun r => if needsController r then { r with Controller := some true } else r) := by
  induction refs with
  | nil => rfl
  | cons r rest ih =>
    unfold upgradeOwnerRefs
    by_cases h : needsController r = true
    · simp only [h, if_true, List.map_cons, ih]
    · simp only [h, if_false, List.map_cons, ih]
      simp

/-- The flag `needToUpdate` is set when some reference passes the test. -/
theorem upgradeOwnerRefs_needToUpdate (refs : List OwnerReference) :
    (upgradeOwnerRefs refs).2 = refs.any needsController := by
  induction refs with
  | nil => rfl
  | cons r rest ih =>
    unfold upgradeOwnerRefs
    by_cases h : needsController r = true
    · simp [h]
    · simp [h, ih]

/-- A reference of kind InstanceManager with `controller = true` does not pass
the test, and a reference that does not pass the test is of another kind or has
`controller = true`. -/
theorem needsController_eq_false_iff (r : OwnerReference) :
    needsController r = false ↔
      (r.Kind ≠ LonghornKindInstanceManager ∨ r.Controller = some true) := by
  unfold needsController
  cases hc : r.Controller with
  | none => simp
  | some b => cases b <;> simp

/-- The pod behind the pointer when `upgradeInstanceMangerPodOwnerRef` ends: its
owner references are the old ones with the loop applied; the name and the
labels are the old ones; the pod handed to `Update`, if any, is this pod. -/
theorem upgradeInstanceMangerPodOwnerRef_pod (update : Pod → Option GoError) (pod : Pod) :
    (upgradeInstanceMangerPodOwnerRef update pod).pod =
      { pod with OwnerReferences := (pod.OwnerReferences.map
          (fun r => if needsController r then { r with Controller := some true } else r)) } ∧
    ((upgradeInstanceMangerPodOwnerRef update pod).updates =
        if pod.OwnerReferences.any needsController then
          [(upgradeInstanceMangerPodOwnerRef update pod).pod]
        else []) := by
  simp only [upgradeInstanceMangerPodOwnerRef, upgradeOwnerRefs_needToUpdate,
    upgradeOwnerRefs_eq_map]
  by_cases h : pod.OwnerReferences.any needsController = true
  · simp only [h, Bool.not_true, Bool.false_eq_true, if_false, if_true]
    cases update _ <;> exact ⟨rfl, rfl⟩
  · have hmap : pod.OwnerReferences.map
        (fun r => if needsController r then { r with Controller := some true } else r) =
        pod.OwnerReferences := by
      have hid : ∀ r ∈ pod.OwnerReferences,
          (if needsController r then { r with Controller := some true } else r) = r := by
        intro r hr
        have : needsController r = false := by
          simp only [List.any_eq_true, not_exists, not_and, Bool.not_eq_true] at h
          exact h r hr
        simp [this]
      rw [List.map_congr_left hid]
      simp
    simp [h, hmap]

/-- C21: after `upgradeInstanceMangerPodOwnerRef` on a pod, whether `Update`
succeeds or not, every owner reference of kind InstanceManager has
`controller = true`; a reference of another kind is unchanged; a reference of
kind InstanceManager changes in its field `controller` only; the number and
the order of the references are unchanged; and the pod handed to `Update`, if
any, is this pod. -/
theorem upgradeInstanceMangerPodOwnerRef_controller (update : Pod → Option GoError) (pod : Pod) :
    (∀ ref ∈ (upgradeInstanceMangerPodOwnerRef update pod).pod.OwnerReferences,
      ref.Kind = LonghornKindInstanceManager → ref.Controller = some true) ∧
    List.Forall₂ (fun r r1 =>
        (r.Kind ≠ LonghornKindInstanceManager → r1 = r) ∧
        (r.Kind = LonghornKindInstanceManager → r1 = { r with Controller := some true }))
      pod.OwnerReferences (upgradeInstanceMangerPodOwnerRef update pod).pod.OwnerReferences ∧
    (upgradeInstanceMangerPodOwnerRef update pod).pod.OwnerReferences.length =
      pod.OwnerReferences.length ∧
    (∀ p ∈ (upgradeInstanceMangerPodOwnerRef update pod).updates,
      p = (upgradeInstanceMangerPodOwnerRef update pod).pod) := by
  obtain ⟨hpod, hupd⟩ := upgradeInstanceMangerPodOwnerRef_pod update pod
  have hstep : ∀ r : OwnerReference,
      (r.Kind ≠ LonghornKindInstanceManager →
        (if needsController r then { r with Controller := some true } else r) = r) ∧
      (r.Kind = LonghornKindInstanceManager →
        (if needsController r then { r with Controller := some true } else r) =
          { r with Controller := some true }) := by
    intro r
    by_cases h : needsController r = true
    · rw [if_pos h]
      refine ⟨fun hk => ?_, fun _ => rfl⟩
      unfold needsController at h
      simp [hk] at h
    · rw [if_neg h]
      refine ⟨fun _ => rfl, fun hk => ?_⟩
      have h0 : needsController r = false := by simpa using h
      rcases (needsController_eq_false_iff r).1 h0 with h1 | h1
      · exact absurd hk h1
      · cases r
        simp at h1
        simp [h1]
  rw [hupd, hpod]
  refine ⟨?_, ?_, ?_, ?_⟩
  · intro ref href hk
    obtain ⟨r, _, rfl⟩ := List.mem_map.1 href
    by_cases h : needsController r = true
    · rw [if_pos h]
    · rw [if_neg h] at hk ⊢
      have h0 : needsController r = false := by simpa using h
      rcases (needsController_eq_false_iff r).1 h0 with h1 | h1
      · exact absurd hk h1
      · exact h1
  · show List.Forall₂ _ pod.OwnerReferences (pod.OwnerReferences.map _)
    rw [List.forall₂_map_right_iff, List.forall₂_same]
    intro r _
    exact hstep r
  · simp
  · intro p hp
    split_ifs at hp
    · simpa using hp
    · cases hp

/-- C21 on a pod of v1.0.2: the update succeeds; the reference to the
instance manager gets `controller = true`, the reference to the node is kept. -/
theorem upgradeInstanceMangerPodOwnerRef_controller_witness :
    (upgradeInstanceMangerPodOwnerRef (fun _ => none) legacyPod).err = none ∧
    (∀ ref ∈ (upgradeInstanceMangerPodOwnerRef (fun _ => none) legacyPod).pod.OwnerReferences,
      ref.Kind = LonghornKindInstanceManager → ref.Controller = some true) ∧
    (upgradeInstanceMangerPodOwnerRef (fun _ => none) legacyPod).pod.OwnerReferences.length =
      legacyPod.OwnerReferences.length :=
  ⟨rfl,
    (upgradeInstanceMangerPodOwnerRef_controller (fun _ => none) legacyPod).1,
    (upgradeInstanceMangerPodOwnerRef_controller (fun _ => none) legacyPod).2.2.1⟩

/-- A reference passes the test of the loop when it is of kind InstanceManager
and its `controller` is unset or false. -/
theorem needsController_iff (r : OwnerReference) :
    needsController r = true ↔
      (r.Kind = LonghornKindInstanceManager ∧
        (r.Controller = none ∨ r.Controller = some false)) := by
  unfold needsController
  cases hc : r.Controller with
  | none => simp
  | some b => cases b <;> simp

/-- No reference passes the test after the loop. -/
theorem any_needsController_upgraded (refs : List OwnerReference) :
    (refs.map (fun r => if needsController r then { r with Controller := some true } else r)).any
      needsController = false := by
  rw [List.any_eq_false]
  intro r1 hr1
  obtain ⟨r, _, rfl⟩ := List.mem_map.1 hr1
  by_cases h : needsController r = true
  · rw [if_pos h]
    simp [needsController]
  · rw [if_neg h]
    exact h

/-- When no reference passes the test the pod is left as it is and nothing is
written. -/
theorem upgradeInstanceMangerPodOwnerRef_of_any_false (update : Pod → Option GoError) (pod : Pod)
    (h : pod.OwnerReferences.any needsController = false) :
    upgradeInstanceMangerPodOwnerRef update pod = ⟨pod, [], none⟩ := by
  simp only [upgradeInstanceMangerPodOwnerRef, upgradeOwnerRefs_needToUpdate, h]
  rfl

/-- C30: `upgradeInstanceMangerPodOwnerRef` hands the pod to `Update` if and
only if some owner reference of kind InstanceManager has `controller` unset or
false; applied to the pod it leaves, it writes nothing, returns nil and leaves
the pod unchanged. -/
theorem upgradeInstanceMangerPodOwnerRef_update_iff (update : Pod → Option GoError) (pod : Pod) :
    ((upgradeInstanceMangerPodOwnerRef update pod).updates ≠ [] ↔
      ∃ ref ∈ pod.OwnerReferences, ref.Kind = LonghornKindInstanceManager ∧
        (ref.Controller = none ∨ ref.Controller = some false)) ∧
    (∀ update2 : Pod → Option GoError,
      upgradeInstanceMangerPodOwnerRef update2 (upgradeInstanceMangerPodOwnerRef update pod).pod =
        ⟨(upgradeInstanceMangerPodOwnerRef update pod).pod, [], none⟩) := by
  obtain ⟨hpod, hupd⟩ := upgradeInstanceMangerPodOwnerRef_pod update pod
  constructor
  · rw [hupd]
    constructor
    · intro h
      by_cases hany : pod.OwnerReferences.any needsController = true
      · obtain ⟨r, hr, hn⟩ := List.any_eq_true.1 hany
        exact ⟨r, hr, (needsController_iff r).1 hn⟩
      · rw [if_neg hany] at h
        exact absurd rfl h
    · rintro ⟨r, hr, hn⟩
      have hany : pod.OwnerReferences.any needsController = true :=
        List.any_eq_true.2 ⟨r, hr, (needsController_iff r).2 hn⟩
      rw [if_pos hany]
      simp
  · intro update2
    apply upgradeInstanceMangerPodOwnerRef_of_any_false
    rw [hpod]
    exact any_needsController_upgraded pod.OwnerReferences

/-! ## The upgrade of the volumes -/

/-- The loop of `UpgradeVolumes` does not panic. -/
theorem upgradeVolumesLoop_outcome (client : VolumeClient) (vs : List Volume) :
    ∃ err, (upgradeVolumesLoop client vs).outcome = Outcome.returned err := by
  induction vs with
  | nil => exact ⟨none, rfl⟩
  | cons v rest ih =>
    unfold upgradeVolumesLoop
    split_ifs
    · exact ih
    · split
      · exact ⟨_, rfl⟩
      · exact ih

/-- The volumes the loop hands to `UpdateStatus` are an initial segment of the
Degraded volumes, stamped; all of them when the loop returns nil. -/
theorem upgradeVolumesLoop_written (client : VolumeClient) (vs : List Volume) :
    ∃ rest, (vs.filter (fun v => v.Status.Robustness = Robustness.Degraded)).map
        (stampDegraded client.Now) = (upgradeVolumesLoop client vs).written ++ rest ∧
      ((upgradeVolumesLoop client vs).outcome = Outcome.returned none → rest = []) := by
  induction vs with
  | nil => exact ⟨[], rfl, fun _ => rfl⟩
  | cons v tail ih =>
    obtain ⟨rest, h1, h2⟩ := ih
    unfold upgradeVolumesLoop
    by_cases hd : v.Status.Robustness = Robustness.Degraded
    · have hf : (v :: tail).filter (fun v => v.Status.Robustness = Robustness.Degraded) =
          v :: tail.filter (fun v => v.Status.Robustness = Robustness.Degraded) := by
        rw [List.filter_cons]
        simp [hd]
      rw [if_neg (not_not.2 hd), hf, List.map_cons]
      cases hu : client.UpdateStatus (stampDegraded client.Now v) with
      | some err =>
        refine ⟨List.map (stampDegraded client.Now)
          (List.filter (fun w => decide (w.Status.Robustness = Robustness.Degraded)) tail),
          rfl, fun h => ?_⟩
        cases h
      | none =>
        refine ⟨rest, ?_, h2⟩
        show _ :: _ = _ :: _ ++ rest
        rw [h1]
        rfl
    · have hf : (v :: tail).filter (fun v => v.Status.Robustness = Robustness.Degraded) =
          tail.filter (fun v => v.Status.Robustness = Robustness.Degraded) := by
        rw [List.filter_cons]
        simp [hd]
      rw [if_pos hd, hf]
      exact ⟨rest, h1, h2⟩

/-- C23: the status updates that `UpgradeVolumes` issues are, in the order of
the list, the Degraded volumes, each with `lastDegradedAt = now` and nothing
else changed; a volume with any other robustness is never written.  When
`UpgradeVolumes` returns nil, every Degraded volume has been written; an error
of `UpdateStatus` stops the run, and the volumes written so far are an initial
segment of the Degraded ones. -/
theorem UpgradeVolumes_writes_degraded (client : VolumeClient) (vs : List Volume)
    (hlist : client.ListVolumes = (some vs, none)) :
    (∃ rest, (vs.filter (fun v => v.Status.Robustness = Robustness.Degraded)).map
        (stampDegraded client.Now) = (UpgradeVolumes client).written ++ rest) ∧
    ((UpgradeVolumes client).outcome = Outcome.returned none →
      (UpgradeVolumes client).written =
        (vs.filter (fun v => v.Status.Robustness = Robustness.Degraded)).map
          (stampDegraded client.Now)) ∧
    (∀ v1 ∈ (UpgradeVolumes client).written, ∃ v ∈ vs,
      v.Status.Robustness = Robustness.Degraded ∧
      v1 = { v with Status := { v.Status with LastDegradedAt := some client.Now } }) := by
  obtain ⟨rest, h1, h2⟩ := upgradeVolumesLoop_written client vs
  obtain ⟨err, herr⟩ := upgradeVolumesLoop_outcome client vs
  have hw : (UpgradeVolumes client).written = (upgradeVolumesLoop client vs).written := by
    simp only [UpgradeVolumes, hlist, herr]
  have ho : (UpgradeVolumes client).outcome = Outcome.returned none →
      (upgradeVolumesLoop client vs).outcome = Outcome.returned none := by
    simp only [UpgradeVolumes, hlist, herr]
    cases err with
    | none => exact fun _ => rfl
    | some e =>
      intro h
      simp [errors_Wrapf] at h
  rw [hw]
  refine ⟨⟨rest, h1⟩, fun h => ?_, fun v1 hv1 => ?_⟩
  · rw [h1, h2 (ho h), List.append_nil]
  · have hmem : v1 ∈ (vs.filter (fun v => v.Status.Robustness = Robustness.Degraded)).map
        (stampDegraded client.Now) := by
      rw [h1]
      exact List.mem_append_left _ hv1
    obtain ⟨v, hv, rfl⟩ := List.mem_map.1 hmem
    rw [List.mem_filter] at hv
    exact ⟨v, hv.1, by simpa using hv.2, rfl⟩

/-- C23 on three volumes, Healthy, Degraded and Faulted: the only update is
the Degraded volume with `lastDegradedAt = 100`. -/
theorem UpgradeVolumes_writes_degraded_witness :
    sampleVolumeClient.ListVolumes = (some sampleVolumes, none) ∧
    (UpgradeVolumes sampleVolumeClient).outcome = Outcome.returned none ∧
    (UpgradeVolumes sampleVolumeClient).written =
      (sampleVolumes.filter (fun v => v.Status.Robustness = Robustness.Degraded)).map
        (stampDegraded sampleVolumeClient.Now) :=
  ⟨rfl, by decide,
    (UpgradeVolumes_writes_degraded sampleVolumeClient sampleVolumes rfl).2.1 (by decide)⟩

/-! ## The upgrade of the replicas: failures and idempotence -/

/-- The end of the loop body keeps the name and clears the legacy data path. -/
theorem finishUpgrade_keeps (now : Nat) (failed : Bool) (r : Replica) :
    (finishUpgrade now failed r).Name = r.Name ∧ (finishUpgrade now failed r).Spec.DataPath = "" :=
  ⟨rfl, rfl⟩

/-- A replica is skipped by the loop body exactly when its data path or its
node is empty. -/
theorem upgradeReplica_skipped_iff (client : ReplicaClient) (r : Replica) :
    upgradeReplica client r = UpgradeStep.skipped ↔
      (r.Spec.DataPath = "" ∨ r.Spec.NodeID = "") := by
  constructor
  · intro h
    by_contra hne
    simp only [upgradeReplica, hne, if_false] at h
    repeat' split at h
    all_goals cases h
  · intro h
    simp only [upgradeReplica, h, if_true]

/-- A replica handed to `Update` had a data path and a node; what is written
has its name and no data path. -/
theorem upgradeReplica_update (client : ReplicaClient) (r r1 : Replica)
    (h : upgradeReplica client r = UpgradeStep.update r1) :
    (r.Spec.DataPath ≠ "" ∧ r.Spec.NodeID ≠ "") ∧ r1.Name = r.Name ∧ r1.Spec.DataPath = "" := by
  have hne : ¬ (r.Spec.DataPath = "" ∨ r.Spec.NodeID = "") := by
    intro h0
    rw [(upgradeReplica_skipped_iff client r).2 h0] at h
    cases h
  refine ⟨not_or.1 hne, ?_⟩
  simp only [upgradeReplica, hne, if_false] at h
  repeat' split at h
  all_goals cases h
  all_goals exact ⟨rfl, rfl⟩

/-- The loop passes over a replica that is skipped. -/
theorem upgradeLoop_cons_skipped (client : ReplicaClient) (r : Replica) (rest : List Replica)
    (hs : upgradeReplica client r = UpgradeStep.skipped) :
    upgradeLoop client (r :: rest) = upgradeLoop client rest := by
  rw [upgradeLoop]
  simp only [hs]

/-- The loop ends at a panic. -/
theorem upgradeLoop_cons_panicked (client : ReplicaClient) (r : Replica) (rest : List Replica)
    (hs : upgradeReplica client r = UpgradeStep.panicked) :
    upgradeLoop client (r :: rest) = ⟨[], Outcome.panicked⟩ := by
  rw [upgradeLoop]
  simp only [hs]

/-- The loop ends at the first error of `Update`. -/
theorem upgradeLoop_cons_failed (client : ReplicaClient) (r r1 : Replica) (rest : List Replica)
    (err : GoError) (hs : upgradeReplica client r = UpgradeStep.update r1)
    (hu : client.UpdateReplica r1 = some err) :
    upgradeLoop client (r :: rest) = ⟨[r1], Outcome.returned (some err)⟩ := by
  rw [upgradeLoop]
  simp only [hs, hu]

/-- The loop goes on after an `Update` that is accepted. -/
theorem upgradeLoop_cons_ok (client : ReplicaClient) (r r1 : Replica) (rest : List Replica)
    (hs : upgradeReplica client r = UpgradeStep.update r1)
    (hu : client.UpdateReplica r1 = none) :
    upgradeLoop client (r :: rest) =
      ⟨r1 :: (upgradeLoop client rest).written, (upgradeLoop client rest).outcome⟩ := by
  rw [upgradeLoop]
  simp only [hs, hu]

/-- Every replica the loop hands to `Update` is the upgrade of a listed
replica. -/
theorem upgradeLoop_written (client : ReplicaClient) (rs : List Replica) :
    ∀ r1 ∈ (upgradeLoop client rs).written,
      ∃ r ∈ rs, upgradeReplica client r = UpgradeStep.update r1 := by
  induction rs with
  | nil =>
    intro r1 h
    cases h
  | cons r rest ih =>
    intro r1 h
    cases hs : upgradeReplica client r with
    | skipped =>
      rw [upgradeLoop_cons_skipped client r rest hs] at h
      obtain ⟨r0, hr0, h0⟩ := ih r1 h
      exact ⟨r0, List.mem_cons_of_mem _ hr0, h0⟩
    | panicked =>
      rw [upgradeLoop_cons_panicked client r rest hs] at h
      cases h
    | update r2 =>
      cases hu : client.UpdateReplica r2 with
      | some err =>
        rw [upgradeLoop_cons_failed client r r2 rest err hs hu] at h
        simp only [List.mem_singleton] at h
        subst h
        exact ⟨r, List.mem_cons_self _ _, hs⟩
      | none =>
        rw [upgradeLoop_cons_ok client r r2 rest hs hu] at h
        rcases List.mem_cons.1 h with h | h
        · subst h
          exact ⟨r, List.mem_cons_self _ _, hs⟩
        · obtain ⟨r0, hr0, h0⟩ := ih r1 h
          exact ⟨r0, List.mem_cons_of_mem _ hr0, h0⟩

/-- When the loop returns nil, it has handed to `Update` the upgrade of every
replica with a data path and a node, in the order of the list, and no turn of
the loop has panicked. -/
theorem upgradeLoop_ok (client : ReplicaClient) (rs : List Replica)
    (h : (upgradeLoop client rs).outcome = Outcome.returned none) :
    List.Forall₂ (fun r r1 => upgradeReplica client r = UpgradeStep.update r1)
      (rs.filter (fun r => decide (r.Spec.DataPath ≠ "" ∧ r.Spec.NodeID ≠ "")))
      (upgradeLoop client rs).written ∧
    ∀ r ∈ rs, upgradeReplica client r ≠ UpgradeStep.panicked := by
  induction rs with
  | nil => exact ⟨List.Forall₂.nil, fun r hr => by cases hr⟩
  | cons r rest ih =>
    cases hs : upgradeReplica client r with
    | skipped =>
      rw [upgradeLoop_cons_skipped client r rest hs] at h ⊢
      obtain ⟨h1, h2⟩ := ih h
      have hskip := (upgradeReplica_skipped_iff client r).1 hs
      have hf : (r :: rest).filter (fun r => decide (r.Spec.DataPath ≠ "" ∧ r.Spec.NodeID ≠ "")) =
          rest.filter (fun r => decide (r.Spec.DataPath ≠ "" ∧ r.Spec.NodeID ≠ "")) := by
        rw [List.filter_cons]
        have : ¬ (r.Spec.DataPath ≠ "" ∧ r.Spec.NodeID ≠ "") := by
          rintro ⟨ha, hb⟩
          rcases hskip with h0 | h0
          · exact ha h0
          · exact hb h0
        simp [this]
      rw [hf]
      refine ⟨h1, fun x hx => ?_⟩
      rcases List.mem_cons.1 hx with rfl | hx
      · rw [hs]
        intro h0
        cases h0
      · exact h2 x hx
    | panicked =>
      rw [upgradeLoop_cons_panicked client r rest hs] at h
      cases h
    | update r2 =>
      cases hu : client.UpdateReplica r2 with
      | some err =>
        rw [upgradeLoop_cons_failed client r r2 rest err hs hu] at h
        cases h
      | none =>
        rw [upgradeLoop_cons_ok client r r2 rest hs hu] at h ⊢
        obtain ⟨h1, h2⟩ := ih h
        have hel := (upgradeReplica_update client r r2 hs).1
        have hf : (r :: rest).filter
            (fun r => decide (r.Spec.DataPath ≠ "" ∧ r.Spec.NodeID ≠ "")) =
            r :: rest.filter (fun r => decide (r.Spec.DataPath ≠ "" ∧ r.Spec.NodeID ≠ "")) := by
          rw [List.filter_cons]
          simp [hel]
        rw [hf]
        refine ⟨List.Forall₂.cons hs h1, fun x hx => ?_⟩
        rcases List.mem_cons.1 hx with rfl | hx
        · rw [hs]
          intro h0
          cases h0
        · exact h2 x hx

/-- On the output of a run without panic every replica is skipped: nothing is
written and the loop returns nil. -/
theorem upgradeLoop_output (client client2 : ReplicaClient) (rs : List Replica)
    (h : ∀ r ∈ rs, upgradeReplica client r ≠ UpgradeStep.panicked) :
    upgradeLoop client2 (upgradeOutput client rs) = ⟨[], Outcome.returned none⟩ := by
  induction rs with
  | nil => rfl
  | cons r rest ih =>
    have hrest := ih (fun x hx => h x (List.mem_cons_of_mem _ hx))
    have hskip : upgradeReplica client2
        (match upgradeReplica client r with
          | UpgradeStep.update r1 => r1
          | _ => r) = UpgradeStep.skipped := by
      rw [upgradeReplica_skipped_iff]
      cases hs : upgradeReplica client r with
      | skipped => exact (upgradeReplica_skipped_iff client r).1 hs
      | panicked => exact absurd hs (h r (List.mem_cons_self _ _))
      | update r1 => exact Or.inl (upgradeReplica_update client r r1 hs).2.2
    show upgradeLoop client2 (_ :: upgradeOutput client rest) = _
    rw [upgradeLoop_cons_skipped client2 _ _ hskip]
    exact hrest

/-- When `UpgradeReplicas` returns nil on a list of replicas, its loop has
returned nil and has written what `UpgradeReplicas` reports. -/
theorem UpgradeReplicas_ok (client : ReplicaClient) (rs : List Replica)
    (hlist : client.ListReplicas = (some rs, none))
    (hok : (UpgradeReplicas client).outcome = Outcome.returned none) :
    (upgradeLoop client rs).outcome = Outcome.returned none ∧
    (UpgradeReplicas client).written = (upgradeLoop client rs).written := by
  simp only [UpgradeReplicas, hlist] at hok ⊢
  cases ho : (upgradeLoop client rs).outcome with
  | panicked =>
    rw [ho] at hok
    simp only [ho] at hok
    cases hok
  | returned err =>
    rw [ho] at hok
    cases err with
    | none => exact ⟨rfl, rfl⟩
    | some e =>
      simp [errors_Wrapf] at hok

/-- C25: when `UpgradeReplicas` returns nil, it has handed to `Update` exactly
the replicas whose dataPath and nodeID are both non-empty, in the order of the
list, each under its name and with its dataPath cleared; and a second run, by
any client, on the replicas as the first run leaves them writes no replica and
returns nil. -/
theorem UpgradeReplicas_idempotent (client : ReplicaClient) (rs : List Replica)
    (hlist : client.ListReplicas = (some rs, none))
    (hok : (UpgradeReplicas client).outcome = Outcome.returned none) :
    List.Forall₂ (fun r r1 => upgradeReplica client r = UpgradeStep.update r1 ∧
        r1.Name = r.Name ∧ r1.Spec.DataPath = "")
      (rs.filter (fun r => decide (r.Spec.DataPath ≠ "" ∧ r.Spec.NodeID ≠ "")))
      (UpgradeReplicas client).written ∧
    (∀ client2 : ReplicaClient,
      client2.ListReplicas = (some (upgradeOutput client rs), none) →
      UpgradeReplicas client2 = ⟨[], Outcome.returned none⟩) := by
  obtain ⟨hloop, hw⟩ := UpgradeReplicas_ok client rs hlist hok
  obtain ⟨h1, h2⟩ := upgradeLoop_ok client rs hloop
  constructor
  · rw [hw]
    exact List.Forall₂.imp
      (fun r r1 h => ⟨h, (upgradeReplica_update client r r1 h).2.1,
        (upgradeReplica_update client r r1 h).2.2⟩) h1
  · intro client2 hlist2
    simp only [UpgradeReplicas, hlist2, upgradeLoop_output client client2 rs h2]
    rfl

/-- C25 on three replicas: the one with a data path and a node is written,
and a second run writes nothing. -/
theorem UpgradeReplicas_idempotent_witness :
    (UpgradeReplicas { legacyClient with ListReplicas := (some legacyReplicas, none) }).outcome =
      Outcome.returned none ∧
    (UpgradeReplicas { legacyClient with ListReplicas := (some legacyReplicas, none) }).written.map
      (fun r => r.Name) = ["vol-r-1"] ∧
    UpgradeReplicas { legacyClient with ListReplicas :=
      (some (upgradeOutput { legacyClient with ListReplicas := (some legacyReplicas, none) }
        legacyReplicas), none) } = ⟨[], Outcome.returned none⟩ :=
  ⟨by decide, by decide,
    (UpgradeReplicas_idempotent { legacyClient with ListReplicas := (some legacyReplicas, none) }
      legacyReplicas rfl (by decide)).2 _ rfl⟩

/-- C24: for a replica with non-empty dataPath and nodeID whose node cannot be
fetched, or whose node has no disk status or no disk spec for the diskID of the
replica, or whose cleaned dataPath does not split into exactly two parts on
`/replicas/`, the loop body of `UpgradeReplicas` hands to `Update` the replica
with `failedAt = now` when failedAt was empty and with its old failedAt
otherwise, with diskID, diskPath and dataDirectoryName (and the labels)
unchanged and the dataPath cleared. -/
theorem upgradeReplica_marks_failed (client : ReplicaClient) (r : Replica)
    (hpath : r.Spec.DataPath ≠ "") (hnode : r.Spec.NodeID ≠ "")
    (hfail : (∃ n err, client.GetNode r.Spec.NodeID = (n, some err)) ∨
      (∃ node, client.GetNode r.Spec.NodeID = (some node, none) ∧
        (node.DiskStatus.lookup r.Spec.DiskID = none ∨
          node.SpecDisks.contains r.Spec.DiskID = false ∨
          (strings_Split (filepath_Clean r.Spec.DataPath) "/replicas/").length ≠ 2))) :
    ∃ r1, upgradeReplica client r = UpgradeStep.update r1 ∧
      (r.Spec.FailedAt = none → r1.Spec.FailedAt = some client.Now) ∧
      (r.Spec.FailedAt ≠ none → r1.Spec.FailedAt = r.Spec.FailedAt) ∧
      r1.Spec.DiskID = r.Spec.DiskID ∧ r1.Spec.DiskPath = r.Spec.DiskPath ∧
      r1.Spec.DataDirectoryName = r.Spec.DataDirectoryName ∧
      r1.Labels = r.Labels ∧ r1.Spec.DataPath = "" := by
  have hstep : upgradeReplica client r = UpgradeStep.update (finishUpgrade client.Now true r) := by
    have hne : ¬ (r.Spec.DataPath = "" ∨ r.Spec.NodeID = "") := not_or.2 ⟨hpath, hnode⟩
    rcases hfail with ⟨n, err, hget⟩ | ⟨node, hget, hcase⟩
    · simp only [upgradeReplica, hne, if_false, hget]
    · simp only [upgradeReplica, hne, if_false, hget]
      cases hl : node.DiskStatus.lookup r.Spec.DiskID with
      | none => rfl
      | some diskUUID =>
        cases hc : node.SpecDisks.contains r.Spec.DiskID with
        | false => rfl
        | true =>
          have hlen : (strings_Split (filepath_Clean r.Spec.DataPath) "/replicas/").length ≠ 2 := by
            rcases hcase with h | h | h
            · rw [hl] at h
              cases h
            · rw [hc] at h
              cases h
            · exact h
          simp only [Bool.not_true, Bool.false_eq_true, if_false]
          split
          · rename_i heq
            rw [heq] at hlen
            exact absurd rfl hlen
          · rfl
  refine ⟨finishUpgrade client.Now true r, hstep, fun h => ?_, fun h => ?_, rfl, rfl, rfl, rfl, rfl⟩
  · simp [finishUpgrade, h]
  · simp [finishUpgrade, h]

/-- C24 on a replica whose node is not known to the client: the replica is
written with `failedAt = 100`. -/
theorem upgradeReplica_marks_failed_witness :
    ∃ r1, upgradeReplica legacyClient
        { legacyReplica "/var/lib/longhorn/replicas/vol-r-1" with
          Spec := { (legacyReplica "/var/lib/longhorn/replicas/vol-r-1").Spec with
            NodeID := "node-9" } } = UpgradeStep.update r1 ∧
      r1.Spec.FailedAt = some 100 ∧ r1.Spec.DiskID = "disk-1" :=
  (upgradeReplica_marks_failed legacyClient
    { legacyReplica "/var/lib/longhorn/replicas/vol-r-1" with
      Spec := { (legacyReplica "/var/lib/longhorn/replicas/vol-r-1").Spec with
        NodeID := "node-9" } }
    (by decide) (by decide)
    (Or.inl ⟨none, GoError.status StatusReason.NotFound "node not found", by decide⟩)).imp
    (fun _ h => ⟨h.1, h.2.1 rfl, h.2.2.2.1⟩)

/-! ## The volume options of the CSI driver -/

/-- C26, the defect: for the options `numberOfReplicas = "-1"` the number
parses, so `err` is nil, and `errors.Wrap(nil, ...)` is nil: `getVolumeOptions`
returns a nil volume together with a nil error. -/
theorem getVolumeOptions_negative_replicas :
    getVolumeOptions [("numberOfReplicas", "-1")] = (none, none) := by
  decide

/-- Every negative `numberOfReplicas` gives a nil volume and a nil error, when
`staleReplicaTimeout` is absent or parses. -/
theorem getVolumeOptionsTail_negative (volOptions : List (String × String)) (srt : Int)
    (s : String) (n : Int)
    (hs : volOptions.lookup "numberOfReplicas" = some s)
    (hn : strconv_Atoi s = (n, none)) (hneg : n < 0) :
    getVolumeOptionsTail volOptions srt = (none, none) := by
  simp only [getVolumeOptionsTail, hs, hn]
  simp [hneg, errors_Wrap]

/-- The tail of `getVolumeOptions` when `numberOfReplicas` is absent. -/
theorem getVolumeOptionsTail_absent (volOptions : List (String × String)) (srt : Int)
    (hl : volOptions.lookup "numberOfReplicas" = none) :
    getVolumeOptionsTail volOptions srt =
      (some { StaleReplicaTimeout := if srt ≤ 0 then defaultStaleReplicaTimeout else srt,
              NumberOfReplicas := 0,
              FromBackup := (volOptions.lookup "fromBackup").getD "",
              BaseImage := (volOptions.lookup "baseImage").getD "" }, none) := by
  simp only [getVolumeOptionsTail, hl]

/-- The tail of `getVolumeOptions` when `numberOfReplicas` is present. -/
theorem getVolumeOptionsTail_present (volOptions : List (String × String)) (srt : Int)
    (s : String) (nor : Int) (err : Option GoError)
    (hl : volOptions.lookup "numberOfReplicas" = some s)
    (ha : strconv_Atoi s = (nor, err)) :
    getVolumeOptionsTail volOptions srt =
      if err ≠ none ∨ nor < 0 then (none, errors_Wrap err "Invalid parameter numberOfReplicas")
      else
        (some { StaleReplicaTimeout := if srt ≤ 0 then defaultStaleReplicaTimeout else srt,
                NumberOfReplicas := nor,
                FromBackup := (volOptions.lookup "fromBackup").getD "",
                BaseImage := (volOptions.lookup "baseImage").getD "" }, none) := by
  simp only [getVolumeOptionsTail, hl, ha]

/-- The tail of `getVolumeOptions` returns a volume exactly when
`numberOfReplicas` is absent or parses to a number that is not negative, and
the volume is then made of the four options. -/
theorem getVolumeOptionsTail_eq_some (volOptions : List (String × String)) (srt : Int)
    (vol : ClientVolume) (h : (getVolumeOptionsTail volOptions srt).1 = some vol) :
    vol.StaleReplicaTimeout = (if srt ≤ 0 then defaultStaleReplicaTimeout else srt) ∧
    vol.FromBackup = (volOptions.lookup "fromBackup").getD "" ∧
    vol.BaseImage = (volOptions.lookup "baseImage").getD "" ∧
    ((volOptions.lookup "numberOfReplicas" = none ∧ vol.NumberOfReplicas = 0) ∨
      ∃ s, volOptions.lookup "numberOfReplicas" = some s ∧
        strconv_Atoi s = (vol.NumberOfReplicas, none) ∧ 0 ≤ vol.NumberOfReplicas) := by
  cases hl : volOptions.lookup "numberOfReplicas" with
  | none =>
    rw [getVolumeOptionsTail_absent volOptions srt hl] at h
    simp only [Option.some.injEq] at h
    subst h
    exact ⟨rfl, rfl, rfl, Or.inl ⟨rfl, rfl⟩⟩
  | some s =>
    rcases ha : strconv_Atoi s with ⟨nor, err⟩
    rw [getVolumeOptionsTail_present volOptions srt s nor err hl ha] at h
    by_cases hc : err ≠ none ∨ nor < 0
    · rw [if_pos hc] at h
      cases h
    · rw [if_neg hc] at h
      simp only [Option.some.injEq] at h
      subst h
      have herr : err = none := by
        by_contra h0
        exact hc (Or.inl h0)
      have hnor : 0 ≤ nor := by
        by_contra h0
        exact hc (Or.inr (by omega))
      subst herr
      exact ⟨rfl, rfl, rfl, Or.inr ⟨s, rfl, ha, hnor⟩⟩

/-- Options that agree on the four recognised keys give the same result. -/
theorem getVolumeOptions_congr (volOptions other : List (String × String))
    (h1 : other.lookup "staleReplicaTimeout" = volOptions.lookup "staleReplicaTimeout")
    (h2 : other.lookup "numberOfReplicas" = volOptions.lookup "numberOfReplicas")
    (h3 : other.lookup "fromBackup" = volOptions.lookup "fromBackup")
    (h4 : other.lookup "baseImage" = volOptions.lookup "baseImage") :
    getVolumeOptions other = getVolumeOptions volOptions := by
  have htail : ∀ srt, getVolumeOptionsTail other srt = getVolumeOptionsTail volOptions srt := by
    intro srt
    simp only [getVolumeOptionsTail, h2, h3, h4]
  simp only [getVolumeOptions, h1, htail]

/-- C27: when `getVolumeOptions` returns a volume, its StaleReplicaTimeout is
strictly positive: when the option `staleReplicaTimeout` is present it parses,
and the timeout is the parsed number when that is greater than 0 and the
default 20 when it is zero or negative; when the option is absent the timeout
is 20.  `fromBackup` and `baseImage` are copied as they are (empty when
absent), and options that agree on the four recognised keys give the same
result. -/
theorem getVolumeOptions_timeout (volOptions : List (String × String)) (vol : ClientVolume)
    (h : getVolumeOptions volOptions = (some vol, none)) :
    0 < vol.StaleReplicaTimeout ∧
    (∀ s, volOptions.lookup "staleReplicaTimeout" = some s →
      ∃ n, strconv_Atoi s = (n, none) ∧
        (0 < n → vol.StaleReplicaTimeout = n) ∧ (n ≤ 0 → vol.StaleReplicaTimeout = 20)) ∧
    (volOptions.lookup "staleReplicaTimeout" = none → vol.StaleReplicaTimeout = 20) ∧
    vol.FromBackup = (volOptions.lookup "fromBackup").getD "" ∧
    vol.BaseImage = (volOptions.lookup "baseImage").getD "" ∧
    (∀ other : List (String × String),
      other.lookup "staleReplicaTimeout" = volOptions.lookup "staleReplicaTimeout" →
      other.lookup "numberOfReplicas" = volOptions.lookup "numberOfReplicas" →
      other.lookup "fromBackup" = volOptions.lookup "fromBackup" →
      other.lookup "baseImage" = volOptions.lookup "baseImage" →
      getVolumeOptions other = (some vol, none)) := by
  have hpos : ∀ srt : Int, 0 < (if srt ≤ 0 then defaultStaleReplicaTimeout else srt) := by
    intro srt
    split_ifs with h0
    · decide
    · omega
  have hcongr : ∀ other : List (String × String),
      other.lookup "staleReplicaTimeout" = volOptions.lookup "staleReplicaTimeout" →
      other.lookup "numberOfReplicas" = volOptions.lookup "numberOfReplicas" →
      other.lookup "fromBackup" = volOptions.lookup "fromBackup" →
      other.lookup "baseImage" = volOptions.lookup "baseImage" →
      getVolumeOptions other = (some vol, none) := by
    intro other h1 h2 h3 h4
    rw [getVolumeOptions_congr volOptions other h1 h2 h3 h4, h]
  unfold getVolumeOptions at h
  cases hl : volOptions.lookup "staleReplicaTimeout" with
  | none =>
    simp only [hl] at h
    obtain ⟨ht, hf, hb, _⟩ := getVolumeOptionsTail_eq_some volOptions 0 vol (by rw [h])
    have h20 : vol.StaleReplicaTimeout = 20 := by
      rw [ht]
      rfl
    refine ⟨by rw [h20]; decide, fun s hs => (by cases hs), fun _ => h20, hf, hb,
      fun other h1 => hcongr other (h1.trans hl.symm)⟩
  | some s =>
    simp only [hl] at h
    rcases ha : strconv_Atoi s with ⟨n, err⟩
    simp only [ha] at h
    cases err with
    | some e =>
      simp only at h
      cases h
    | none =>
      simp only at h
      obtain ⟨ht, hf, hb, _⟩ := getVolumeOptionsTail_eq_some volOptions n vol (by rw [h])
      refine ⟨by rw [ht]; exact hpos n, fun s1 hs1 => ?_, fun h0 => (by cases h0), hf, hb,
        fun other h1 => hcongr other (h1.trans hl.symm)⟩
      cases hs1
      refine ⟨n, ha, fun hn => ?_, fun hn => ?_⟩
      · rw [ht, if_neg (by omega)]
      · rw [ht, if_pos hn]
        rfl

/-- C27 on options with a negative timeout, a backup and an unknown key: the
timeout is the default 20. -/
theorem getVolumeOptions_timeout_witness :
    getVolumeOptions sampleOptions = (some sampleClientVolume, none) ∧
    0 < sampleClientVolume.StaleReplicaTimeout ∧
    (∃ n, strconv_Atoi "-5" = (n, none) ∧
      (0 < n → sampleClientVolume.StaleReplicaTimeout = n) ∧
      (n ≤ 0 → sampleClientVolume.StaleReplicaTimeout = 20)) ∧
    sampleClientVolume.FromBackup = (sampleOptions.lookup "fromBackup").getD "" :=
  ⟨by decide,
    (getVolumeOptions_timeout sampleOptions sampleClientVolume (by decide)).1,
    (getVolumeOptions_timeout sampleOptions sampleClientVolume (by decide)).2.1 "-5" (by decide),
    (getVolumeOptions_timeout sampleOptions sampleClientVolume (by decide)).2.2.2.1⟩

/-! ## The Kubernetes node controller: a node that is gone, a write that fails -/

/-- C28: for a key whose Kubernetes node lookup returns no node and an error
that is NotFound, `syncKubernetesNode` calls `DeleteNode` on the name of the
key and nothing else, whatever `controllerID` is, and returns nil when the
deletion succeeds (the error of the deletion, wrapped, when it fails); for a
lookup error that is not NotFound it returns that error, wrapped, and deletes
nothing. -/
theorem syncKubernetesNode_lookup_error (knc : KubernetesNodeController) (key ns name : String)
    (kubeNode : Option KubeNode) (err : GoError)
    (hkey : SplitMetaNamespaceKey key = (ns, name, none))
    (hget : knc.ds.GetKubernetesNode name = (kubeNode, some err)) :
    (ErrorIsNotFound (some err) = true → kubeNode = none →
      (syncKubernetesNode knc key).effects = [Effect.DeleteNode name] ∧
      (knc.ds.DeleteNode name = none →
        (syncKubernetesNode knc key).outcome = Outcome.returned none) ∧
      (∀ e, knc.ds.DeleteNode name = some e →
        (syncKubernetesNode knc key).outcome =
          Outcome.returned (some (GoError.wrap ("fail to sync node for " ++ key) e)))) ∧
    (ErrorIsNotFound (some err) = false →
      (syncKubernetesNode knc key).effects = [] ∧
      (syncKubernetesNode knc key).outcome =
        Outcome.returned (some (GoError.wrap ("fail to sync node for " ++ key) err))) := by
  constructor
  · intro hnf hnone
    subst hnone
    refine ⟨?_, fun hd => ?_, fun e hd => ?_⟩
    · simp [syncKubernetesNode, hkey, hget, hnf]
    · simp [syncKubernetesNode, hkey, hget, hnf, hd, errors_Wrapf]
    · simp [syncKubernetesNode, hkey, hget, hnf, hd, errors_Wrapf]
  · intro hnf
    constructor
    · simp [syncKubernetesNode, hkey, hget, hnf]
    · simp [syncKubernetesNode, hkey, hget, hnf, errors_Wrapf]

/-- C28 on the key `node-9`, a node that the datastore does not know, for a
controller with another identity: the Longhorn node `node-9` is deleted and
the pass returns nil. -/
theorem syncKubernetesNode_lookup_error_witness :
    (syncKubernetesNode
        ⟨"node-1", sampleStore false (sampleKubeNode [] []) updateOk, 3⟩ "node-9").effects =
      [Effect.DeleteNode "node-9"] ∧
    (syncKubernetesNode
        ⟨"node-1", sampleStore false (sampleKubeNode [] []) updateOk, 3⟩ "node-9").outcome =
      Outcome.returned none :=
  ⟨((syncKubernetesNode_lookup_error
      ⟨"node-1", sampleStore false (sampleKubeNode [] []) updateOk, 3⟩ "node-9" "" "node-9"
      none (GoError.status StatusReason.NotFound "node not found")
      (by decide) (by decide)).1 (by decide) rfl).1,
    ((syncKubernetesNode_lookup_error
      ⟨"node-1", sampleStore false (sampleKubeNode [] []) updateOk, 3⟩ "node-9" "" "node-9"
      none (GoError.status StatusReason.NotFound "node not found")
      (by decide) (by decide)).1 (by decide) rfl).2.1 rfl⟩

/-- When the label is `true` and `UpdateNode` returns no node together with an
error, `syncDefaultDisks` panics: the message of the wrapped error reads the
name of the node that `UpdateNode` returned. -/
theorem syncDefaultDisks_update_nil (ds : DataStore) (node prepared : Node) (kubeNode : KubeNode)
    (val dataPath : String) (err : GoError)
    (hset : ds.GetSettingAsBool SettingNameCreateDefaultDiskLabeledNodes = (true, none))
    (hdisks : node.Spec.DiskPathMap = [])
    (hkn : ds.GetKubernetesNode node.Name = (some kubeNode, none))
    (hlabel : kubeNode.Labels.lookup NodeCreateDefaultDiskLabelKey = some val)
    (hval : strings_ToLower val = NodeCreateDefaultDiskLabelValueTrue)
    (hpath : ds.GetSettingValueExisted SettingNameDefaultDataPath = (dataPath, none))
    (hprep : ds.PrepareForDefaultDiskCreation dataPath node = (prepared, none))
    (hupd : ds.UpdateNode prepared = (none, some err)) :
    (syncDefaultDisks ds node).outcome = Outcome.panicked := by
  simp [syncDefaultDisks, hset, hdisks, hkn, hlabel, hval, hpath, hprep, hupd]

/-- C29, the defect: on the node `node-1` labelled `create-default-disk=true`,
with a write that returns no node and a Conflict, `syncDefaultDisks` does not
return: it panics after the call of `UpdateNode`. -/
theorem syncDefaultDisks_update_failure_panics :
    (syncDefaultDisks
      (sampleStore true (sampleKubeNode [("create-default-disk", "true")] []) updateConflict)
      sampleNode).outcome = Outcome.panicked ∧
    ∀ e, (syncDefaultDisks
      (sampleStore true (sampleKubeNode [("create-default-disk", "true")] []) updateConflict)
      sampleNode).outcome ≠ Outcome.returned e := by
  constructor
  · decide
  · intro e h
    have h0 : (syncDefaultDisks
      (sampleStore true (sampleKubeNode [("create-default-disk", "true")] []) updateConflict)
      sampleNode).outcome = Outcome.panicked := by decide
    rw [h0] at h
    cases h

/-- C8, the defect: the Kubernetes node `node-1` exists, is owned by this
controller and is labelled `create-default-disk=true`; the write of the
default-disk sync answers with no node and a Conflict.  The sync reads the name
of the missing node for the message of the error and panics, so
`syncKubernetesNode` does not return nil and the key is not requeued: the only
effects are the preparation and the write. -/
theorem syncKubernetesNode_disk_conflict_panics :
    (sampleStore true (sampleKubeNode [("create-default-disk", "true")] [])
      updateConflict).UpdateNode
        { sampleNode with Spec := { sampleNode.Spec with DiskPathMap := ["/var/lib/longhorn"] } } =
      (none, some sampleConflict) ∧
    apierrors_IsConflict (errors_Cause (some sampleConflict)) = true ∧
    (syncKubernetesNode
        { controllerID := "node-1",
          ds := sampleStore true (sampleKubeNode [("create-default-disk", "true")] [])
            updateConflict,
          maxRetries := 3 }
        "node-1").outcome = Outcome.panicked ∧
    (syncKubernetesNode
        { controllerID := "node-1",
          ds := sampleStore true (sampleKubeNode [("create-default-disk", "true")] [])
            updateConflict,
          maxRetries := 3 }
        "node-1").effects.filter Effect.isAddRateLimited = [] ∧
    (syncKubernetesNode
        { controllerID := "node-1",
          ds := sampleStore true (sampleKubeNode [("create-default-disk", "true")] [])
            updateConflict,
          maxRetries := 3 }
        "node-1").effects =
      [Effect.PrepareForDefaultDiskCreation "/var/lib/longhorn" sampleNode,
        Effect.UpdateNode
          { sampleNode with
            Spec := { sampleNode.Spec with DiskPathMap := ["/var/lib/longhorn"] } }] := by
  decide

end Longhorn
